import Mathlib

/-!
# Cooperative scheduler of the ATSAM4S firmware

A shallow embedding of the kernel in `os_APIs.c`, the main loop in
`ATSAM4SD16B.c` and of the task step functions of the drivers.

Conventions of the embedding.

* C `int` variables are `Int`; `unsigned int gunClockTick` is a `Nat` reduced
  modulo `2^32` where it is incremented.
* The arrays `gstrcTaskContext` and `gfptrTask` are maps from an index to a
  cell.  Their declared length is `taskArrayLen = __MAXTASK - 1`; a cell at an
  index outside `0 .. taskArrayLen - 1` lies outside the C object.
* A `TASK_ATTRIBUTE *` is the index of the cell of `gstrcTaskContext` it points
  to (every call in the sources passes `&gstrcTaskContext[...]`).
* A `TASK_POINTER` is the address of a routine; the routines themselves are
  given by a `TaskCode`.
-/

namespace SAM4S

/-! ## Definitions -/

/-- Maximum number of concurrent tasks supported (`osmain.h`). -/
def __MAXTASK : Int := 12

/-- Declared length of `gstrcTaskContext` and `gfptrTask` (`os_APIs.c`). -/
def taskArrayLen : Int := __MAXTASK - 1

/-- The structure `StructTASK` of `osmain.h`. -/
structure TASK_ATTRIBUTE where
  nID : Int
  nState : Int
  nTimer : Int
deriving DecidableEq, Repr

/-- Address of a task routine. -/
abbrev TASK_POINTER := Nat

/-- Store `v` into cell `i` of an array. -/
def setAt {α : Type} (a : Int → α) (i : Int) (v : α) : Int → α :=
  fun j => if j = i then v else a j

/-- The state of the kernel: the globals of `os_APIs.c`, the rest of the machine
(`world`: driver globals and peripherals), and `inTrap`, which records that
control is inside the overflow trap loop of `main`. -/
structure Kernel (W : Type) where
  inTrap : Bool
  gnRunTask : Int
  gnTaskCount : Int
  gunClockTick : Nat
  gstrcTaskContext : Int → TASK_ATTRIBUTE
  gfptrTask : Int → TASK_POINTER
  world : W

/-- Run on the cell `ptr` points to a routine that touches only its pointee. -/
def Kernel.atPtr {W : Type} (m : Kernel W) (ptr : Int)
    (f : TASK_ATTRIBUTE → TASK_ATTRIBUTE) : Kernel W :=
  { m with gstrcTaskContext := setAt m.gstrcTaskContext ptr (f (m.gstrcTaskContext ptr)) }

/-- The routine `OSInit` of `os_APIs.c`. -/
def OSInit {W : Type} (m : Kernel W) : Kernel W :=
  { m with gunClockTick := 0 }

/-- The routine `OSSetTaskContext` of `os_APIs.c`, acting on its pointee. -/
def OSSetTaskContext (ptrTaskData : TASK_ATTRIBUTE) (nState nTimer : Int) : TASK_ATTRIBUTE :=
  { ptrTaskData with nState := nState, nTimer := nTimer }

/-- The routine `OSCreateTask` of `os_APIs.c`; the result is the return value
and the new state.  In the success branch `gnTaskCount <= __MAXTASK`, so the
increment cannot overflow. -/
def OSCreateTask {W : Type} (m : Kernel W) (ptrTaskData : Int) (ptrTask : TASK_POINTER) :
    Int × Kernel W :=
  if m.gnTaskCount > __MAXTASK then
    (1, m)
  else
    let m1 := m.atPtr ptrTaskData (fun c => { c with nState := 0 })
    let m2 := m1.atPtr ptrTaskData (fun c => { c with nTimer := 1 })
    let m3 := { m2 with gfptrTask := setAt m2.gfptrTask m2.gnTaskCount ptrTask }
    let m4 := { m3 with gnTaskCount := m3.gnTaskCount + 1 }
    let m5 := m4.atPtr ptrTaskData (fun c => { c with nID := m4.gnTaskCount })
    (0, m5)

/-- The code behind the task addresses.  A step function receives the context
its argument points to and the world, and returns both; as every step function
of the sources, it does not write the kernel globals or the context of another
task. -/
abbrev TaskCode (W : Type) := TASK_POINTER → TASK_ATTRIBUTE → W → TASK_ATTRIBUTE × W

/-- The peripheral stores of `main` (port B pin 1, watchdog, indicator LED1). -/
structure Board (W : Type) where
  PIOB_SET_P1 : W → W
  PIOB_CLEAR_P1 : W → W
  ClearWatchDog : W → W
  PIN_OSPROCE1_SET : W → W

/-- The timer loop of the tick handler (`main`, lines 74 to 81): the contexts
after the iterations `0 .. ni - 1`. -/
def timerLoop (ctx : Int → TASK_ATTRIBUTE) : Nat → (Int → TASK_ATTRIBUTE)
  | 0 => ctx
  | ni + 1 =>
    let c := timerLoop ctx ni
    if (c ni).nTimer > 0 then
      setAt c ni { c ni with nTimer := (c ni).nTimer - 1 }
    else c

/-- The tick handler of `main` (lines 57 to 86), entered when the SysTick count
flag reads set. -/
def tickHandler {W : Type} (b : Board W) (m : Kernel W) : Kernel W :=
  let m1 := { m with world := b.PIOB_SET_P1 m.world }
  if m1.gnRunTask = 1 then
    { m1 with inTrap := true }
  else
    let m2 := { m1 with gnRunTask := 1 }
    let m3 := { m2 with gunClockTick := (m2.gunClockTick + 1) % 2 ^ 32 }
    let m4 := { m3 with gstrcTaskContext := timerLoop m3.gstrcTaskContext m3.gnTaskCount.toNat }
    { m4 with world := b.PIOB_CLEAR_P1 m4.world }

/-- One call made by the task scan: the table index, the routine called and the
context its argument pointed to at the call. -/
structure Invocation where
  ni : Int
  fptr : TASK_POINTER
  arg : TASK_ATTRIBUTE
deriving DecidableEq, Repr

/-- The task scan of `main` (lines 92 to 100): the state after the iterations
`0 .. ni - 1`, and the calls made, oldest first. -/
def scanLoop {W : Type} (code : TaskCode W) (m : Kernel W) : Nat → Kernel W × List Invocation
  | 0 => (m, [])
  | ni + 1 =>
    let r := scanLoop code m ni
    if (r.1.gstrcTaskContext ni).nTimer = 0 then
      let out := code (r.1.gfptrTask ni) (r.1.gstrcTaskContext ni) r.1.world
      ({ r.1 with gstrcTaskContext := setAt r.1.gstrcTaskContext ni out.1, world := out.2 },
        r.2 ++ [⟨ni, r.1.gfptrTask ni, r.1.gstrcTaskContext ni⟩])
    else r

/-- The part of a pass of `main` after the tick handler (lines 89 to 102). -/
def runTasks {W : Type} (code : TaskCode W) (b : Board W) (m : Kernel W) :
    Kernel W × List Invocation :=
  let m1 := { m with world := b.ClearWatchDog m.world }
  if m1.gnRunTask > 0 then
    let r := scanLoop code m1 m1.gnTaskCount.toNat
    ({ r.1 with gnRunTask := 0 }, r.2)
  else (m1, [])

/-- One pass of the `while (1)` loop of `main`; `tick` is what the SysTick count
flag reads.  Inside the trap, a pass is one iteration of the trap loop. -/
def mainLoopPass {W : Type} (code : TaskCode W) (b : Board W) (tick : Bool) (m : Kernel W) :
    Kernel W × List Invocation :=
  if m.inTrap then
    ({ m with world := b.PIN_OSPROCE1_SET (b.ClearWatchDog m.world) }, [])
  else
    let m1 := if tick then tickHandler b m else m
    if m1.inTrap then (m1, []) else runTasks code b m1

/-- Successive passes of the main loop, one per tick-flag value; the result is
the final state and the calls made in each pass. -/
def runPasses {W : Type} (code : TaskCode W) (b : Board W) :
    List Bool → Kernel W → Kernel W × List (List Invocation)
  | [], m => (m, [])
  | t :: ts, m =>
    let r := mainLoopPass code b t m
    let rest := runPasses code b ts r.1
    (rest.1, r.2 :: rest.2)

/-- The registrations of `main` (lines 36 to 50): each routine is registered
with `OSCreateTask(&gstrcTaskContext[gnTaskCount], f)`. -/
def registerAll {W : Type} : List TASK_POINTER → Kernel W → Kernel W
  | [], m => m
  | f :: fs, m => registerAll fs (OSCreateTask m m.gnTaskCount f).2

/-- The call the scan makes for cell `i` of state `m`, if that task is eligible. -/
def callOf {W : Type} (m : Kernel W) (i : Nat) : Option Invocation :=
  if (m.gstrcTaskContext i).nTimer = 0 then
    some ⟨i, m.gfptrTask i, m.gstrcTaskContext i⟩
  else none

/-- A board whose peripheral stores are not observed. -/
def plainBoard : Board Unit :=
  { PIOB_SET_P1 := id, PIOB_CLEAR_P1 := id, ClearWatchDog := id, PIN_OSPROCE1_SET := id }

/-- Task code in which every routine yields state `nState + 1` with timer 2. -/
def stepCode : TaskCode Unit :=
  fun _ c w => (OSSetTaskContext c (c.nState + 1) 2, w)

/-- A kernel with `n` tasks whose cell `i` holds id `i + 1`, state 0 and timer
`i` modulo 3, and whose routine addresses are `10 + i`. -/
def sampleKernel (n : Int) (run : Int) : Kernel Unit :=
  { inTrap := false, gnRunTask := run, gnTaskCount := n, gunClockTick := 2 ^ 32 - 1,
    gstrcTaskContext := fun i => ⟨i + 1, 0, i % 3⟩,
    gfptrTask := fun i => (10 + i).toNat, world := () }

/-- A kernel whose task count has reached `__MAXTASK`, with empty cells. -/
def kernelAtMax : Kernel Unit :=
  { inTrap := false, gnRunTask := 0, gnTaskCount := __MAXTASK, gunClockTick := 0,
    gstrcTaskContext := fun _ => ⟨0, 0, 0⟩, gfptrTask := fun _ => 0, world := () }

/-- Task code in which every routine yields state 0 with timer `-1`. -/
def negativeYieldCode : TaskCode Unit :=
  fun _ c w => (OSSetTaskContext c 0 (-1), w)

/-- Task code in which every routine yields its own state again with timer 1. -/
def selfLoopCode : TaskCode Unit :=
  fun _ c w => (OSSetTaskContext c c.nState 1, w)

/-- The kernel as `main` has it before the first registration. -/
def emptyKernel : Kernel Unit :=
  { inTrap := false, gnRunTask := 0, gnTaskCount := 0, gunClockTick := 0,
    gstrcTaskContext := fun _ => ⟨0, 0, 0⟩, gfptrTask := fun _ => 0, world := () }

/-- The calls of a tick in which every one of the registered routines `fs` is
called, in registration order: table index and routine. -/
def allCalls (fs : List TASK_POINTER) : List (Int × TASK_POINTER) :=
  (List.range fs.length).map (fun (i : Nat) => ((i : Int), fs.getD i 0))

/-! ### The UART driver task (`Driver_UART_V100.c`) -/

/-- What a call of a step function leaves: the context its argument points to,
the world, and the number of calls of `OSSetTaskContext` it made. -/
structure StepResult (W : Type) where
  ctx : TASK_ATTRIBUTE
  world : W
  calls : Nat

/-- A call of `OSSetTaskContext(ptrTask, nState, nTimer)` inside a step function. -/
def StepResult.setContext {W : Type} (r : StepResult W) (nState nTimer : Int) : StepResult W :=
  { r with ctx := OSSetTaskContext r.ctx nState nTimer, calls := r.calls + 1 }

/-- The bit-field structure `SCI_STATUS` of `osmain.h`; each field is one bit. -/
structure SCI_STATUS where
  bTXRDY : Bool
  bTXDMAEN : Bool
  bRXRDY : Bool
  bRXOVF : Bool
  bRFTXRDY : Bool
  bRFRXRDY : Bool
  bRFRESET : Bool
  bRFTXERR : Bool
deriving DecidableEq, Repr

/-- The constants of the device header `sam.h` that the UART driver uses; the
header is not part of the sources, so they are parameters. -/
structure UartHeader where
  PIO_PPDDR_P9 : Nat
  PIO_PUER_P9 : Nat
  PIO_ODR_P9 : Nat
  PIO_PDR_P9 : Nat
  PIO_PDR_P10 : Nat
  PIO_ABCDSR_P9 : Nat
  PIO_ABCDSR_P10 : Nat
  PIO_ODSR_P3 : Nat
  PMC_PCER0_PID8 : Nat
  UART_MR_PAR_NO : Nat
  UART_MR_CHMODE_NORMAL : Nat
  UART_CR_TXEN : Nat
  UART_CR_RXEN : Nat
  UART_CR_RSTSTA : Nat
  UART_SR_TXRDY : Nat
  UART_SR_ENDTX : Nat
  UART_SR_FRAME : Nat
  UART_SR_OVRE : Nat
  UART_SR_RXRDY : Nat

/-- The 32-bit peripheral registers the UART driver reads back and writes. -/
inductive UartReg where
  | PIOA_PPDDR | PIOA_PUER | PIOA_ODR | PIOA_PDR | PIOA_ABCDSR0 | PIOA_ABCDSR1
  | PIOB_ODSR | PMC_PCER0 | UART0_BRGR | UART0_MR | UART0_CR
deriving DecidableEq, Repr

/-- The constant `__SCI_RXBUF_LENGTH` of `osmain.h`. -/
def __SCI_RXBUF_LENGTH : Nat := 8

/-- The globals of the UART driver and the UART peripheral.  The status register
and the receive holding register are volatile inputs: `UART_SR n` is the value
of the `n`-th read since reset, `srReads` counts the reads made so far, and
likewise for `UART_RHR`.  `UART_THR` lists the bytes stored to the transmit
holding register, oldest first.  The buffers are maps from index to byte. -/
structure UartWorld where
  gSCIstatus : SCI_STATUS
  gbytTXbuffer : Int → Nat
  gbytTXbufptr : Nat
  gbytTXbuflen : Nat
  gbytRXbuffer : Int → Nat
  gbytRXbufptr : Nat
  regs : UartReg → Nat
  UART_SR : Nat → Nat
  srReads : Nat
  UART_RHR : Nat → Nat
  rhrReads : Nat
  UART_THR : List Nat

/-- Store to a peripheral register. -/
def UartWorld.store (w : UartWorld) (r : UartReg) (v : Nat) : UartWorld :=
  { w with regs := fun x => if x = r then v else w.regs x }

/-- The statement `reg |= mask`. -/
def UartWorld.orBits (w : UartWorld) (r : UartReg) (mask : Nat) : UartWorld :=
  w.store r (w.regs r ||| mask)

/-- The statement `reg &= ~mask` on a 32-bit register. -/
def UartWorld.clearBits (w : UartWorld) (r : UartReg) (mask : Nat) : UartWorld :=
  w.store r (w.regs r &&& (0xFFFFFFFF ^^^ mask))

/-- A read of `UART0->UART_SR`: the value read and the world after the read. -/
def UartWorld.readSR (w : UartWorld) : Nat × UartWorld :=
  (w.UART_SR w.srReads, { w with srReads := w.srReads + 1 })

/-- A read of `UART0->UART_RHR`. -/
def UartWorld.readRHR (w : UartWorld) : Nat × UartWorld :=
  (w.UART_RHR w.rhrReads, { w with rhrReads := w.rhrReads + 1 })

/-- State 0 of `Proce_UART_Driver` up to the call of `OSSetTaskContext`.  The
baud-rate divisor `(__FPERIPHERAL_MHz*1000)/(16*_UART_BAUDRATE_kBPS)` is the
constant `120000/1843.2`, stored as 65. -/
def uartInit (k : UartHeader) (w : UartWorld) : UartWorld :=
  let w := w.orBits .PIOA_PPDDR k.PIO_PPDDR_P9
  let w := w.orBits .PIOA_PUER k.PIO_PUER_P9
  let w := w.orBits .PIOA_ODR k.PIO_ODR_P9
  let w := w.orBits .PIOA_PDR k.PIO_PDR_P9
  let w := w.orBits .PIOA_PDR k.PIO_PDR_P10
  let w := w.clearBits .PIOA_ABCDSR0 k.PIO_ABCDSR_P9
  let w := w.clearBits .PIOA_ABCDSR1 k.PIO_ABCDSR_P9
  let w := w.clearBits .PIOA_ABCDSR0 k.PIO_ABCDSR_P10
  let w := w.clearBits .PIOA_ABCDSR1 k.PIO_ABCDSR_P10
  let w := w.store .UART0_BRGR 65
  let w := w.store .UART0_MR (k.UART_MR_PAR_NO ||| k.UART_MR_CHMODE_NORMAL)
  let w := w.store .UART0_CR (w.regs .UART0_CR ||| k.UART_CR_TXEN ||| k.UART_CR_RXEN)
  let w := { w with gbytTXbuflen := 0 }
  let w := { w with gbytTXbufptr := 0 }
  let w := { w with gSCIstatus := { w.gSCIstatus with bRXRDY := false } }
  let w := { w with gSCIstatus := { w.gSCIstatus with bTXRDY := false } }
  let w := { w with gSCIstatus := { w.gSCIstatus with bRXOVF := false } }
  let w := { w with gbytRXbufptr := 0 }
  let w := w.clearBits .PIOB_ODSR k.PIO_ODSR_P3
  w.orBits .PMC_PCER0 k.PMC_PCER0_PID8

/-- The transmit loop of state 1 (lines 217 to 233), with `fuel` bounding the
number of iterations; `none` when the fuel runs out. -/
def uartTxLoop (k : UartHeader) : Nat → UartWorld → Option UartWorld
  | 0, _ => none
  | fuel + 1, w =>
    let rd := w.readSR
    if rd.1 &&& k.UART_SR_TXRDY > 0 then
      let w1 := rd.2.orBits .PIOB_ODSR k.PIO_ODSR_P3
      if w1.gbytTXbufptr < w1.gbytTXbuflen then
        let w2 := { w1 with UART_THR := w1.UART_THR ++ [w1.gbytTXbuffer w1.gbytTXbufptr] }
        let w3 := { w2 with gbytTXbufptr := (w2.gbytTXbufptr + 1) % 256 }
        uartTxLoop k fuel w3
      else
        let w2 := { w1 with gbytTXbufptr := 0 }
        let w3 := { w2 with gbytTXbuflen := 0 }
        let w4 := { w3 with gSCIstatus := { w3.gSCIstatus with bTXRDY := false } }
        some (w4.clearBits .PIOB_ODSR k.PIO_ODSR_P3)
    else some rd.2

/-- The receive loop of state 1 (lines 255 to 271), with `fuel` bounding the
number of iterations; `none` when the fuel runs out. -/
def uartRxLoop (k : UartHeader) : Nat → UartWorld → Option UartWorld
  | 0, _ => none
  | fuel + 1, w =>
    let rd := w.readSR
    if rd.1 &&& k.UART_SR_RXRDY > 0 then
      let w1 := rd.2.orBits .PIOB_ODSR k.PIO_ODSR_P3
      if w1.gbytRXbufptr < __SCI_RXBUF_LENGTH then
        let rh := w1.readRHR
        let w2 := { rh.2 with
          gbytRXbuffer := setAt rh.2.gbytRXbuffer rh.2.gbytRXbufptr (rh.1 % 256) }
        let w3 := { w2 with gbytRXbufptr := (w2.gbytRXbufptr + 1) % 256 }
        let w4 := { w3 with gSCIstatus := { w3.gSCIstatus with bRXRDY := true } }
        uartRxLoop k fuel w4
      else
        let w2 := { w1 with gbytRXbufptr := 0 }
        let w3 := { w2 with gSCIstatus := { w2.gSCIstatus with bRXOVF := true } }
        uartRxLoop k fuel w3
    else some rd.2

/-- The transmit part of state 1 (lines 213 to 244).  The flag of the result
tells whether control left the `switch` through the `break` of line 241. -/
def uartTransmit (k : UartHeader) (fuel : Nat) (w : UartWorld) : Option (UartWorld × Bool) :=
  if w.gSCIstatus.bTXRDY = true then
    if w.gSCIstatus.bTXDMAEN = false then
      (uartTxLoop k fuel w).map (fun w1 => (w1, false))
    else
      let rd := w.readSR
      if rd.1 &&& k.UART_SR_ENDTX > 0 then
        let w1 := { rd.2 with gSCIstatus := { rd.2.gSCIstatus with bTXRDY := false } }
        some (w1.clearBits .PIOB_ODSR k.PIO_ODSR_P3, true)
      else some (rd.2, false)
  else some (w, false)

/-- The receive part of state 1 (lines 252 to 279). -/
def uartReceive (k : UartHeader) (fuel : Nat) (w : UartWorld) : Option UartWorld :=
  let rd1 := w.readSR
  let noError : Bool × UartWorld :=
    if rd1.1 &&& k.UART_SR_FRAME = 0 then
      let rd2 := rd1.2.readSR
      (decide (rd2.1 &&& k.UART_SR_OVRE = 0), rd2.2)
    else (false, rd1.2)
  if noError.1 = true then
    uartRxLoop k fuel noError.2
  else
    let w1 := noError.2.store .UART0_CR (noError.2.regs .UART0_CR ||| k.UART_CR_RSTSTA)
    let w2 := { w1 with gbytRXbufptr := 0 }
    some { w2 with gSCIstatus := { w2.gSCIstatus with bRXOVF := true } }

/-- The step function `Proce_UART_Driver`; `fuel` bounds the iterations of each
of its two `while` loops, and the result is `none` when a loop exhausts it. -/
def Proce_UART_Driver (k : UartHeader) (fuel : Nat) (ptrTask : TASK_ATTRIBUTE) (w : UartWorld) :
    Option (StepResult UartWorld) :=
  let r : StepResult UartWorld := { ctx := ptrTask, world := w, calls := 0 }
  if ptrTask.nTimer = 0 then
    if ptrTask.nState = 0 then
      some ({ r with world := uartInit k w }.setContext 1 100)
    else if ptrTask.nState = 1 then
      match uartTransmit k fuel w with
      | none => none
      | some (w1, true) => some { r with world := w1 }
      | some (w1, false) =>
        match uartReceive k fuel w1 with
        | none => none
        | some w2 => some ({ r with world := w2 }.setContext 1 1)
    else
      some (r.setContext 0 1)
  else some r

/-- Values of the header constants on the SAM4S (single-bit masks at the bit
positions of the device data sheet). -/
def sam4sUart : UartHeader :=
  { PIO_PPDDR_P9 := 2 ^ 9, PIO_PUER_P9 := 2 ^ 9, PIO_ODR_P9 := 2 ^ 9, PIO_PDR_P9 := 2 ^ 9,
    PIO_PDR_P10 := 2 ^ 10, PIO_ABCDSR_P9 := 2 ^ 9, PIO_ABCDSR_P10 := 2 ^ 10,
    PIO_ODSR_P3 := 2 ^ 3, PMC_PCER0_PID8 := 2 ^ 8, UART_MR_PAR_NO := 4 * 2 ^ 9,
    UART_MR_CHMODE_NORMAL := 0, UART_CR_TXEN := 2 ^ 6, UART_CR_RXEN := 2 ^ 4,
    UART_CR_RSTSTA := 2 ^ 8, UART_SR_TXRDY := 2 ^ 1, UART_SR_ENDTX := 2 ^ 4,
    UART_SR_FRAME := 2 ^ 6, UART_SR_OVRE := 2 ^ 5, UART_SR_RXRDY := 2 ^ 0 }

/-- A UART world in which a DMA transmission has been started (`bTXRDY = 1`,
`bTXDMAEN = 1`) and every read of the status register returns `sr`. -/
def uartDmaWorld (sr : Nat) : UartWorld :=
  { gSCIstatus := { bTXRDY := true, bTXDMAEN := true, bRXRDY := false, bRXOVF := false,
                    bRFTXRDY := false, bRFRXRDY := false, bRFRESET := false, bRFTXERR := false },
    gbytTXbuffer := fun _ => 0, gbytTXbufptr := 0, gbytTXbuflen := 0,
    gbytRXbuffer := fun _ => 0, gbytRXbufptr := 0,
    regs := fun _ => 0, UART_SR := fun _ => sr, srReads := 0,
    UART_RHR := fun _ => 0, rhrReads := 0, UART_THR := [] }

/-! ### Task deletion and start-up (`os_APIs.c`, `ATSAM4SD16B.c`) -/

/-- The shift loop of `OSTaskDelete` (lines 104 to 111), entered with
`ni = start`: the state after `k` iterations. -/
def deleteShift {W : Type} (m : Kernel W) (start : Int) : Nat → Kernel W
  | 0 => m
  | k + 1 =>
    let m0 := deleteShift m start k
    let ni := start + (k : Int)
    let m1 := m0.atPtr ni (fun c => { c with nState := (m0.gstrcTaskContext (ni + 1)).nState })
    let m2 := m1.atPtr ni (fun c => { c with nTimer := (m1.gstrcTaskContext (ni + 1)).nTimer })
    let m3 := m2.atPtr ni (fun c => { c with nID := (m2.gstrcTaskContext (ni + 1)).nID })
    { m3 with gfptrTask := setAt m3.gfptrTask ni (m3.gfptrTask (ni + 1)) }

/-- The routine `OSTaskDelete` of `os_APIs.c`: the return value and the new
state.  The loop runs while `ni < gnTaskCount - 1`, starting at `nTaskID - 1`. -/
def OSTaskDelete {W : Type} (m : Kernel W) (nTaskID : Int) : Int × Kernel W :=
  if nTaskID < m.gnTaskCount then
    if nTaskID < m.gnTaskCount - 1 then
      let ni := nTaskID - 1
      let m1 := deleteShift m ni ((m.gnTaskCount - 1) - ni).toNat
      (0, { m1 with gnTaskCount := m1.gnTaskCount - 1 })
    else (0, m)
  else (1, m)

/-- The two statements of `main` that initialise the kernel (lines 32 and 33):
`OSInit();` and `gnTaskCount = 0;`. -/
def startKernel {W : Type} (m : Kernel W) : Kernel W :=
  { OSInit m with gnTaskCount := 0 }

/-! ### Pixel preprocessing of the camera task (`Driver_TCM8230.c`, state 8) -/

/-- The constant `_LUMINANCE_MASK` of `Driver_TCM8230.h`. -/
def _LUMINANCE_MASK : Nat := 0x0000007F

/-- The constant `_LUMINANCE_SHIFT` of `Driver_TCM8230.h`. -/
def _LUMINANCE_SHIFT : Nat := 0

/-- The constant `_HUE_MASK` of `Driver_TCM8230.h`. -/
def _HUE_MASK : Nat := 0x0001FF00

/-- The constant `_HUE_SHIFT` of `Driver_TCM8230.h`. -/
def _HUE_SHIFT : Nat := 8

/-- The constant `_SAT_MASK` of `Driver_TCM8230.h`. -/
def _SAT_MASK : Nat := 0x003E0000

/-- The constant `_SAT_SHIFT` of `Driver_TCM8230.h`. -/
def _SAT_SHIFT : Nat := 17

/-- The constant `_GRAD_MASK` of `Driver_TCM8230.h`. -/
def _GRAD_MASK : Nat := 0x7F800000

/-- The constant `_GRAD_SHIFT` of `Driver_TCM8230.h`. -/
def _GRAD_SHIFT : Nat := 23

/-- The constant `_NO_HUE_BRIGHT` of `Driver_TCM8230.h`. -/
def _NO_HUE_BRIGHT : Int := 420

/-- The constant `_NO_HUE_DARK` of `Driver_TCM8230.h`. -/
def _NO_HUE_DARK : Int := 400

/-- The constant `_NOPIXELSINFRAME` of `Driver_TCM8230.c`. -/
def _NOPIXELSINFRAME : Nat := 19200

/-- The 32-bit pattern of a C `int`, in complement of two. -/
def toWord (x : Int) : Nat := (x % 2 ^ 32).toNat

/-- The operation `x << n` on a 32-bit pattern. -/
def shl32 (u n : Nat) : Nat := (u <<< n) % 2 ^ 32

/-- The operation `x >> n` on the pattern of a signed `int`: the sign bit is
copied into the vacated bits, as GCC does. -/
def asr32 (u n : Nat) : Nat :=
  if u < 2 ^ 31 then u >>> n else (u >>> n) ||| (2 ^ 32 - 2 ^ (32 - n))

/-- Lines 400 to 415: the sample read from `gn16Pixel`, an `int16_t` widened to
`int`, has its two bytes swapped and is split into `(nR5, nG6, nB5)`. -/
def decodeSample (sample : Int) : Nat × Nat × Nat :=
  let nTemp2 := toWord sample
  let nTemp := shl32 nTemp2 8 &&& 0xFF00
  let nTemp2 := asr32 nTemp2 8 &&& 0xFF
  let nTemp := nTemp + nTemp2
  let nR5 := (nTemp >>> 11) &&& 0x1F
  let nG6 := (nTemp >>> 5) &&& 0x3F
  let nB5 := nTemp &&& 0x01F
  (nR5, nG6, nB5)

/-- Lines 437 to 453: the luminance of a pixel for the mode `gnLuminanceMode`. -/
def luminanceOf (gnLuminanceMode : Int) (nR5 nG6 nB5 : Nat) : Nat :=
  if gnLuminanceMode = 0 then
    ((nR5 <<< 2) + (nG6 <<< 2) + (nB5 <<< 1) + nG6) >>> 2
  else if gnLuminanceMode = 1 then
    nR5 <<< 2
  else if gnLuminanceMode = 2 then
    nG6 <<< 1
  else
    nR5 <<< 2

/-- The inline function `Min` of `Driver_TCM8230.c`. -/
def Min (a b : Int) : Int := if a < b then a else b

/-- The inline function `Max` of `Driver_TCM8230.c`. -/
def Max (a b : Int) : Int := if a > b then a else b

/-- Lines 475 to 483: the saturation `unSat` of a pixel, the difference of the
largest and the smallest of the 6-bit components.  The largest is not below
the smallest, so the unsigned subtraction does not wrap. -/
def saturationOf (nR5 nG6 nB5 : Nat) : Int :=
  let nR6 : Int := ((nR5 <<< 1 : Nat) : Int)
  let nB6 : Int := ((nB5 <<< 1 : Nat) : Int)
  let unMaxRGB := Max nR6 (Max nG6 nB6)
  let unMinRGB := Min nR6 (Min nG6 nB6)
  unMaxRGB - unMinRGB

/-- Lines 475 to 537: the hue `nHue` of a pixel.  The argument `nHue` is the
value the local variable holds before the pixel is processed, which survives if
none of the three component tests of lines 520 to 531 succeeds.  Division is
the truncating division of C. -/
def hueOf (nR5 nG6 nB5 : Nat) (nHue : Int) : Int :=
  let nR6 : Int := ((nR5 <<< 1 : Nat) : Int)
  let nG6 : Int := (nG6 : Int)
  let nB6 : Int := ((nB5 <<< 1 : Nat) : Int)
  let unMaxRGB := Max nR6 (Max nG6 nB6)
  let unMinRGB := Min nR6 (Min nG6 nB6)
  let nDeltaRGB := unMaxRGB - unMinRGB
  if nDeltaRGB < 5 then
    if unMaxRGB < 13 then _NO_HUE_DARK else _NO_HUE_BRIGHT
  else
    let nHue :=
      if nR6 = unMaxRGB then Int.tdiv (60 * (nG6 - nB6)) nDeltaRGB
      else if nG6 = unMaxRGB then 120 + Int.tdiv (60 * (nB6 - nR6)) nDeltaRGB
      else if nB6 = unMaxRGB then 240 + Int.tdiv (60 * (nR6 - nG6)) nDeltaRGB
      else nHue
    if nHue < 0 then nHue + 360 else nHue

/-- Lines 565 to 569 and 578 to 585: the two gradient terms `nLumGradx` and
`nLumGrady` as the code computes them from the eight neighbour luminances,
after the sign has been removed.  The shift `<< 1` of a difference is a
multiplication by 2.  The value line 568 stores in `nLumGrady` is replaced by
line 569 before it is read. -/
def gradientTerms (nLuminance1 nLuminance2 nLuminance3 nLuminance4 nLuminance5 nLuminance6
    nLuminance7 nLuminance8 : Int) : Int × Int :=
  let nLumGradx := nLuminance2 + nLuminance6 - nLuminance1 - nLuminance5
  let nLumGradx := nLumGradx + (nLuminance4 - nLuminance3) * 2
  let _nLumGrady := nLuminance5 + nLuminance6 - nLuminance1 - nLuminance2
  let nLumGrady := nLumGradx + (nLuminance8 - nLuminance7) * 2
  let nLumGradx := if nLumGradx < 0 then -nLumGradx else nLumGradx
  let nLumGrady := if nLumGrady < 0 then -nLumGrady else nLumGrady
  (nLumGradx, nLumGrady)

/-- Lines 587 to 597: the magnitude `nLumGradx + nLumGrady`, limited to 127 and
set to 0 below the noise threshold 20. -/
def clampGradient (nLumGradx nLumGrady : Int) : Int :=
  let nLumGrad := nLumGradx + nLumGrady
  let nLumGrad := if nLumGrad > 127 then 127 else nLumGrad
  if nLumGrad < 20 then 0 else nLumGrad

/-- The neighbour luminances that the gradient code carries from one column to
the next in local variables. -/
structure GradLocals where
  nLuminance1 : Int
  nLuminance5 : Int
  nLuminance7 : Int
  nLuminance8 : Int
deriving DecidableEq, Repr

/-- Lines 540 to 602: the gradient `nLumGrad` for the pixel at column
`ncolindex` of the line `nLineCounter`, whose luminance is `nLuminance`, read
from the frame buffer `img`; the second component is the carried neighbours
after the step. -/
def gradientOf (img : Int → Int → Nat) (ncolindex nLineCounter : Int) (nLuminance : Int)
    (loc : GradLocals) : Int × GradLocals :=
  if ncolindex > 1 ∧ nLineCounter > 1 then
    let loc : GradLocals :=
      if ncolindex = 2 then
        { nLuminance1 := ((img (ncolindex - 2) (nLineCounter - 2) &&& _LUMINANCE_MASK : Nat) : Int),
          nLuminance5 := ((img (ncolindex - 2) nLineCounter &&& _LUMINANCE_MASK : Nat) : Int),
          nLuminance7 := ((img (ncolindex - 1) (nLineCounter - 2) &&& _LUMINANCE_MASK : Nat) : Int),
          nLuminance8 := ((img (ncolindex - 1) nLineCounter &&& _LUMINANCE_MASK : Nat) : Int) }
      else loc
    let nLuminance2 : Int := ((img ncolindex (nLineCounter - 2) &&& _LUMINANCE_MASK : Nat) : Int)
    let nLuminance3 : Int :=
      ((img (ncolindex - 2) (nLineCounter - 1) &&& _LUMINANCE_MASK : Nat) : Int)
    let nLuminance4 : Int := ((img ncolindex (nLineCounter - 1) &&& _LUMINANCE_MASK : Nat) : Int)
    let nLuminance6 := nLuminance
    let g := gradientTerms loc.nLuminance1 nLuminance2 nLuminance3 nLuminance4 loc.nLuminance5
      nLuminance6 loc.nLuminance7 loc.nLuminance8
    let loc2 : GradLocals :=
      { nLuminance1 := loc.nLuminance7, nLuminance5 := loc.nLuminance8,
        nLuminance7 := nLuminance2, nLuminance8 := nLuminance6 }
    (clampGradient g.1 g.2, loc2)
  else (0, loc)

/-- Line 610: the word stored for a pixel,
`nLuminance | (unSat << _SAT_SHIFT) | (nHue << _HUE_SHIFT)`, as a 32-bit
unsigned value. -/
def pixelWord (nLuminance : Nat) (unSat nHue : Int) : Nat :=
  (nLuminance ||| shl32 (toWord unSat) _SAT_SHIFT ||| shl32 (toWord nHue) _HUE_SHIFT) % 2 ^ 32

/-- Line 611: the gradient is written back with
`word | (nLumGrad << _GRAD_SHIFT)`; both operands are 32-bit values and so is
the result. -/
def writeBackGradient (word : Nat) (nLumGrad : Int) : Nat :=
  word ||| shl32 (toWord nLumGrad) _GRAD_SHIFT

/-- The field of a Pixel Attribute Word that a mask and a shift of
`Driver_TCM8230.h` select: `(w & MASK) >> SHIFT`. -/
def unpackField (mask shift w : Nat) : Nat := (w &&& mask) >>> shift

/-! ### Peripherals and globals of the other drivers -/

/-- The peripheral registers the drivers below access. -/
inductive Reg where
  | PIOA_ODSR | PIOA_PPDDR | PIOA_PUER | PIOA_ODR | PIOA_PDR | PIOA_ABCDSR0 | PIOA_ABCDSR1
  | PIOA_PCIDR | PIOA_PCMR | PIOA_PDSR | PIOA_PCISR
  | PIOB_ODSR | PIOB_PDR | PIOB_ABCDSR0
  | PMC_PCER0 | PMC_PCK0 | PMC_SCER
  | PDC_PIOA_RPR | PDC_PIOA_RCR | PDC_PIOA_RNPR | PDC_PIOA_RNCR | PDC_PIOA_PTCR
  | TWI0_MMR | TWI0_CWGR | TWI0_CR | TWI0_THR | TWI0_SR
  | USART0_MR | USART0_BRGR | USART0_CR | USART0_CSR | USART0_RHR | USART0_THR
  | UART0_CR
  | DACC_CHER | DACC_MR | DACC_ISR | DACC_CDR
deriving DecidableEq, Repr

/-- The peripherals.  `regs r` is what a read of a configuration register
returns, the last value stored to it.  A status or data register is a volatile
input: `input r n` is the value of its `n`-th read and `reads r` counts the
reads made.  `stores` lists every store, oldest first. -/
structure Hw where
  regs : Reg → Nat
  input : Reg → Nat → Nat
  reads : Reg → Nat
  stores : List (Reg × Nat)

/-- A store to a register. -/
def Hw.store (h : Hw) (r : Reg) (v : Nat) : Hw :=
  { h with regs := fun x => if x = r then v else h.regs x, stores := h.stores ++ [(r, v)] }

/-- A read of a volatile register: the value read and the peripherals after. -/
def Hw.poll (h : Hw) (r : Reg) : Nat × Hw :=
  (h.input r (h.reads r), { h with reads := fun x => if x = r then h.reads x + 1 else h.reads x })

/-- The bit-field structure `I2C_STATUS` of `osmain.h`; each field is one bit. -/
structure I2C_STATUS where
  bI2CBusy : Bool
  bCommError : Bool
  bRead : Bool
  bSend : Bool
deriving DecidableEq, Repr

/-- The globals and function statics of `Driver_I2C_V100.c`, `Driver_TCM8230.c`
and `Driver_USART_V100.c`, and the peripherals.  Arrays are maps from index to
cell; `gunImgAtt` is indexed by column and row and is declared 160 by 120.
`gn16Pixel` is the line buffer the DMA controller fills. -/
structure Firmware where
  hw : Hw
  gI2CStat : I2C_STATUS
  gbytI2CSlaveAdd : Nat
  gbytI2CRegAdd : Nat
  gbytI2CByteCount : Nat
  gbytI2CRXbuf : Int → Nat
  gbytI2CTXbuf : Int → Nat
  i2c_nIndex : Int
  i2c_nCount : Int
  gnFrameCounter : Int
  gnImageWidth : Int
  gnImageHeight : Int
  gnCameraLED : Int
  gnEyeLED1 : Int
  gnEyeLED2 : Int
  gnLuminanceMode : Int
  gunImgAtt : Int → Int → Nat
  gunIHisto : Int → Int
  gunAverageLuminance : Nat
  gnCameraReady : Int
  gn16Pixel : Int → Int
  nLineCounter : Int
  unLumCumulative : Nat
  led_nCounter : Int
  led_nCounterBlink : Int
  gbytTXbuffer2 : Int → Nat
  gbytTXbufptr2 : Nat
  gbytTXbuflen2 : Nat
  gbytRXbuffer2 : Int → Nat
  gbytRXbufptr2 : Nat
  gSCIstatus2 : SCI_STATUS

/-- A store to a peripheral register. -/
def Firmware.store (w : Firmware) (r : Reg) (v : Nat) : Firmware :=
  { w with hw := w.hw.store r v }

/-- The statement `reg |= mask`. -/
def Firmware.orBits (w : Firmware) (r : Reg) (mask : Nat) : Firmware :=
  w.store r (w.hw.regs r ||| mask)

/-- The statement `reg &= ~mask` on a 32-bit register. -/
def Firmware.clearBits (w : Firmware) (r : Reg) (mask : Nat) : Firmware :=
  w.store r (w.hw.regs r &&& (0xFFFFFFFF ^^^ mask))

/-- A read of a volatile register. -/
def Firmware.poll (w : Firmware) (r : Reg) : Nat × Firmware :=
  ((w.hw.poll r).1, { w with hw := (w.hw.poll r).2 })

/-- The constants and macros of the device header `sam.h` that the drivers
below use; the header is not part of the sources, so they are parameters.
`addr_gn16Pixel` is the address of the line buffer. -/
structure SamHeader where
  PIO_ODSR_P0 : Nat
  PIO_ODSR_P3 : Nat
  PIO_ODSR_P12 : Nat
  PIO_ODSR_P14 : Nat
  PIO_ODSR_P20 : Nat
  PIO_ODSR_P22 : Nat
  PIO_PPDDR_P5 : Nat
  PIO_PUER_P5 : Nat
  PIO_ODR_P5 : Nat
  PIO_PDR_P5 : Nat
  PIO_PDR_P6 : Nat
  PIO_ABCDSR_P5 : Nat
  PIO_ABCDSR_P6 : Nat
  PIO_PDR_P3 : Nat
  PIO_PDR_P4 : Nat
  PIO_ABCDSR_P3 : Nat
  PIO_ABCDSR_P4 : Nat
  PIO_PPDDR_P17 : Nat
  PIO_PUER_P17 : Nat
  PIO_ODR_P17 : Nat
  PIO_PDR_P13 : Nat
  PIO_ABCDSR_P13 : Nat
  PIO_PDSR_P15 : Nat
  PIO_PDSR_P16 : Nat
  PIO_PCISR_DRDY : Nat
  PIO_PCISR_ENDRX : Nat
  PIO_PCIDR_ENDRX : Nat
  PIO_PCIDR_DRDY : Nat
  PIO_PCIDR_RXBUFF : Nat
  PIO_PCIDR_OVRE : Nat
  PIO_PCMR_DSIZE_HALFWORD : Nat
  PIO_PCMR_ALWYS : Nat
  PIO_PCMR_HALFS : Nat
  PIO_PCMR_PCEN : Nat
  PERIPH_PTCR_RXTEN : Nat
  PMC_PCER0_PID14 : Nat
  PMC_PCER0_PID19 : Nat
  PMC_PCER0_PID30 : Nat
  PMC_PCK_CSS_MAIN_CLK : Nat
  PMC_PCK_PRES_CLK_1 : Nat
  PMC_SCER_PCK0 : Nat
  DACC_CHER_CH1 : Nat
  DACC_MR_ONE : Nat
  DACC_MR_USER_SEL_CHANNEL1 : Nat
  DACC_ISR_TXRDY : Nat
  US_MR_OVER : Nat
  US_MR_USART_MODE_NORMAL : Nat
  US_MR_CHRL_8_BIT : Nat
  US_MR_PAR_NO : Nat
  US_MR_ONEBIT : Nat
  US_CR_TXEN : Nat
  US_CR_RXEN : Nat
  US_CR_RSTSTA : Nat
  US_CSR_TXRDY : Nat
  US_CSR_FRAME : Nat
  US_CSR_OVRE : Nat
  US_CSR_RXRDY : Nat
  UART_CR_RSTRX : Nat
  TWI_MMR_DADR : Nat → Nat
  TWI_MMR_MREAD : Nat
  TWI_CWGR_CLDIV : Nat → Nat
  TWI_CWGR_CHDIV : Nat → Nat
  TWI_CWGR_CKDIV : Nat → Nat
  TWI_CR_SVDIS : Nat
  TWI_CR_MSEN : Nat
  TWI_CR_STOP : Nat
  TWI_SR_TXRDY : Nat
  TWI_SR_TXCOMP : Nat
  addr_gn16Pixel : Nat

/-- The constant `__NUM_SYSTEMTICK_MSEC` of `osmain.h`. -/
def __NUM_SYSTEMTICK_MSEC : Int := 6

/-- The timer `_LED1_ON_US/__SYSTEMTICK_US` of `OSProce1`: the quotient
`500000/166.67` of floating-point constants, 2999.94, converted to `int`. -/
def LED1_ON_TICKS : Int := 2999

/-- The step function `OSProce1` of `os_SAM4S_APIs.c`. -/
def OSProce1 (k : SamHeader) (ptrTask : TASK_ATTRIBUTE) (w : Firmware) : StepResult Firmware :=
  let r : StepResult Firmware := { ctx := ptrTask, world := w, calls := 0 }
  if ptrTask.nState = 0 then
    { r with world := w.orBits .PIOA_ODSR k.PIO_ODSR_P0 }.setContext 1 LED1_ON_TICKS
  else if ptrTask.nState = 1 then
    { r with world := w.clearBits .PIOA_ODSR k.PIO_ODSR_P0 }.setContext 0 LED1_ON_TICKS
  else
    r.setContext 0 0

/-- The step function `Proce_DACC_Driver` of `driver_dacc_v100.c`. -/
def Proce_DACC_Driver (k : SamHeader) (ptrTask : TASK_ATTRIBUTE) (w : Firmware) :
    StepResult Firmware :=
  let r : StepResult Firmware := { ctx := ptrTask, world := w, calls := 0 }
  if ptrTask.nTimer = 0 then
    if ptrTask.nState = 0 then
      let w := w.orBits .DACC_CHER k.DACC_CHER_CH1
      let w := w.orBits .DACC_MR (k.DACC_MR_ONE ||| k.DACC_MR_USER_SEL_CHANNEL1)
      let w := w.orBits .PMC_PCER0 k.PMC_PCER0_PID30
      { r with world := w }.setContext 1 100
    else if ptrTask.nState = 1 then
      let rd := w.poll .DACC_ISR
      let w := if rd.1 &&& k.DACC_ISR_TXRDY > 0 then rd.2.store .DACC_CDR 0x0000 else rd.2
      { r with world := w }.setContext 2 1
    else if ptrTask.nState = 2 then
      let rd := w.poll .DACC_ISR
      let w := if rd.1 &&& k.DACC_ISR_TXRDY > 0 then rd.2.store .DACC_CDR 0x02FF else rd.2
      { r with world := w }.setContext 3 1
    else if ptrTask.nState = 3 then
      let rd := w.poll .DACC_ISR
      let w := if rd.1 &&& k.DACC_ISR_TXRDY > 0 then rd.2.store .DACC_CDR 0x0FFF else rd.2
      { r with world := w }.setContext 1 1
    else
      r.setContext 0 1
  else r

/-- The constant `_CAMERA_READY` of `Driver_TCM8230.c`. -/
def _CAMERA_READY : Int := 1

/-- One of the three blocks of state 2 of `Proce_Camera_LED_Driver` (lines 725
to 742 for the camera LED): the pin `mask` of port A is driven from the control
value `reg`. -/
def ledDrive (w : Firmware) (reg : Int) (mask : Nat) : Firmware :=
  if ((toWord reg &&& 0x07 : Nat) : Int) > w.led_nCounter then
    if reg > 7 then
      if w.led_nCounterBlink > 1500 then w.orBits .PIOA_ODSR mask else w
    else w.orBits .PIOA_ODSR mask
  else w.clearBits .PIOA_ODSR mask

/-- The step function `Proce_Camera_LED_Driver` of `Driver_TCM8230.c`. -/
def Proce_Camera_LED_Driver (k : SamHeader) (ptrTask : TASK_ATTRIBUTE) (w : Firmware) :
    StepResult Firmware :=
  let r : StepResult Firmware := { ctx := ptrTask, world := w, calls := 0 }
  if ptrTask.nTimer = 0 then
    if ptrTask.nState = 0 then
      let w := w.clearBits .PIOA_ODSR k.PIO_ODSR_P12
      let w := w.clearBits .PIOA_ODSR k.PIO_ODSR_P20
      let w := w.clearBits .PIOA_ODSR k.PIO_ODSR_P22
      let w := { w with gnCameraLED := 0 }
      let w := { w with gnEyeLED1 := 0 }
      let w := { w with gnEyeLED2 := 0 }
      { r with world := w }.setContext 1 (1000 * __NUM_SYSTEMTICK_MSEC)
    else if ptrTask.nState = 1 then
      if w.gnCameraReady = _CAMERA_READY then r.setContext 2 1 else r.setContext 1 1
    else if ptrTask.nState = 2 then
      let w := ledDrive w w.gnCameraLED k.PIO_ODSR_P12
      let w := ledDrive w w.gnEyeLED1 k.PIO_ODSR_P20
      let w := ledDrive w w.gnEyeLED2 k.PIO_ODSR_P22
      let w := { w with led_nCounter := w.led_nCounter + 1 }
      let w := if w.led_nCounter = 6 then { w with led_nCounter := 0 } else w
      let w := { w with led_nCounterBlink := w.led_nCounterBlink + 1 }
      let w := if w.led_nCounterBlink = 3000 then { w with led_nCounterBlink := 0 } else w
      { r with world := w }.setContext 2 1
    else
      r.setContext 0 1
  else r

/-- The constant `__SCI_RXBUF2_LENGTH` of `Driver_USART_V100.h`. -/
def __SCI_RXBUF2_LENGTH : Nat := 8

/-- State 0 of `Proce_USART_Driver` up to the call of `OSSetTaskContext`.  The
baud-rate divisor `(__FPERIPHERAL_MHz*1000)/(8*_USART_BAUDRATE_kBPS)` is the
constant `120000/153.6`, stored as 781. -/
def usartInit (k : SamHeader) (w : Firmware) : Firmware :=
  let w := w.orBits .PIOA_PPDDR k.PIO_PPDDR_P5
  let w := w.orBits .PIOA_PUER k.PIO_PUER_P5
  let w := w.orBits .PIOA_ODR k.PIO_ODR_P5
  let w := w.orBits .PIOA_PDR k.PIO_PDR_P5
  let w := w.orBits .PIOA_PDR k.PIO_PDR_P6
  let w := w.clearBits .PIOA_ABCDSR0 k.PIO_ABCDSR_P5
  let w := w.clearBits .PIOA_ABCDSR1 k.PIO_ABCDSR_P5
  let w := w.clearBits .PIOA_ABCDSR0 k.PIO_ABCDSR_P6
  let w := w.clearBits .PIOA_ABCDSR1 k.PIO_ABCDSR_P6
  let w := w.orBits .PMC_PCER0 k.PMC_PCER0_PID14
  let w := w.orBits .USART0_MR k.US_MR_OVER
  let w := w.store .USART0_BRGR 781
  let w := w.orBits .USART0_MR
    (k.US_MR_USART_MODE_NORMAL ||| k.US_MR_CHRL_8_BIT ||| k.US_MR_PAR_NO ||| k.US_MR_ONEBIT)
  let w := w.store .USART0_CR k.US_CR_TXEN
  let w := w.store .USART0_CR (w.hw.regs .USART0_CR ||| k.US_CR_RXEN)
  let w := { w with gbytTXbuflen2 := 0 }
  let w := { w with gbytTXbufptr2 := 0 }
  let w := { w with gSCIstatus2 := { w.gSCIstatus2 with bRXRDY := false } }
  let w := { w with gSCIstatus2 := { w.gSCIstatus2 with bTXRDY := false } }
  let w := { w with gSCIstatus2 := { w.gSCIstatus2 with bRXOVF := false } }
  let w := { w with gbytRXbufptr2 := 0 }
  w.clearBits .PIOB_ODSR k.PIO_ODSR_P3

/-- The transmit loop of state 1 of `Proce_USART_Driver` (lines 206 to 222),
with `fuel` bounding the number of iterations; `none` when the fuel runs out. -/
def usartTxLoop (k : SamHeader) : Nat → Firmware → Option Firmware
  | 0, _ => none
  | fuel + 1, w =>
    let rd := w.poll .USART0_CSR
    if rd.1 &&& k.US_CSR_TXRDY > 0 then
      let w1 := rd.2.orBits .PIOB_ODSR k.PIO_ODSR_P3
      if w1.gbytTXbufptr2 < w1.gbytTXbuflen2 then
        let w2 := w1.store .USART0_THR (w1.gbytTXbuffer2 w1.gbytTXbufptr2)
        let w3 := { w2 with gbytTXbufptr2 := (w2.gbytTXbufptr2 + 1) % 256 }
        usartTxLoop k fuel w3
      else
        let w2 := { w1 with gbytTXbufptr2 := 0 }
        let w3 := { w2 with gbytTXbuflen2 := 0 }
        let w4 := { w3 with gSCIstatus2 := { w3.gSCIstatus2 with bTXRDY := false } }
        some (w4.clearBits .PIOB_ODSR k.PIO_ODSR_P3)
    else some rd.2

/-- The receive loop of state 1 of `Proce_USART_Driver` (lines 234 to 250),
with `fuel` bounding the number of iterations; `none` when the fuel runs out. -/
def usartRxLoop (k : SamHeader) : Nat → Firmware → Option Firmware
  | 0, _ => none
  | fuel + 1, w =>
    let rd := w.poll .USART0_CSR
    if rd.1 &&& k.US_CSR_RXRDY > 0 then
      let w1 := rd.2.orBits .PIOB_ODSR k.PIO_ODSR_P3
      if w1.gbytRXbufptr2 < __SCI_RXBUF2_LENGTH then
        let rh := w1.poll .USART0_RHR
        let w2 := { rh.2 with
          gbytRXbuffer2 := setAt rh.2.gbytRXbuffer2 rh.2.gbytRXbufptr2 (rh.1 % 256) }
        let w3 := { w2 with gbytRXbufptr2 := (w2.gbytRXbufptr2 + 1) % 256 }
        let w4 := { w3 with gSCIstatus2 := { w3.gSCIstatus2 with bRXRDY := true } }
        usartRxLoop k fuel w4
      else
        let w2 := { w1 with gbytRXbufptr2 := 0 }
        let w3 := { w2 with gSCIstatus2 := { w2.gSCIstatus2 with bRXOVF := true } }
        usartRxLoop k fuel w3
    else some rd.2

/-- The receive part of state 1 of `Proce_USART_Driver` (lines 231 to 259). -/
def usartReceive (k : SamHeader) (fuel : Nat) (w : Firmware) : Option Firmware :=
  let rd1 := w.poll .USART0_CSR
  let noError : Bool × Firmware :=
    if rd1.1 &&& k.US_CSR_FRAME = 0 then
      let rd2 := rd1.2.poll .USART0_CSR
      (decide (rd2.1 &&& k.US_CSR_OVRE = 0), rd2.2)
    else (false, rd1.2)
  if noError.1 = true then
    usartRxLoop k fuel noError.2
  else
    let w1 := noError.2.store .USART0_CR (noError.2.hw.regs .USART0_CR ||| k.US_CR_RSTSTA)
    let w2 := w1.store .UART0_CR (w1.hw.regs .UART0_CR ||| k.UART_CR_RSTRX)
    let w3 := { w2 with gbytRXbufptr2 := 0 }
    let w4 := { w3 with gSCIstatus2 := { w3.gSCIstatus2 with bRXOVF := true } }
    some (w4.clearBits .PIOB_ODSR k.PIO_ODSR_P3)

/-- The step function `Proce_USART_Driver` of `Driver_USART_V100.c`; `fuel`
bounds the iterations of each of its two `while` loops, and the result is
`none` when a loop exhausts it. -/
def Proce_USART_Driver (k : SamHeader) (fuel : Nat) (ptrTask : TASK_ATTRIBUTE) (w : Firmware) :
    Option (StepResult Firmware) :=
  let r : StepResult Firmware := { ctx := ptrTask, world := w, calls := 0 }
  if ptrTask.nTimer = 0 then
    if ptrTask.nState = 0 then
      some ({ r with world := usartInit k w }.setContext 1 100)
    else if ptrTask.nState = 1 then
      match (if w.gSCIstatus2.bTXRDY = true then usartTxLoop k fuel w else some w) with
      | none => none
      | some w1 =>
        match usartReceive k fuel w1 with
        | none => none
        | some w2 => some ({ r with world := w2 }.setContext 1 1)
    else
      some (r.setContext 0 1)
  else some r

/-- State 0 of `Proce_I2C0_Driver` up to the call of `OSSetTaskContext`. -/
def i2cInit (k : SamHeader) (w : Firmware) : Firmware :=
  let w := { w with gI2CStat := { w.gI2CStat with bCommError := false } }
  let w := { w with gI2CStat := { w.gI2CStat with bI2CBusy := true } }
  let w := { w with gbytI2CRXbuf := setAt w.gbytI2CRXbuf 0 0 }
  let w := { w with gbytI2CRegAdd := 0 }
  let w := { w with gI2CStat := { w.gI2CStat with bSend := false } }
  let w := { w with gI2CStat := { w.gI2CStat with bRead := false } }
  let w := w.store .PIOA_PDR (w.hw.regs .PIOA_PDR ||| k.PIO_PDR_P3)
  let w := w.store .PIOA_PDR (w.hw.regs .PIOA_PDR ||| k.PIO_PDR_P4)
  let w := w.clearBits .PIOA_ABCDSR0 k.PIO_ABCDSR_P3
  let w := w.clearBits .PIOA_ABCDSR1 k.PIO_ABCDSR_P3
  let w := w.clearBits .PIOA_ABCDSR0 k.PIO_ABCDSR_P4
  let w := w.clearBits .PIOA_ABCDSR1 k.PIO_ABCDSR_P4
  let w := w.store .TWI0_MMR (k.TWI_MMR_DADR w.gbytI2CSlaveAdd)
  let w := w.store .TWI0_CWGR
    (w.hw.regs .TWI0_CWGR ||| k.TWI_CWGR_CLDIV 149 ||| k.TWI_CWGR_CHDIV 149)
  let w := w.store .TWI0_CWGR (w.hw.regs .TWI0_CWGR ||| k.TWI_CWGR_CKDIV 2)
  let w := w.store .TWI0_CR (w.hw.regs .TWI0_CR ||| k.TWI_CR_SVDIS)
  let w := w.store .TWI0_CR (w.hw.regs .TWI0_CR ||| k.TWI_CR_MSEN)
  w.orBits .PMC_PCER0 k.PMC_PCER0_PID19

/-- The step function `Proce_I2C0_Driver` of `Driver_I2C_V100.c`.  The states 30
to 42 of the source are inside a comment. -/
def Proce_I2C0_Driver (k : SamHeader) (ptrTask : TASK_ATTRIBUTE) (w : Firmware) :
    StepResult Firmware :=
  let r : StepResult Firmware := { ctx := ptrTask, world := w, calls := 0 }
  if ptrTask.nTimer = 0 then
    if ptrTask.nState = 0 then
      { r with world := i2cInit k w }.setContext 49 (30 * __NUM_SYSTEMTICK_MSEC)
    else if ptrTask.nState = 1 then
      if w.gI2CStat.bRead = true then
        { r with world := { w with gI2CStat := { w.gI2CStat with bI2CBusy := true } } }.setContext
          30 1
      else if w.gI2CStat.bSend = true then
        { r with world := { w with gI2CStat := { w.gI2CStat with bI2CBusy := true } } }.setContext
          45 1
      else r.setContext 1 1
    else if ptrTask.nState = 45 then
      let w := { w with i2c_nCount := 0 }
      let w := w.store .TWI0_MMR (k.TWI_MMR_DADR w.gbytI2CSlaveAdd)
      let w := w.clearBits .TWI0_MMR k.TWI_MMR_MREAD
      { r with world := w }.setContext 46 1
    else if ptrTask.nState = 46 then
      { r with world := w.store .TWI0_THR w.gbytI2CRegAdd }.setContext 47 1
    else if ptrTask.nState = 47 then
      let rd := w.poll .TWI0_SR
      if rd.1 &&& k.TWI_SR_TXRDY = 0 then
        { r with world := rd.2 }.setContext 47 1
      else if (rd.2.gbytI2CByteCount : Int) > rd.2.i2c_nCount then
        let w1 := rd.2.store .TWI0_THR (rd.2.gbytI2CTXbuf rd.2.i2c_nCount)
        let w2 := { w1 with i2c_nCount := w1.i2c_nCount + 1 }
        { r with world := w2 }.setContext 47 1
      else
        { r with world := rd.2.store .TWI0_CR (rd.2.hw.regs .TWI0_CR ||| k.TWI_CR_STOP) }.setContext
          48 1
    else if ptrTask.nState = 48 then
      let rd := w.poll .TWI0_SR
      if rd.1 &&& k.TWI_SR_TXCOMP = 0 then
        { r with world := rd.2 }.setContext 48 1
      else
        { r with world := rd.2 }.setContext 49 1
    else if ptrTask.nState = 49 then
      let w := { w with gI2CStat := { w.gI2CStat with bI2CBusy := false } }
      let w := { w with gI2CStat := { w.gI2CStat with bSend := false } }
      { r with world := w }.setContext 1 1
    else
      r.setContext 0 1
  else r

/-! ### The camera task (`Driver_TCM8230.c`) -/

/-- The constant `_CAMERA_I2C2_ADD` of `Driver_TCM8230.c`. -/
def _CAMERA_I2C2_ADD : Nat := 60

/-- Store `v` into cell `[c][r]` of a two-dimensional array. -/
def setAt2 {α : Type} (a : Int → Int → α) (c r : Int) (v : α) : Int → Int → α :=
  fun i j => if i = c ∧ j = r then v else a i j

/-- The statement `x++` on an `int16_t`. -/
def incr16 (x : Int) : Int := if x + 1 > 32767 then x + 1 - 65536 else x + 1

/-- The statement `x++` on an `int`, a word of 32 bits on the Cortex-M4: the
addition of the processor wraps from `INT_MAX` = 2147483647 to
`INT_MIN` = -2147483648. -/
def incr32 (x : Int) : Int := if x + 1 > 2147483647 then x + 1 - 4294967296 else x + 1

/-- The local variables of `Proce_TCM8230_Driver` whose value is carried from
one column of a line to the next. -/
structure LineLocals where
  nHue : Int
  grad : GradLocals
deriving DecidableEq, Repr

/-- The four stores that arm the DMA descriptor in the states 0 and 7 (lines 212
to 215 and 361 to 364); the next pointer is read back from the pointer
register. -/
def camArmDma (k : SamHeader) (w : Firmware) : Firmware :=
  let w := w.store .PDC_PIOA_RPR k.addr_gn16Pixel
  let w := w.store .PDC_PIOA_RCR (toWord w.gnImageWidth)
  let w := w.store .PDC_PIOA_RNPR (w.hw.regs .PDC_PIOA_RPR)
  w.store .PDC_PIOA_RNCR 0

/-- The body of the column loop of state 8 (lines 398 to 611) for the column
`ncolindex`. -/
def pixelStep (w : Firmware) (ncolindex : Int) (loc : LineLocals) : Firmware × LineLocals :=
  let rgb := decodeSample (w.gn16Pixel ncolindex)
  let nLuminance := luminanceOf w.gnLuminanceMode rgb.1 rgb.2.1 rgb.2.2
  let w := { w with unLumCumulative := (w.unLumCumulative + nLuminance) % 2 ^ 32 }
  let w := { w with gunIHisto := setAt w.gunIHisto nLuminance (incr16 (w.gunIHisto nLuminance)) }
  let unSat := saturationOf rgb.1 rgb.2.1 rgb.2.2
  let nHue := hueOf rgb.1 rgb.2.1 rgb.2.2 loc.nHue
  let g := gradientOf w.gunImgAtt ncolindex w.nLineCounter nLuminance loc.grad
  let w := { w with
    gunImgAtt := setAt2 w.gunImgAtt ncolindex w.nLineCounter (pixelWord nLuminance unSat nHue) }
  let w := { w with
    gunImgAtt := setAt2 w.gunImgAtt (ncolindex - 1) (w.nLineCounter - 1)
      (writeBackGradient (w.gunImgAtt (ncolindex - 1) (w.nLineCounter - 1)) g.1) }
  (w, { nHue := nHue, grad := g.2 })

/-- The column loop of state 8 (line 396): the state and the carried locals
after the columns `0 .. n - 1`. -/
def lineLoop (w : Firmware) (loc : LineLocals) : Nat → Firmware × LineLocals
  | 0 => (w, loc)
  | n + 1 => pixelStep (lineLoop w loc n).1 n (lineLoop w loc n).2

/-- The branch of state 8 taken when a line is complete (lines 386 to 612); `loc`
is what the carried locals hold on entry. -/
def camLineDone (k : SamHeader) (loc : LineLocals) (w : Firmware) : Firmware :=
  let w := { w with nLineCounter := w.nLineCounter + 1 }
  let w := w.store .PDC_PIOA_RPR k.addr_gn16Pixel
  let w := w.store .PDC_PIOA_RCR (toWord w.gnImageWidth)
  let w := w.store .PDC_PIOA_RNPR k.addr_gn16Pixel
  let w := w.store .PDC_PIOA_RNCR 0
  (lineLoop w loc w.gnImageWidth.toNat).1

/-- The histogram loop of state 7 (lines 367 to 370): the histogram after the
iterations `0 .. n - 1`. -/
def clearHisto (h : Int → Int) : Nat → (Int → Int)
  | 0 => h
  | n + 1 => setAt (clearHisto h n) n 0

/-- The branch of state 7 taken when the frame starts (lines 360 to 370). -/
def camFrameSync (k : SamHeader) (w : Firmware) : Firmware :=
  let w := camArmDma k w
  let w := { w with nLineCounter := 0 }
  { w with gunIHisto := clearHisto w.gunIHisto 128 }

/-- State 0 of `Proce_TCM8230_Driver` up to the call of `OSSetTaskContext`. -/
def camInit (k : SamHeader) (w : Firmware) : Firmware :=
  let w := w.orBits .PIOA_PPDDR k.PIO_PPDDR_P17
  let w := w.orBits .PIOA_PUER k.PIO_PUER_P17
  let w := w.orBits .PIOA_ODR k.PIO_ODR_P17
  let w := w.clearBits .PIOB_ODSR k.PIO_ODSR_P14
  let w := w.store .PIOA_PCIDR
    (w.hw.regs .PIOA_PCIDR ||| k.PIO_PCISR_DRDY ||| k.PIO_PCIDR_ENDRX ||| k.PIO_PCIDR_DRDY |||
      k.PIO_PCIDR_RXBUFF ||| k.PIO_PCIDR_OVRE)
  let w := camArmDma k w
  let w := w.store .PDC_PIOA_PTCR (w.hw.regs .PDC_PIOA_PTCR ||| k.PERIPH_PTCR_RXTEN)
  let w := w.store .PIOA_PCMR (w.hw.regs .PIOA_PCMR ||| k.PIO_PCMR_DSIZE_HALFWORD)
  let w := w.store .PIOA_PCMR
    (w.hw.regs .PIOA_PCMR &&& (0xFFFFFFFF ^^^ k.PIO_PCMR_ALWYS) &&&
      (0xFFFFFFFF ^^^ k.PIO_PCMR_HALFS))
  let w := w.store .PIOA_PCMR (w.hw.regs .PIOA_PCMR ||| k.PIO_PCMR_PCEN)
  { w with gnFrameCounter := 0 }

/-- State 1 of `Proce_TCM8230_Driver` up to the call of `OSSetTaskContext`. -/
def camClock (k : SamHeader) (w : Firmware) : Firmware :=
  let w := w.store .PMC_PCK0
    (w.hw.regs .PMC_PCK0 ||| k.PMC_PCK_CSS_MAIN_CLK ||| k.PMC_PCK_PRES_CLK_1)
  let w := w.store .PIOB_PDR (w.hw.regs .PIOB_PDR ||| k.PIO_PDR_P13)
  let w := w.store .PMC_SCER (w.hw.regs .PMC_SCER ||| k.PMC_SCER_PCK0)
  w.store .PIOB_ABCDSR0 (w.hw.regs .PIOB_ABCDSR0 ||| k.PIO_ABCDSR_P13)

/-- The request the states 3, 4 and 5 put into the I2C descriptor: one byte
`data` for the register `reg` of the camera. -/
def camRequest (w : Firmware) (reg data : Nat) : Firmware :=
  let w := { w with gbytI2CByteCount := 1 }
  let w := { w with gbytI2CRegAdd := reg }
  let w := { w with gbytI2CTXbuf := setAt w.gbytI2CTXbuf 0 data }
  let w := { w with gbytI2CSlaveAdd := _CAMERA_I2C2_ADD }
  { w with gI2CStat := { w.gI2CStat with bSend := true } }

/-- The step function `Proce_TCM8230_Driver` of `Driver_TCM8230.c`; `loc` is
what the locals carried through the column loop hold on entry. -/
def Proce_TCM8230_Driver (k : SamHeader) (loc : LineLocals) (ptrTask : TASK_ATTRIBUTE)
    (w : Firmware) : StepResult Firmware :=
  let r : StepResult Firmware := { ctx := ptrTask, world := w, calls := 0 }
  if ptrTask.nTimer = 0 then
    if ptrTask.nState = 0 then
      { r with world := camInit k w }.setContext 1 (100 * __NUM_SYSTEMTICK_MSEC)
    else if ptrTask.nState = 1 then
      { r with world := camClock k w }.setContext 2 (10 * __NUM_SYSTEMTICK_MSEC)
    else if ptrTask.nState = 2 then
      { r with world := w.orBits .PIOB_ODSR k.PIO_ODSR_P14 }.setContext 3
        (100 * __NUM_SYSTEMTICK_MSEC)
    else if ptrTask.nState = 3 then
      if w.gI2CStat.bI2CBusy = false then
        { r with world := camRequest w 0x1E 0x68 }.setContext 4 (5 * __NUM_SYSTEMTICK_MSEC)
      else r.setContext 3 1
    else if ptrTask.nState = 4 then
      if w.gI2CStat.bI2CBusy = false then
        { r with world := camRequest w 0x02 0x00 }.setContext 5 (5 * __NUM_SYSTEMTICK_MSEC)
      else r.setContext 4 1
    else if ptrTask.nState = 5 then
      if w.gI2CStat.bI2CBusy = false then
        { r with world := camRequest w 0x03 0x0E }.setContext 6 (5 * __NUM_SYSTEMTICK_MSEC)
      else r.setContext 5 1
    else if ptrTask.nState = 6 then
      let w := { w with gnCameraReady := _CAMERA_READY }
      let rd1 := w.poll .PIOA_PDSR
      if rd1.1 &&& k.PIO_PDSR_P15 > 0 then
        let rd2 := rd1.2.poll .PIOA_PDSR
        if rd2.1 &&& k.PIO_PDSR_P16 = 0 then
          { r with world := rd2.2 }.setContext 7 1
        else { r with world := rd2.2 }.setContext 6 1
      else { r with world := rd1.2 }.setContext 6 1
    else if ptrTask.nState = 7 then
      let rd := w.poll .PIOA_PDSR
      if rd.1 &&& k.PIO_PDSR_P15 = 0 then
        { r with world := camFrameSync k rd.2 }.setContext 8 1
      else { r with world := rd.2 }.setContext 7 1
    else if ptrTask.nState = 8 then
      let rd := w.poll .PIOA_PCISR
      let w := if rd.1 &&& k.PIO_PCISR_ENDRX > 0 then camLineDone k loc rd.2 else rd.2
      if w.nLineCounter = w.gnImageHeight then
        { r with world := w }.setContext 9 1
      else { r with world := w }.setContext 8 1
    else if ptrTask.nState = 9 then
      let w := { w with gnFrameCounter := incr32 w.gnFrameCounter }
      let w := { w with gunAverageLuminance := w.unLumCumulative / _NOPIXELSINFRAME }
      let w := { w with unLumCumulative := 0 }
      { r with world := w }.setContext 6 1
    else
      r.setContext 0 1
  else r

/-! ### Sample inputs for the drivers -/

/-- Values of the constants and macros of `SamHeader` on the SAM4S, as in the
device header. -/
def sam4s : SamHeader :=
  { PIO_ODSR_P0 := 2 ^ 0, PIO_ODSR_P3 := 2 ^ 3, PIO_ODSR_P12 := 2 ^ 12, PIO_ODSR_P14 := 2 ^ 14,
    PIO_ODSR_P20 := 2 ^ 20, PIO_ODSR_P22 := 2 ^ 22,
    PIO_PPDDR_P5 := 2 ^ 5, PIO_PUER_P5 := 2 ^ 5, PIO_ODR_P5 := 2 ^ 5, PIO_PDR_P5 := 2 ^ 5,
    PIO_PDR_P6 := 2 ^ 6, PIO_ABCDSR_P5 := 2 ^ 5, PIO_ABCDSR_P6 := 2 ^ 6,
    PIO_PDR_P3 := 2 ^ 3, PIO_PDR_P4 := 2 ^ 4, PIO_ABCDSR_P3 := 2 ^ 3, PIO_ABCDSR_P4 := 2 ^ 4,
    PIO_PPDDR_P17 := 2 ^ 17, PIO_PUER_P17 := 2 ^ 17, PIO_ODR_P17 := 2 ^ 17,
    PIO_PDR_P13 := 2 ^ 13, PIO_ABCDSR_P13 := 2 ^ 13,
    PIO_PDSR_P15 := 2 ^ 15, PIO_PDSR_P16 := 2 ^ 16,
    PIO_PCISR_DRDY := 2 ^ 0, PIO_PCISR_ENDRX := 2 ^ 2,
    PIO_PCIDR_ENDRX := 2 ^ 2, PIO_PCIDR_DRDY := 2 ^ 0, PIO_PCIDR_RXBUFF := 2 ^ 3,
    PIO_PCIDR_OVRE := 2 ^ 1,
    PIO_PCMR_DSIZE_HALFWORD := 2 ^ 4, PIO_PCMR_ALWYS := 2 ^ 9, PIO_PCMR_HALFS := 2 ^ 10,
    PIO_PCMR_PCEN := 2 ^ 0, PERIPH_PTCR_RXTEN := 2 ^ 0,
    PMC_PCER0_PID14 := 2 ^ 14, PMC_PCER0_PID19 := 2 ^ 19, PMC_PCER0_PID30 := 2 ^ 30,
    PMC_PCK_CSS_MAIN_CLK := 1, PMC_PCK_PRES_CLK_1 := 0, PMC_SCER_PCK0 := 2 ^ 8,
    DACC_CHER_CH1 := 2 ^ 1, DACC_MR_ONE := 2 ^ 8, DACC_MR_USER_SEL_CHANNEL1 := 2 ^ 16,
    DACC_ISR_TXRDY := 2 ^ 0,
    US_MR_OVER := 2 ^ 19, US_MR_USART_MODE_NORMAL := 0, US_MR_CHRL_8_BIT := 3 * 2 ^ 6,
    US_MR_PAR_NO := 4 * 2 ^ 9, US_MR_ONEBIT := 2 ^ 31,
    US_CR_TXEN := 2 ^ 6, US_CR_RXEN := 2 ^ 4, US_CR_RSTSTA := 2 ^ 8,
    US_CSR_TXRDY := 2 ^ 1, US_CSR_FRAME := 2 ^ 6, US_CSR_OVRE := 2 ^ 5, US_CSR_RXRDY := 2 ^ 0,
    UART_CR_RSTRX := 2 ^ 2,
    TWI_MMR_DADR := fun v => (v <<< 16) &&& 0x7F0000, TWI_MMR_MREAD := 2 ^ 12,
    TWI_CWGR_CLDIV := fun v => v &&& 0xFF, TWI_CWGR_CHDIV := fun v => (v <<< 8) &&& 0xFF00,
    TWI_CWGR_CKDIV := fun v => (v <<< 16) &&& 0x70000,
    TWI_CR_SVDIS := 2 ^ 5, TWI_CR_MSEN := 2 ^ 2, TWI_CR_STOP := 2 ^ 1,
    TWI_SR_TXRDY := 2 ^ 2, TWI_SR_TXCOMP := 2 ^ 0,
    addr_gn16Pixel := 0x20000100 }

/-- Peripherals whose registers hold 0 and whose volatile register `r` reads
`input r` at every read. -/
def quietHw (input : Reg → Nat) : Hw :=
  { regs := fun _ => 0, input := fun r _ => input r, reads := fun _ => 0, stores := [] }

/-- A firmware state after reset: every variable as its initialiser in the
sources sets it (0 where there is none), an image of `width` by `height`
pixels, every cell of the frame buffer holding `old`, the line buffer holding
`line`, and the volatile registers reading `input`. -/
def resetFirmware (width height : Int) (old : Nat) (line : Int → Int) (input : Reg → Nat) :
    Firmware :=
  { hw := quietHw input,
    gI2CStat := { bI2CBusy := false, bCommError := false, bRead := false, bSend := false },
    gbytI2CSlaveAdd := 0, gbytI2CRegAdd := 0, gbytI2CByteCount := 0,
    gbytI2CRXbuf := fun _ => 0, gbytI2CTXbuf := fun _ => 0, i2c_nIndex := 0, i2c_nCount := 0,
    gnFrameCounter := 0, gnImageWidth := width, gnImageHeight := height,
    gnCameraLED := 0, gnEyeLED1 := 0, gnEyeLED2 := 0, gnLuminanceMode := 0,
    gunImgAtt := fun _ _ => old, gunIHisto := fun _ => 0, gunAverageLuminance := 0,
    gnCameraReady := 0, gn16Pixel := line, nLineCounter := 0, unLumCumulative := 0,
    led_nCounter := 0, led_nCounterBlink := 0,
    gbytTXbuffer2 := fun _ => 0, gbytTXbufptr2 := 0, gbytTXbuflen2 := 0,
    gbytRXbuffer2 := fun _ => 0, gbytRXbufptr2 := 0,
    gSCIstatus2 := { bTXRDY := false, bTXDMAEN := false, bRXRDY := false, bRXOVF := false,
                     bRFTXRDY := false, bRFRXRDY := false, bRFRESET := false,
                     bRFTXERR := false } }

/-- Initial values of the carried locals; nothing the driver stores depends on
them. -/
def someLocals : LineLocals :=
  { nHue := -1, grad := { nLuminance1 := -1, nLuminance5 := -1, nLuminance7 := -1,
                          nLuminance8 := -1 } }

/-- The next invocation of the camera task by the scheduler, once the timer of
its context has run down to 0. -/
def camInvoke (k : SamHeader) (loc : LineLocals) (r : StepResult Firmware) : StepResult Firmware :=
  Proce_TCM8230_Driver k loc { r.ctx with nTimer := 0 } r.world

/-- The frame buffer after the lines `lines` of a frame have been captured:
for each line the DMA controller fills the line buffer and the camera task
processes it (`camLineDone`). -/
def captureLines (k : SamHeader) (loc : LineLocals) : List (Int → Int) → Firmware → Firmware
  | [], w => w
  | line :: rest, w => captureLines k loc rest (camLineDone k loc { w with gn16Pixel := line })

/-- A firmware state at the end of a frame: the cumulative luminance is
`cumulative` and the histogram holds 7 in bucket 5 and 3 in bucket 200. -/
def frameEndFirmware (cumulative : Nat) : Firmware :=
  { resetFirmware 160 120 0 (fun _ => 0) (fun _ => 0) with
    unLumCumulative := cumulative,
    gunIHisto := fun i => if i = 5 then 7 else if i = 200 then 3 else 0 }

/-- A camera with an image of 2 by 2 pixels whose frame buffer still holds
`0xABCD` in every cell, whose sync input reads low, whose line-complete flag
reads set at every poll and whose line buffer holds the samples `0x1234` and
`0x1235`. -/
def tinyCamera : StepResult Firmware :=
  { ctx := ⟨5, 7, 0⟩,
    world := resetFirmware 2 2 0xABCD (fun c => 0x1234 + c)
      (fun r => if r = Reg.PIOA_PCISR then sam4s.PIO_PCISR_ENDRX else 0),
    calls := 0 }

/-! ### Runs of the I2C task -/

/-- The next invocation of the I2C task by the scheduler, once the timer of its
context has run down to 0. -/
def i2cInvoke (k : SamHeader) (r : StepResult Firmware) : StepResult Firmware :=
  Proce_I2C0_Driver k { r.ctx with nTimer := 0 } r.world

/-- The state after `n` invocations of the I2C task. -/
def i2cRun (k : SamHeader) : Nat → StepResult Firmware → StepResult Firmware
  | 0, r => r
  | n + 1, r => i2cInvoke k (i2cRun k n r)

/-- What a transaction of the I2C task turns on: the state of the task, the
status flags, the byte count and the transmit pointer `nCount`. -/
def i2cView (r : StepResult Firmware) : Int × I2C_STATUS × Nat × Int :=
  (r.ctx.nState, r.world.gI2CStat, r.world.gbytI2CByteCount, r.world.i2c_nCount)

/-- The values stored to the transmit holding register `TWI_THR`, oldest
first. -/
def thrStores (w : Firmware) : List Nat :=
  (w.hw.stores.filter (fun s => decide (s.1 = Reg.TWI0_THR))).map (fun s => s.2)

/-- The I2C task in its dispatcher state with a send request of `n` bytes for
the register `0x1E` of the slave `0x1E` in an idle descriptor; the transmit
buffer holds `0x68, 0x69, ...` and every read of the status register `TWI_SR`
returns `sr`. -/
def sendRequest (n sr : Nat) : StepResult Firmware :=
  { ctx := ⟨2, 1, 0⟩,
    world :=
      { resetFirmware 160 120 0 (fun _ => 0) (fun r => if r = Reg.TWI0_SR then sr else 0) with
        gI2CStat := { bI2CBusy := false, bCommError := false, bRead := false, bSend := true },
        gbytI2CSlaveAdd := 0x1E, gbytI2CRegAdd := 0x1E, gbytI2CByteCount := n,
        gbytI2CTXbuf := fun i => (0x68 + i.toNat) % 256 },
    calls := 0 }

/-- The I2C task in its dispatcher state with a receive request made as the
driver documents it, for one byte of the register `0x30` of the slave `0x1E`;
the receive buffer still holds `0x77` and every register reads `0x5A`. -/
def receiveRequest : StepResult Firmware :=
  { ctx := ⟨2, 1, 0⟩,
    world :=
      { resetFirmware 160 120 0 (fun _ => 0) (fun _ => 0x5A) with
        gI2CStat := { bI2CBusy := false, bCommError := false, bRead := true, bSend := false },
        gbytI2CSlaveAdd := 0x1E, gbytI2CRegAdd := 0x30, gbytI2CByteCount := 1,
        gbytI2CRXbuf := fun _ => 0x77 },
    calls := 0 }

/-! ### References of the specification for the pixel pipeline -/

/-- The hue of a pixel as the specification words it.  With `R6 = 2*R5`,
`B6 = 2*B5`, `max` and `min` taken over `(R6, G6, B6)` and `D = max - min`: if
`D < 5` it is 400 when `max < 13` and 420 otherwise; if `D >= 5` it is `h` when
`h >= 0` and `h + 360` when `h < 0`, where `h` is `(60*(G6 - B6)) / D` if
`R6 = max`, else `120 + (60*(B6 - R6)) / D` if `G6 = max`, else
`240 + (60*(R6 - G6)) / D`, the division truncating toward zero. -/
def hueReference (R5 G6 B5 : Nat) : Int :=
  let R6 : Int := 2 * (R5 : Int)
  let G6 : Int := (G6 : Int)
  let B6 : Int := 2 * (B5 : Int)
  let mx := max R6 (max G6 B6)
  let mn := min R6 (min G6 B6)
  let D := mx - mn
  if D < 5 then
    if mx < 13 then 400 else 420
  else
    let h :=
      if R6 = mx then Int.tdiv (60 * (G6 - B6)) D
      else if G6 = mx then 120 + Int.tdiv (60 * (B6 - R6)) D
      else 240 + Int.tdiv (60 * (R6 - G6)) D
    if h ≥ 0 then h else h + 360

/-- The two gradient terms as the specification words them, for the
neighbourhood `L1 L7 L2 / L3 G L4 / L5 L8 L6`:
`gx = (L2 + L6 - L1 - L5) + 2*(L4 - L3)` and
`gy = (L5 + L6 - L1 - L2) + 2*(L8 - L7)`. -/
def gradientReference (L1 L2 L3 L4 L5 L6 L7 L8 : Int) : Int × Int :=
  ((L2 + L6 - L1 - L5) + 2 * (L4 - L3), (L5 + L6 - L1 - L2) + 2 * (L8 - L7))

/-- The 16-bit word obtained by swapping the two bytes of the low 16 bits of
`x`, as the specification words the decoding of a sample. -/
def byteSwap16 (x : Int) : Nat :=
  let v := (x % 65536).toNat
  (v % 256) * 256 + v / 256

/-- A frame buffer in which the pixel right of the one whose gradient is
computed at column 2 of line 2, cell `[2][1]`, has luminance 10 and every other
cell luminance 0. -/
def edgeImage : Int → Int → Nat :=
  fun c r => if c = 2 ∧ r = 1 then 10 else 0

/-- A frame buffer that holds a 3x3 neighbourhood of luminances in the cells the
gradient code reads at column 2 of the line counter 2, laid out as in the
diagram of lines 545 to 547 (rows `L1 L7 L2`, `L3 G L4`, `L5 L8 L6`); the cell
of `L6`, the pixel under process, and every other cell hold 0. -/
def neighbourhood (n1 n2 n3 n4 n5 n7 n8 : Nat) : Int → Int → Nat :=
  fun c r =>
    if c = 0 ∧ r = 0 then n1 else if c = 1 ∧ r = 0 then n7 else if c = 2 ∧ r = 0 then n2
    else if c = 0 ∧ r = 1 then n3 else if c = 2 ∧ r = 1 then n4
    else if c = 0 ∧ r = 2 then n5 else if c = 1 ∧ r = 2 then n8 else 0

/-- The statements of state 8 that precede the column loop (lines 386 to 391):
the line counter is raised and the DMA descriptor is armed for the next line. -/
def camLineStart (k : SamHeader) (w : Firmware) : Firmware :=
  let w := { w with nLineCounter := w.nLineCounter + 1 }
  let w := w.store .PDC_PIOA_RPR k.addr_gn16Pixel
  let w := w.store .PDC_PIOA_RCR (toWord w.gnImageWidth)
  let w := w.store .PDC_PIOA_RNPR k.addr_gn16Pixel
  w.store .PDC_PIOA_RNCR 0

/-- The gradient `nLumGrad` that the body of the column loop computes for the
column `ncolindex` (lines 400 to 602), the value `pixelStep` writes back. -/
def pixelGradient (w : Firmware) (ncolindex : Int) (loc : LineLocals) : Int :=
  let rgb := decodeSample (w.gn16Pixel ncolindex)
  let nLuminance := luminanceOf w.gnLuminanceMode rgb.1 rgb.2.1 rgb.2.2
  (gradientOf w.gunImgAtt ncolindex w.nLineCounter nLuminance loc.grad).1

/-- A camera with an image of 3 by 3 pixels right after the frame-sync
transition; the frame buffer holds `0xABCD` in every cell. -/
def smallFrame : Firmware :=
  resetFirmware 3 3 0xABCD (fun c => 0x1234 + 0x0800 * c) (fun _ => 0)

/-- Two consecutive line passes of a frame: the pass of one line from `w0`
(with carried locals `loc0`), the DMA controller filling the line buffer with
`line`, and the columns `0 .. c - 1` of the pass of the next line.  The result
is the state and the carried locals before column `c` of that pass. -/
def nextLineBefore (k : SamHeader) (loc0 loc : LineLocals) (w0 : Firmware) (line : Int → Int)
    (c : Nat) : Firmware × LineLocals :=
  lineLoop (camLineStart k { camLineDone k loc0 w0 with gn16Pixel := line }) loc c

/-! ### The routine `OSUpdateTaskTimer` (`os_APIs.c`) -/

/-- The loop of `OSUpdateTaskTimer` (lines 133 to 137): the contexts after the
iterations `0 .. ni - 1`; every iteration decrements a timer. -/
def updateLoop (ctx : Int → TASK_ATTRIBUTE) : Nat → (Int → TASK_ATTRIBUTE)
  | 0 => ctx
  | ni + 1 =>
    let c := updateLoop ctx ni
    setAt c ni { c ni with nTimer := (c ni).nTimer - 1 }

/-- The routine `OSUpdateTaskTimer` of `os_APIs.c`. -/
def OSUpdateTaskTimer {W : Type} (m : Kernel W) : Kernel W :=
  { m with gstrcTaskContext := updateLoop m.gstrcTaskContext m.gnTaskCount.toNat }

/-- The timer loop of the tick handler of `main` (lines 74 to 81) as a routine
of its own. -/
def tickTimers {W : Type} (m : Kernel W) : Kernel W :=
  { m with gstrcTaskContext := timerLoop m.gstrcTaskContext m.gnTaskCount.toNat }

/-- A kernel with `n` tasks whose cell `i` holds id `i + 1`, state `i` and
timer `i + 1`. -/
def busyKernel (n : Int) : Kernel Unit :=
  { inTrap := false, gnRunTask := 0, gnTaskCount := n, gunClockTick := 0,
    gstrcTaskContext := fun i => ⟨i + 1, i, i + 1⟩,
    gfptrTask := fun i => (10 + i).toNat, world := () }

/-! ### Declared sizes and sample inputs of the serial drivers -/

/-- The declared length of `gbytRXbuffer` (`Driver_UART_V100.c`, line 28):
`__SCI_RXBUF_LENGTH-1`. -/
def gbytRXbufferLen : Nat := __SCI_RXBUF_LENGTH - 1

/-- The declared length of `gbytRXbuffer2` (`Driver_USART_V100.c`, line 28):
`__SCI_RXBUF2_LENGTH-1`. -/
def gbytRXbuffer2Len : Nat := __SCI_RXBUF2_LENGTH - 1

/-- A UART world after reset (receive pointer 0, nothing to transmit) whose
status register reads `RXRDY` at the first `n + 2` reads and 0 afterwards, so
that `n` bytes are waiting, and whose receive holding register delivers the
bytes `0xA0, 0xA1, ...`. -/
def uartRxWorld (n : Nat) : UartWorld :=
  { gSCIstatus := { bTXRDY := false, bTXDMAEN := false, bRXRDY := false, bRXOVF := false,
                    bRFTXRDY := false, bRFRXRDY := false, bRFRESET := false, bRFTXERR := false },
    gbytTXbuffer := fun _ => 0, gbytTXbufptr := 0, gbytTXbuflen := 0,
    gbytRXbuffer := fun _ => 0, gbytRXbufptr := 0,
    regs := fun _ => 0, UART_SR := fun i => if i < n + 2 then 1 else 0, srReads := 0,
    UART_RHR := fun i => 0xA0 + i, rhrReads := 0, UART_THR := [] }

/-- A firmware state after reset whose USART status register reads `RXRDY` at
the first `n + 2` reads and 0 afterwards, and whose receive holding register
delivers the bytes `0xA0, 0xA1, ...`. -/
def usartRxFirmware (n : Nat) : Firmware :=
  { resetFirmware 160 120 0 (fun _ => 0) (fun _ => 0) with
    hw := { regs := fun _ => 0,
            input := fun r i =>
              if r = Reg.USART0_CSR then (if i < n + 2 then 1 else 0)
              else if r = Reg.USART0_RHR then 0xA0 + i else 0,
            reads := fun _ => 0, stores := [] } }

/-! ### Accesses to the frame buffer -/

/-- The constant `_IMAGE_HRESOLUTION` of `Driver_TCM8230.c`, the first
dimension of `gunImgAtt`. -/
def _IMAGE_HRESOLUTION : Int := 160

/-- The constant `_IMAGE_VRESOLUTION` of `Driver_TCM8230.c`, the second
dimension of `gunImgAtt`. -/
def _IMAGE_VRESOLUTION : Int := 120

/-- Whether an index pair is inside the declared bounds of
`gunImgAtt[_IMAGE_HRESOLUTION][_IMAGE_VRESOLUTION]`. -/
def inFrameBuffer (a : Int × Int) : Bool :=
  decide (0 ≤ a.1 ∧ a.1 < _IMAGE_HRESOLUTION ∧ 0 ≤ a.2 ∧ a.2 < _IMAGE_VRESOLUTION)

/-- The index pairs of the accesses to `gunImgAtt` that the body of the column
loop makes for the column `ncolindex` of the line `nLineCounter`, in program
order: the reads of lines 551 to 554 and 557 to 559, the write of line 610, and
the read and the write of line 611. -/
def pixelAccesses (ncolindex nLineCounter : Int) : List (Int × Int) :=
  (if ncolindex > 1 ∧ nLineCounter > 1 then
    (if ncolindex = 2 then
      [(ncolindex - 2, nLineCounter - 2), (ncolindex - 2, nLineCounter),
       (ncolindex - 1, nLineCounter - 2), (ncolindex - 1, nLineCounter)]
     else []) ++
    [(ncolindex, nLineCounter - 2), (ncolindex - 2, nLineCounter - 1),
     (ncolindex, nLineCounter - 1)]
   else []) ++
  [(ncolindex, nLineCounter), (ncolindex - 1, nLineCounter - 1),
   (ncolindex - 1, nLineCounter - 1)]

/-- A camera with the default image of 160 by 120 pixels in the capture state
with 119 lines of the frame done; the frame buffer holds `0xABCD` in every
cell, the line buffer holds the sample `0x1234` in every column and the
line-complete flag reads set. -/
def lastLineCamera : StepResult Firmware :=
  { ctx := ⟨5, 8, 0⟩,
    world :=
      { resetFirmware 160 120 0xABCD (fun _ => 0x1234)
          (fun r => if r = Reg.PIOA_PCISR then sam4s.PIO_PCISR_ENDRX else 0) with
        nLineCounter := 119 },
    calls := 0 }

/-! ### Runs of the capture state -/

/-- The number of lines that complete during the first `n` invocations of the
capture state from the state `w`: the invocation `i` reads the line-complete
flag `ENDRX` of `PIO_PCISR` once, as read number `reads + i`. -/
def linesDone (k : SamHeader) (w : Firmware) : Nat → Nat
  | 0 => 0
  | n + 1 =>
    linesDone k w n +
      (if w.hw.input .PIOA_PCISR (w.hw.reads .PIOA_PCISR + n) &&& k.PIO_PCISR_ENDRX > 0
        then 1 else 0)

/-- The state after `n` invocations of the camera task.  Before the invocation
`i` the DMA controller has left `lines i` in the line buffer, and the locals
of the routine hold `locs i` on entry. -/
def captureRun (k : SamHeader) (locs : Nat → LineLocals) (lines : Nat → Int → Int) :
    Nat → StepResult Firmware → StepResult Firmware
  | 0, r => r
  | n + 1, r =>
    camInvoke k (locs n)
      { captureRun k locs lines n r with
        world := { (captureRun k locs lines n r).world with gn16Pixel := lines n } }

/-! ### The gradient with all neighbours read from the frame buffer -/

/-- The four neighbour luminances that the gradient code keeps in locals, read
from the frame buffer for the column `c` of the line `L` as lines 551 to 554
read them. -/
def freshLocals (img : Int → Int → Nat) (c L : Int) : GradLocals :=
  { nLuminance1 := ((img (c - 2) (L - 2) &&& _LUMINANCE_MASK : Nat) : Int),
    nLuminance5 := ((img (c - 2) L &&& _LUMINANCE_MASK : Nat) : Int),
    nLuminance7 := ((img (c - 1) (L - 2) &&& _LUMINANCE_MASK : Nat) : Int),
    nLuminance8 := ((img (c - 1) L &&& _LUMINANCE_MASK : Nat) : Int) }

/-- The gradient of lines 540 to 602 with all the neighbours read from the
frame buffer for every pixel, as the earlier version of the driver kept in
`Driver_I2C_V100.h` reads them (its lines 575 to 583); the current pixel is
`nLuminance`, and the terms and the limits are those of `Driver_TCM8230.c`. -/
def gradientReread (img : Int → Int → Nat) (ncolindex nLineCounter : Int) (nLuminance : Int) :
    Int :=
  if ncolindex > 1 ∧ nLineCounter > 1 then
    let nLuminance1 : Int :=
      ((img (ncolindex - 2) (nLineCounter - 2) &&& _LUMINANCE_MASK : Nat) : Int)
    let nLuminance2 : Int := ((img ncolindex (nLineCounter - 2) &&& _LUMINANCE_MASK : Nat) : Int)
    let nLuminance3 : Int :=
      ((img (ncolindex - 2) (nLineCounter - 1) &&& _LUMINANCE_MASK : Nat) : Int)
    let nLuminance4 : Int := ((img ncolindex (nLineCounter - 1) &&& _LUMINANCE_MASK : Nat) : Int)
    let nLuminance5 : Int := ((img (ncolindex - 2) nLineCounter &&& _LUMINANCE_MASK : Nat) : Int)
    let nLuminance6 := nLuminance
    let nLuminance7 : Int :=
      ((img (ncolindex - 1) (nLineCounter - 2) &&& _LUMINANCE_MASK : Nat) : Int)
    let nLuminance8 : Int := ((img (ncolindex - 1) nLineCounter &&& _LUMINANCE_MASK : Nat) : Int)
    let g := gradientTerms nLuminance1 nLuminance2 nLuminance3 nLuminance4 nLuminance5
      nLuminance6 nLuminance7 nLuminance8
    clampGradient g.1 g.2
  else 0

/-- The luminance `nLuminance` that the body of the column loop computes for
the column `ncolindex` (lines 400 to 453). -/
def pixelLuminance (w : Firmware) (ncolindex : Int) : Nat :=
  let rgb := decodeSample (w.gn16Pixel ncolindex)
  luminanceOf w.gnLuminanceMode rgb.1 rgb.2.1 rgb.2.2

/-- A camera with an image of 5 by 3 pixels at the start of the pass of its
third line (line counter 3); the cell `[c][r]` of the frame buffer holds the
luminance `(5*c + 3*r) mod 128` and the line buffer holds the samples
`0x4000 * c`. -/
def windowFrame : Firmware :=
  { resetFirmware 5 3 0 (fun c => 0x4000 * c) (fun _ => 0) with
    gunImgAtt := fun c r => (5 * c + 3 * r).toNat % 128,
    nLineCounter := 3 }

/-! ### Measures of the luminance histogram -/

/-- The sum of the buckets `0 .. 127` of the histogram. -/
def histoSum (h : Int → Int) : Int :=
  Finset.sum (Finset.range 128) (fun i => h (i : Int))

/-- The sum over the buckets `0 .. 127` of the index times the bucket. -/
def histoWeighted (h : Int → Int) : Int :=
  Finset.sum (Finset.range 128) (fun i => (i : Int) * h (i : Int))

/-! ## Theorems -/

/-! ### Arrays -/

theorem setAt_same {α : Type} (a : Int → α) (i : Int) (v : α) : setAt a i v i = v := by
  simp [setAt]

theorem setAt_other {α : Type} (a : Int → α) (i j : Int) (v : α) (h : j ≠ i) :
    setAt a i v j = a j := by
  simp [setAt, h]

/-! ### The timer loop -/

/-- What the timer loop leaves in a cell. -/
theorem timerLoop_apply (ctx : Int → TASK_ATTRIBUTE) (n : Nat) (j : Int) :
    timerLoop ctx n j =
      if 0 ≤ j ∧ j < n ∧ (ctx j).nTimer > 0 then
        { ctx j with nTimer := (ctx j).nTimer - 1 }
      else ctx j := by
  induction n with
  | zero =>
    have h : ¬ (0 ≤ j ∧ j < ((0 : Nat) : Int) ∧ (ctx j).nTimer > 0) := by
      rintro ⟨h0, h1, -⟩
      simp at h1
      omega
    rw [if_neg h]
    rfl
  | succ k ih =>
    have ihk := ih
    simp only [timerLoop]
    by_cases hj : j = (k : Int)
    · subst hj
      have hk : timerLoop ctx k (k : Int) = ctx (k : Int) := by
        rw [ih]
        simp
      by_cases ht : (ctx (k : Int)).nTimer > 0
      · simp [hk, ht, setAt]
      · simp [hk, ht]
    · by_cases ht : (timerLoop ctx k (k : Int)).nTimer > 0
      · simp only [ht, if_true, setAt, hj, if_false]
        rw [ih]
        have : (j < ((k + 1 : Nat) : Int)) ↔ j < (k : Int) := by
          push_cast
          omega
        simp only [this]
      · simp only [ht, if_false]
        rw [ih]
        have : (j < ((k + 1 : Nat) : Int)) ↔ j < (k : Int) := by
          push_cast
          omega
        simp only [this]

/-! ### The task scan -/

theorem scanLoop_frame {W : Type} (code : TaskCode W) (m : Kernel W) (n : Nat) :
    (scanLoop code m n).1.inTrap = m.inTrap ∧
    (scanLoop code m n).1.gnRunTask = m.gnRunTask ∧
    (scanLoop code m n).1.gnTaskCount = m.gnTaskCount ∧
    (scanLoop code m n).1.gunClockTick = m.gunClockTick ∧
    (scanLoop code m n).1.gfptrTask = m.gfptrTask := by
  induction n with
  | zero => simp [scanLoop]
  | succ k ih =>
    simp only [scanLoop]
    split <;> simp_all

/-- The scan leaves alone the cells it has not reached. -/
theorem scanLoop_ctx_unreached {W : Type} (code : TaskCode W) (m : Kernel W) (n : Nat)
    (j : Int) (hj : j < 0 ∨ (n : Int) ≤ j) :
    (scanLoop code m n).1.gstrcTaskContext j = m.gstrcTaskContext j := by
  induction n with
  | zero => simp [scanLoop]
  | succ k ih =>
    have hk : j ≠ (k : Int) := by
      push_cast at hj
      omega
    have hj2 : j < 0 ∨ (k : Int) ≤ j := by
      push_cast at hj
      omega
    simp only [scanLoop]
    split
    · simp only [setAt, hk, if_false]
      exact ih hj2
    · exact ih hj2

/-- The scan leaves alone the context of a task that is not eligible. -/
theorem scanLoop_ctx_skipped {W : Type} (code : TaskCode W) (m : Kernel W) (n : Nat)
    (j : Int) (hj : (m.gstrcTaskContext j).nTimer ≠ 0) :
    (scanLoop code m n).1.gstrcTaskContext j = m.gstrcTaskContext j := by
  induction n with
  | zero => simp [scanLoop]
  | succ k ih =>
    simp only [scanLoop]
    split
    · rename_i h0
      by_cases hk : j = (k : Int)
      · subst hk
        rw [ih] at h0
        exact absurd h0 hj
      · simp only [setAt, hk, if_false]
        exact ih
    · exact ih

/-- The context of an eligible task after the scan is what its step function
returned for the context it had before the scan. -/
theorem scanLoop_ctx_called {W : Type} (code : TaskCode W) (m : Kernel W) (n : Nat)
    (j : Nat) (hj : j < n) (h0 : (m.gstrcTaskContext j).nTimer = 0) :
    ∃ w, (scanLoop code m n).1.gstrcTaskContext j =
      (code (m.gfptrTask j) (m.gstrcTaskContext j) w).1 := by
  induction n with
  | zero => omega
  | succ k ih =>
    simp only [scanLoop]
    by_cases hk : j = k
    · subst hk
      have hc := scanLoop_ctx_unreached code m j (j : Int) (Or.inr (le_refl _))
      have hf := (scanLoop_frame code m j).2.2.2.2
      rw [hc, hf, if_pos h0]
      exact ⟨(scanLoop code m j).1.world, by simp [setAt]⟩
    · have hlt : j < k := by omega
      obtain ⟨w, hw⟩ := ih hlt
      have hne : (j : Int) ≠ (k : Int) := by
        intro h
        exact hk (by exact_mod_cast h)
      refine ⟨w, ?_⟩
      split
      · simp only [setAt, hne, if_false]
        exact hw
      · exact hw

/-- The calls of the scan: one for each eligible task, in table order. -/
theorem scanLoop_log {W : Type} (code : TaskCode W) (m : Kernel W) (n : Nat) :
    (scanLoop code m n).2 = (List.range n).filterMap (callOf m) := by
  induction n with
  | zero => simp [scanLoop]
  | succ k ih =>
    have hc := scanLoop_ctx_unreached code m k (k : Int) (Or.inr (le_refl _))
    have hf := (scanLoop_frame code m k).2.2.2.2
    simp only [scanLoop, List.range_succ, List.filterMap_append, hc, hf]
    by_cases h0 : (m.gstrcTaskContext (k : Int)).nTimer = 0
    · simp [h0, ih, callOf]
    · simp [h0, ih, callOf]

theorem callOf_congr {W : Type} (m m2 : Kernel W) (i : Nat)
    (hc : m2.gstrcTaskContext = m.gstrcTaskContext) (hf : m2.gfptrTask = m.gfptrTask) :
    callOf m2 i = callOf m i := by
  simp [callOf, hc, hf]

/-! ### The tick handler and a pass of the main loop -/

theorem tickHandler_run {W : Type} (b : Board W) (m : Kernel W) (h1 : m.gnRunTask ≠ 1) :
    tickHandler b m =
      { m with gnRunTask := 1, gunClockTick := (m.gunClockTick + 1) % 2 ^ 32,
               gstrcTaskContext := timerLoop m.gstrcTaskContext m.gnTaskCount.toNat,
               world := b.PIOB_CLEAR_P1 (b.PIOB_SET_P1 m.world) } := by
  simp [tickHandler, h1]

theorem tickHandler_trap {W : Type} (b : Board W) (m : Kernel W) (h1 : m.gnRunTask = 1) :
    tickHandler b m = { m with inTrap := true, world := b.PIOB_SET_P1 m.world } := by
  simp [tickHandler, h1]

/-- A pass with a tick, outside the trap and with the guard not 1: the tick
handler followed by the scan. -/
theorem mainLoopPass_tick {W : Type} (code : TaskCode W) (b : Board W) (m : Kernel W)
    (hrun : m.inTrap = false) (h1 : m.gnRunTask ≠ 1) :
    mainLoopPass code b true m =
      ({ (scanLoop code { tickHandler b m with world := b.ClearWatchDog (tickHandler b m).world }
            m.gnTaskCount.toNat).1 with gnRunTask := 0 },
       (scanLoop code { tickHandler b m with world := b.ClearWatchDog (tickHandler b m).world }
            m.gnTaskCount.toNat).2) := by
  rw [tickHandler_run b m h1]
  simp [mainLoopPass, hrun, tickHandler, h1, runTasks]

/-- The calls of a pass with a tick, outside the trap and with the guard not 1. -/
theorem mainLoopPass_tick_log {W : Type} (code : TaskCode W) (b : Board W) (m : Kernel W)
    (hrun : m.inTrap = false) (h1 : m.gnRunTask ≠ 1) :
    (mainLoopPass code b true m).2 =
        (List.range m.gnTaskCount.toNat).filterMap (callOf (tickHandler b m)) := by
  rw [mainLoopPass_tick code b m hrun h1]
  simp only []
  rw [scanLoop_log]
  apply List.filterMap_congr
  intro i _
  exact callOf_congr _ _ i rfl rfl

/-- A call recorded for index `i` comes from an eligible cell `i`. -/
theorem callOf_mem {W : Type} (m : Kernel W) (n : Nat) (inv : Invocation)
    (h : inv ∈ (List.range n).filterMap (callOf m)) :
    ∃ j : Nat, j < n ∧ inv.ni = (j : Int) ∧ (m.gstrcTaskContext j).nTimer = 0 := by
  rw [List.mem_filterMap] at h
  obtain ⟨j, hjn, hj⟩ := h
  unfold callOf at hj
  split at hj
  · rename_i h0
    simp only [Option.some.injEq] at hj
    subst hj
    exact ⟨j, List.mem_range.mp hjn, rfl, h0⟩
  · exact absurd hj (by simp)

/-- C1. In a pass of the main loop that observes a tick and does not take the
overflow trap, the calls made are exactly those of the tasks at the indices
`0 .. gnTaskCount - 1` whose `nTimer` is 0 when the scan reaches them (that is,
in the state the tick handler leaves), each once, with the routine of its table
entry and its own context, in increasing index order; a task whose `nTimer` is
not 0 is not called; and `gnRunTask` is 0 after the scan. -/
theorem C1_scan_calls_eligible_in_order {W : Type} (code : TaskCode W) (b : Board W)
    (m : Kernel W) (hrun : m.inTrap = false) (h1 : m.gnRunTask ≠ 1) :
    (mainLoopPass code b true m).2 =
        (List.range m.gnTaskCount.toNat).filterMap (callOf (tickHandler b m)) ∧
    (∀ i : Nat, ((tickHandler b m).gstrcTaskContext i).nTimer ≠ 0 →
        ∀ inv ∈ (mainLoopPass code b true m).2, inv.ni ≠ i) ∧
    (mainLoopPass code b true m).1.gnRunTask = 0 := by
  have hlog := mainLoopPass_tick_log code b m hrun h1
  refine ⟨hlog, ?_, ?_⟩
  · intro i hi inv hinv hEq
    rw [hlog] at hinv
    obtain ⟨j, -, hj, h0⟩ := callOf_mem _ _ inv hinv
    rw [hEq] at hj
    have : i = j := by exact_mod_cast hj
    subst this
    exact hi h0
  · rw [mainLoopPass_tick code b m hrun h1]

/-- C1 on a kernel with four tasks whose timers are 0, 1, 2 and 0. -/
theorem C1_witness :
    (sampleKernel 4 0).inTrap = false ∧ (sampleKernel 4 0).gnRunTask ≠ 1 ∧
    ((mainLoopPass stepCode plainBoard true (sampleKernel 4 0)).2 =
        (List.range (sampleKernel 4 0).gnTaskCount.toNat).filterMap
          (callOf (tickHandler plainBoard (sampleKernel 4 0))) ∧
     (∀ i : Nat, ((tickHandler plainBoard (sampleKernel 4 0)).gstrcTaskContext i).nTimer ≠ 0 →
        ∀ inv ∈ (mainLoopPass stepCode plainBoard true (sampleKernel 4 0)).2, inv.ni ≠ i) ∧
     (mainLoopPass stepCode plainBoard true (sampleKernel 4 0)).1.gnRunTask = 0) :=
  ⟨rfl, by decide,
    C1_scan_calls_eligible_in_order stepCode plainBoard (sampleKernel 4 0) rfl (by decide)⟩

/-- C2. In a pass that observes a tick while `gnRunTask` is not 1, the tick
handler increments `gunClockTick` by 1 modulo `2^32`, decrements by 1 the
`nTimer` of every registered task whose `nTimer` is greater than 0, leaves every
`nTimer` that is 0 or less unchanged, and changes no `nState` and no `nID`. -/
theorem C2_tick_handler_effect {W : Type} (b : Board W) (m : Kernel W)
    (h1 : m.gnRunTask ≠ 1) :
    (tickHandler b m).gunClockTick = (m.gunClockTick + 1) % 2 ^ 32 ∧
    (∀ i : Int, 0 ≤ i → i < m.gnTaskCount → (m.gstrcTaskContext i).nTimer > 0 →
        ((tickHandler b m).gstrcTaskContext i).nTimer = (m.gstrcTaskContext i).nTimer - 1) ∧
    (∀ i : Int, (m.gstrcTaskContext i).nTimer ≤ 0 →
        ((tickHandler b m).gstrcTaskContext i).nTimer = (m.gstrcTaskContext i).nTimer) ∧
    (∀ i : Int, ((tickHandler b m).gstrcTaskContext i).nState = (m.gstrcTaskContext i).nState ∧
        ((tickHandler b m).gstrcTaskContext i).nID = (m.gstrcTaskContext i).nID) := by
  rw [tickHandler_run b m h1]
  refine ⟨rfl, ?_, ?_, ?_⟩
  · intro i h0 hlt hpos
    have hc : 0 ≤ i ∧ i < (m.gnTaskCount.toNat : Int) ∧ (m.gstrcTaskContext i).nTimer > 0 :=
      ⟨h0, by omega, hpos⟩
    simp only [timerLoop_apply, hc, and_self, if_true]
  · intro i hle
    have hc : ¬ (0 ≤ i ∧ i < (m.gnTaskCount.toNat : Int) ∧ (m.gstrcTaskContext i).nTimer > 0) := by
      rintro ⟨-, -, hpos⟩
      omega
    simp only [timerLoop_apply, hc, if_false]
  · intro i
    simp only [timerLoop_apply]
    split <;> simp

/-- C2 on a kernel with four tasks, the guard clear and the tick counter at its maximum. -/
theorem C2_witness :
    (sampleKernel 4 0).gnRunTask ≠ 1 ∧
    ((tickHandler plainBoard (sampleKernel 4 0)).gunClockTick =
        ((sampleKernel 4 0).gunClockTick + 1) % 2 ^ 32 ∧
     (∀ i : Int, 0 ≤ i → i < (sampleKernel 4 0).gnTaskCount →
        ((sampleKernel 4 0).gstrcTaskContext i).nTimer > 0 →
        ((tickHandler plainBoard (sampleKernel 4 0)).gstrcTaskContext i).nTimer =
          ((sampleKernel 4 0).gstrcTaskContext i).nTimer - 1) ∧
     (∀ i : Int, ((sampleKernel 4 0).gstrcTaskContext i).nTimer ≤ 0 →
        ((tickHandler plainBoard (sampleKernel 4 0)).gstrcTaskContext i).nTimer =
          ((sampleKernel 4 0).gstrcTaskContext i).nTimer) ∧
     (∀ i : Int,
        ((tickHandler plainBoard (sampleKernel 4 0)).gstrcTaskContext i).nState =
          ((sampleKernel 4 0).gstrcTaskContext i).nState ∧
        ((tickHandler plainBoard (sampleKernel 4 0)).gstrcTaskContext i).nID =
          ((sampleKernel 4 0).gstrcTaskContext i).nID)) :=
  ⟨by decide, C2_tick_handler_effect plainBoard (sampleKernel 4 0) (by decide)⟩

/-! ### The overflow trap -/

/-- Inside the trap, passes call no task and change neither the kernel globals
nor the task contexts. -/
theorem runPasses_inTrap {W : Type} (code : TaskCode W) (b : Board W) (flags : List Bool)
    (m : Kernel W) (h : m.inTrap = true) :
    (runPasses code b flags m).1.inTrap = true ∧
    (∀ l ∈ (runPasses code b flags m).2, l = []) ∧
    (runPasses code b flags m).1.gunClockTick = m.gunClockTick ∧
    (runPasses code b flags m).1.gstrcTaskContext = m.gstrcTaskContext ∧
    (runPasses code b flags m).1.gnTaskCount = m.gnTaskCount ∧
    (runPasses code b flags m).1.gnRunTask = m.gnRunTask := by
  induction flags generalizing m with
  | nil => simp [runPasses, h]
  | cons t ts ih =>
    have hp : mainLoopPass code b t m =
        ({ m with world := b.PIN_OSPROCE1_SET (b.ClearWatchDog m.world) }, []) := by
      simp [mainLoopPass, h]
    simp only [runPasses, hp]
    have := ih { m with world := b.PIN_OSPROCE1_SET (b.ClearWatchDog m.world) } h
    simp only [List.mem_cons, forall_eq_or_imp, true_and]
    exact this

/-- C3. If a tick is handled while `gnRunTask` is still 1, the main loop enters
the trap: in that pass and in all further passes, whatever the tick flag reads,
no task step function is called, `gunClockTick` and every task context stay as
they were, and control stays in the trap. -/
theorem C3_overflow_trap_is_final {W : Type} (code : TaskCode W) (b : Board W)
    (m : Kernel W) (hrun : m.inTrap = false) (h1 : m.gnRunTask = 1) (flags : List Bool) :
    (mainLoopPass code b true m).1.inTrap = true ∧
    (runPasses code b (true :: flags) m).1.inTrap = true ∧
    (∀ l ∈ (runPasses code b (true :: flags) m).2, l = []) ∧
    (runPasses code b (true :: flags) m).1.gunClockTick = m.gunClockTick ∧
    (runPasses code b (true :: flags) m).1.gstrcTaskContext = m.gstrcTaskContext := by
  have hp : mainLoopPass code b true m =
      ({ m with inTrap := true, world := b.PIOB_SET_P1 m.world }, []) := by
    simp [mainLoopPass, hrun, tickHandler_trap b m h1]
  have hrest := runPasses_inTrap code b flags
    { m with inTrap := true, world := b.PIOB_SET_P1 m.world } rfl
  simp only [runPasses, hp, List.mem_cons, forall_eq_or_imp, true_and]
  exact ⟨hrest.1, hrest.2.1, hrest.2.2.1, hrest.2.2.2.1⟩

/-- C3 on a kernel with the guard still set, followed by three more passes. -/
theorem C3_witness :
    (sampleKernel 4 1).inTrap = false ∧ (sampleKernel 4 1).gnRunTask = 1 ∧
    ((mainLoopPass stepCode plainBoard true (sampleKernel 4 1)).1.inTrap = true ∧
     (runPasses stepCode plainBoard (true :: [true, false, true]) (sampleKernel 4 1)).1.inTrap
        = true ∧
     (∀ l ∈ (runPasses stepCode plainBoard (true :: [true, false, true]) (sampleKernel 4 1)).2,
        l = []) ∧
     (runPasses stepCode plainBoard (true :: [true, false, true]) (sampleKernel 4 1)).1.gunClockTick
        = (sampleKernel 4 1).gunClockTick ∧
     (runPasses stepCode plainBoard (true :: [true, false, true])
        (sampleKernel 4 1)).1.gstrcTaskContext = (sampleKernel 4 1).gstrcTaskContext) :=
  ⟨rfl, rfl, C3_overflow_trap_is_final stepCode plainBoard (sampleKernel 4 1) rfl rfl
    [true, false, true]⟩

/-! ### Task creation and the yield primitive -/

/-- The success branch of `OSCreateTask`. -/
theorem OSCreateTask_ok {W : Type} (m : Kernel W) (p : Int) (f : TASK_POINTER)
    (h : m.gnTaskCount ≤ __MAXTASK) :
    OSCreateTask m p f =
      (0, { m with gnTaskCount := m.gnTaskCount + 1,
                   gfptrTask := setAt m.gfptrTask m.gnTaskCount f,
                   gstrcTaskContext := setAt m.gstrcTaskContext p ⟨m.gnTaskCount + 1, 0, 1⟩ }) := by
  have hg : ¬ m.gnTaskCount > __MAXTASK := not_lt.mpr h
  simp only [OSCreateTask, hg, if_false, Kernel.atPtr, Prod.mk.injEq, true_and]
  congr 1
  funext j
  by_cases hj : j = p <;> simp [setAt, hj]

/-- C4. For every state with `gnTaskCount < __MAXTASK - 1`, `OSCreateTask`
returns 0, sets `nState = 0` and `nTimer = 1` in the context of the caller, stores
the routine in `gfptrTask` at the old `gnTaskCount`, increments `gnTaskCount` by
1 and sets the `nID` of that context to the new `gnTaskCount`; every other entry of
the function table, in particular every earlier one, is unchanged. -/
theorem C4_create_task_success {W : Type} (m : Kernel W) (p : Int) (f : TASK_POINTER)
    (h : m.gnTaskCount < __MAXTASK - 1) :
    (OSCreateTask m p f).1 = 0 ∧
    ((OSCreateTask m p f).2.gstrcTaskContext p).nState = 0 ∧
    ((OSCreateTask m p f).2.gstrcTaskContext p).nTimer = 1 ∧
    (OSCreateTask m p f).2.gfptrTask m.gnTaskCount = f ∧
    (OSCreateTask m p f).2.gnTaskCount = m.gnTaskCount + 1 ∧
    ((OSCreateTask m p f).2.gstrcTaskContext p).nID = (OSCreateTask m p f).2.gnTaskCount ∧
    (∀ j : Int, j ≠ m.gnTaskCount → (OSCreateTask m p f).2.gfptrTask j = m.gfptrTask j) := by
  have hle : m.gnTaskCount ≤ __MAXTASK := by
    have : __MAXTASK = 12 := rfl
    omega
  rw [OSCreateTask_ok m p f hle]
  refine ⟨rfl, ?_, ?_, ?_, rfl, ?_, ?_⟩
  · simp [setAt]
  · simp [setAt]
  · simp [setAt]
  · simp [setAt]
  · intro j hj
    simp [setAt, hj]

/-- C4 on a kernel with four tasks, registering routine 77 at cell 4. -/
theorem C4_witness :
    (sampleKernel 4 0).gnTaskCount < __MAXTASK - 1 ∧
    ((OSCreateTask (sampleKernel 4 0) 4 77).1 = 0 ∧
     ((OSCreateTask (sampleKernel 4 0) 4 77).2.gstrcTaskContext 4).nState = 0 ∧
     ((OSCreateTask (sampleKernel 4 0) 4 77).2.gstrcTaskContext 4).nTimer = 1 ∧
     (OSCreateTask (sampleKernel 4 0) 4 77).2.gfptrTask (sampleKernel 4 0).gnTaskCount = 77 ∧
     (OSCreateTask (sampleKernel 4 0) 4 77).2.gnTaskCount = (sampleKernel 4 0).gnTaskCount + 1 ∧
     ((OSCreateTask (sampleKernel 4 0) 4 77).2.gstrcTaskContext 4).nID =
        (OSCreateTask (sampleKernel 4 0) 4 77).2.gnTaskCount ∧
     (∀ j : Int, j ≠ (sampleKernel 4 0).gnTaskCount →
        (OSCreateTask (sampleKernel 4 0) 4 77).2.gfptrTask j = (sampleKernel 4 0).gfptrTask j)) :=
  ⟨by decide, C4_create_task_success (sampleKernel 4 0) 4 77 (by decide)⟩

/-- C5. With `gnTaskCount` equal to `__MAXTASK` (12), the call
`OSCreateTask(&gstrcTaskContext[gnTaskCount], 99)` does not fail: it returns 0,
raises `gnTaskCount` to 13, stores the routine at index 12 of the function
table and initialises the context at index 12, both beyond the declared length
`__MAXTASK - 1` of the arrays. -/
theorem C5_create_at_max_succeeds :
    kernelAtMax.gnTaskCount = __MAXTASK ∧
    (OSCreateTask kernelAtMax kernelAtMax.gnTaskCount 99).1 = 0 ∧
    (OSCreateTask kernelAtMax kernelAtMax.gnTaskCount 99).2.gnTaskCount = 13 ∧
    (OSCreateTask kernelAtMax kernelAtMax.gnTaskCount 99).2.gfptrTask 12 = 99 ∧
    (OSCreateTask kernelAtMax kernelAtMax.gnTaskCount 99).2.gstrcTaskContext 12 = ⟨13, 0, 1⟩ ∧
    kernelAtMax.gfptrTask 12 = 0 ∧ kernelAtMax.gstrcTaskContext 12 = ⟨0, 0, 0⟩ ∧
    taskArrayLen ≤ 12 := by
  decide

/-- C6. `OSSetTaskContext(ctx, s, t)` sets `nState = s` and `nTimer = t` in the
context `ctx` points to and changes nothing else: the `nID` of that context, every
other task context, `gnTaskCount`, the function table, `gnRunTask` and
`gunClockTick` are unchanged. -/
theorem C6_set_task_context_frame {W : Type} (m : Kernel W) (p : Int) (s t : Int) :
    ((m.atPtr p (fun c => OSSetTaskContext c s t)).gstrcTaskContext p).nState = s ∧
    ((m.atPtr p (fun c => OSSetTaskContext c s t)).gstrcTaskContext p).nTimer = t ∧
    ((m.atPtr p (fun c => OSSetTaskContext c s t)).gstrcTaskContext p).nID
        = (m.gstrcTaskContext p).nID ∧
    (∀ q : Int, q ≠ p →
        (m.atPtr p (fun c => OSSetTaskContext c s t)).gstrcTaskContext q = m.gstrcTaskContext q) ∧
    (m.atPtr p (fun c => OSSetTaskContext c s t)).gnTaskCount = m.gnTaskCount ∧
    (m.atPtr p (fun c => OSSetTaskContext c s t)).gfptrTask = m.gfptrTask ∧
    (m.atPtr p (fun c => OSSetTaskContext c s t)).gnRunTask = m.gnRunTask ∧
    (m.atPtr p (fun c => OSSetTaskContext c s t)).gunClockTick = m.gunClockTick ∧
    (m.atPtr p (fun c => OSSetTaskContext c s t)).world = m.world ∧
    (m.atPtr p (fun c => OSSetTaskContext c s t)).inTrap = m.inTrap := by
  refine ⟨?_, ?_, ?_, ?_, rfl, rfl, rfl, rfl, rfl, rfl⟩
  · simp [Kernel.atPtr, setAt, OSSetTaskContext]
  · simp [Kernel.atPtr, setAt, OSSetTaskContext]
  · simp [Kernel.atPtr, setAt, OSSetTaskContext]
  · intro q hq
    simp [Kernel.atPtr, setAt, hq]

/-! ### Waiting for a number of ticks -/

/-- A call of `callOf` carries the index it was made for. -/
theorem callOf_ni {W : Type} (m : Kernel W) (j : Nat) (inv : Invocation)
    (h : callOf m j = some inv) : inv.ni = (j : Int) := by
  unfold callOf at h
  split at h
  · simp only [Option.some.injEq] at h
    subst h
    rfl
  · exact absurd h (by simp)

/-- Among the calls of a scan, those for index `i` are the single call of cell
`i` when it is eligible, and none otherwise. -/
theorem calls_for_index {W : Type} (m : Kernel W) (n i : Nat) :
    ((List.range n).filterMap (callOf m)).filter (fun inv => inv.ni = (i : Int)) =
      if i < n then (callOf m i).toList else [] := by
  induction n with
  | zero => simp
  | succ k ih =>
    rw [List.range_succ, List.filterMap_append, List.filter_append, ih]
    have hlast : ([k].filterMap (callOf m)).filter (fun inv => inv.ni = (i : Int)) =
        if i = k then (callOf m i).toList else [] := by
      cases hc : callOf m k with
      | none =>
        by_cases hik : i = k
        · subst hik
          simp [hc]
        · simp [hc, hik]
      | some inv =>
        have hni := callOf_ni m k inv hc
        by_cases hik : i = k
        · subst hik
          simp [hc, hni]
        · have hne : ¬ ((k : Int) = (i : Int)) := by
            intro h
            exact hik (by exact_mod_cast h.symm)
          simp [hc, hni, hik, hne]
    rw [hlast]
    by_cases h1 : i < k
    · have h2 : i ≠ k := by omega
      have h3 : i < k + 1 := by omega
      simp [h1, h2, h3]
    · by_cases h2 : i = k
      · subst h2
        simp
      · have h3 : ¬ i < k + 1 := by omega
        simp [h1, h2, h3]

/-- A pass without a tick, with the guard clear, only services the watchdog. -/
theorem mainLoopPass_idle {W : Type} (code : TaskCode W) (b : Board W) (m : Kernel W)
    (hrun : m.inTrap = false) (hg : m.gnRunTask = 0) :
    mainLoopPass code b false m = ({ m with world := b.ClearWatchDog m.world }, []) := by
  simp [mainLoopPass, hrun, runTasks, hg]

/-- What a pass with a tick leaves in the kernel globals. -/
theorem mainLoopPass_tick_globals {W : Type} (code : TaskCode W) (b : Board W) (m : Kernel W)
    (hrun : m.inTrap = false) (h1 : m.gnRunTask ≠ 1) :
    (mainLoopPass code b true m).1.inTrap = false ∧
    (mainLoopPass code b true m).1.gnRunTask = 0 ∧
    (mainLoopPass code b true m).1.gnTaskCount = m.gnTaskCount ∧
    (mainLoopPass code b true m).1.gfptrTask = m.gfptrTask := by
  rw [mainLoopPass_tick code b m hrun h1]
  have hf := scanLoop_frame code
    { tickHandler b m with world := b.ClearWatchDog (tickHandler b m).world } m.gnTaskCount.toNat
  rw [tickHandler_run b m h1] at hf ⊢
  simp only [] at hf ⊢
  exact ⟨by rw [hf.1]; exact hrun, trivial, hf.2.2.1, hf.2.2.2.2⟩

/-- The context of a cell after a pass with a tick: what the tick handler left,
or what the step function of the cell returned when called on that. -/
theorem mainLoopPass_tick_ctx {W : Type} (code : TaskCode W) (b : Board W) (m : Kernel W)
    (hrun : m.inTrap = false) (h1 : m.gnRunTask ≠ 1) (j : Int) :
    (mainLoopPass code b true m).1.gstrcTaskContext j = (tickHandler b m).gstrcTaskContext j ∨
    (((tickHandler b m).gstrcTaskContext j).nTimer = 0 ∧
      ∃ w, (mainLoopPass code b true m).1.gstrcTaskContext j =
        (code (m.gfptrTask j) ((tickHandler b m).gstrcTaskContext j) w).1) := by
  rw [mainLoopPass_tick code b m hrun h1]
  simp only []
  by_cases h0 : ((tickHandler b m).gstrcTaskContext j).nTimer = 0
  · by_cases hr : 0 ≤ j ∧ j < (m.gnTaskCount.toNat : Int)
    · right
      refine ⟨h0, ?_⟩
      obtain ⟨jn, rfl⟩ := Int.eq_ofNat_of_zero_le hr.1
      have hlt : jn < m.gnTaskCount.toNat := by exact_mod_cast hr.2
      obtain ⟨w, hw⟩ := scanLoop_ctx_called code
        { tickHandler b m with world := b.ClearWatchDog (tickHandler b m).world }
        m.gnTaskCount.toNat jn hlt h0
      refine ⟨w, ?_⟩
      rw [hw]
      rw [tickHandler_run b m h1]
    · left
      apply scanLoop_ctx_unreached
      omega
  · left
    exact scanLoop_ctx_skipped code _ _ j h0

/-- The tick handler on the context of a registered task with a positive timer. -/
theorem tickHandler_ctx_pos {W : Type} (b : Board W) (m : Kernel W) (h1 : m.gnRunTask ≠ 1)
    (i : Nat) (hreg : (i : Int) < m.gnTaskCount) (hpos : 0 < (m.gstrcTaskContext i).nTimer) :
    (tickHandler b m).gstrcTaskContext i =
      { m.gstrcTaskContext i with nTimer := (m.gstrcTaskContext i).nTimer - 1 } := by
  rw [tickHandler_run b m h1]
  have hc : 0 ≤ (i : Int) ∧ (i : Int) < (m.gnTaskCount.toNat : Int) ∧
      (m.gstrcTaskContext i).nTimer > 0 := ⟨by omega, by omega, hpos⟩
  simp only [timerLoop_apply, hc, and_self, if_true]

/-- The tick handler on a context whose timer is not positive. -/
theorem tickHandler_ctx_nonpos {W : Type} (b : Board W) (m : Kernel W) (h1 : m.gnRunTask ≠ 1)
    (j : Int) (hle : (m.gstrcTaskContext j).nTimer ≤ 0) :
    (tickHandler b m).gstrcTaskContext j = m.gstrcTaskContext j := by
  rw [tickHandler_run b m h1]
  have hc : ¬ (0 ≤ j ∧ j < (m.gnTaskCount.toNat : Int) ∧ (m.gstrcTaskContext j).nTimer > 0) := by
    rintro ⟨-, -, hpos⟩
    omega
  simp only [timerLoop_apply, hc, if_false]

/-- A task whose timer is `t` is not called while fewer than `t` ticks have
been observed, and its timer has then gone down by the number of ticks. -/
theorem wait_ticks {W : Type} (code : TaskCode W) (b : Board W) (i : Nat) (flags : List Bool) :
    ∀ (m : Kernel W) (t : Int), m.inTrap = false → m.gnRunTask = 0 →
      (i : Int) < m.gnTaskCount → (m.gstrcTaskContext i).nTimer = t →
      (flags.count true : Int) < t →
      (runPasses code b flags m).1.inTrap = false ∧
      (runPasses code b flags m).1.gnRunTask = 0 ∧
      (runPasses code b flags m).1.gnTaskCount = m.gnTaskCount ∧
      (runPasses code b flags m).1.gfptrTask = m.gfptrTask ∧
      (runPasses code b flags m).1.gstrcTaskContext i =
        { m.gstrcTaskContext i with nTimer := t - (flags.count true : Int) } ∧
      (∀ l ∈ (runPasses code b flags m).2, ∀ inv ∈ l, inv.ni ≠ (i : Int)) := by
  induction flags with
  | nil =>
    intro m t hrun hg _ ht _
    refine ⟨hrun, hg, rfl, rfl, ?_, ?_⟩
    · simp [runPasses, ← ht]
    · simp [runPasses]
  | cons f fs ih =>
    intro m t hrun hg hreg ht hcount
    cases f with
    | false =>
      have hp := mainLoopPass_idle code b m hrun hg
      have hc : (List.count true (false :: fs) : Int) = (List.count true fs : Int) := by simp
      rw [hc] at hcount ⊢
      have := ih { m with world := b.ClearWatchDog m.world } t hrun hg hreg ht hcount
      simp only [runPasses, hp, List.mem_cons, forall_eq_or_imp]
      refine ⟨this.1, this.2.1, this.2.2.1, this.2.2.2.1, this.2.2.2.2.1, ?_, this.2.2.2.2.2⟩
      simp
    | true =>
      have hc : (List.count true (true :: fs) : Int) = (List.count true fs : Int) + 1 := by simp
      rw [hc] at hcount ⊢
      have h1 : m.gnRunTask ≠ 1 := by omega
      have hpos : 0 < (m.gstrcTaskContext i).nTimer := by omega
      have hctx := tickHandler_ctx_pos b m h1 i hreg hpos
      have hne : ((tickHandler b m).gstrcTaskContext i).nTimer ≠ 0 := by
        rw [hctx]
        simp only []
        omega
      obtain ⟨g1, g2, g3, g4⟩ := mainLoopPass_tick_globals code b m hrun h1
      have hafter : (mainLoopPass code b true m).1.gstrcTaskContext i =
          { m.gstrcTaskContext i with nTimer := t - 1 } := by
        rcases mainLoopPass_tick_ctx code b m hrun h1 i with h | ⟨h0, -⟩
        · rw [h, hctx, ht]
        · exact absurd h0 hne
      have hlog : ∀ inv ∈ (mainLoopPass code b true m).2, inv.ni ≠ (i : Int) := by
        intro inv hinv hEq
        rw [mainLoopPass_tick_log code b m hrun h1] at hinv
        obtain ⟨j, -, hj, h0⟩ := callOf_mem _ _ inv hinv
        rw [hEq] at hj
        have : i = j := by exact_mod_cast hj
        subst this
        exact hne h0
      have hreg2 : (i : Int) < (mainLoopPass code b true m).1.gnTaskCount := by
        rw [g3]
        exact hreg
      have ht2 : ((mainLoopPass code b true m).1.gstrcTaskContext i).nTimer = t - 1 := by
        rw [hafter]
      have := ih (mainLoopPass code b true m).1 (t - 1) g1 g2 hreg2 ht2 (by omega)
      simp only [runPasses, List.mem_cons, forall_eq_or_imp]
      refine ⟨this.1, this.2.1, by rw [this.2.2.1, g3], by rw [this.2.2.2.1, g4], ?_, hlog,
        this.2.2.2.2.2⟩
      rw [this.2.2.2.2.1, hafter]
      simp only [TASK_ATTRIBUTE.mk.injEq, true_and]
      omega

/-- C7. Let a task have yielded with `OSSetTaskContext(ctx, s, k)`, `k >= 1`,
during the scan of a tick, so that at the end of that pass its context holds
state `s` and timer `k`, the guard is clear and control is not in the trap.
Then over any passes that observe `k - 1` ticks the task is not called, and in
the pass of the next tick, the `k`-th, it is called exactly once, with its own
routine, in state `s` (and with timer 0). -/
theorem C7_yield_resumes_after_k_ticks {W : Type} (code : TaskCode W) (b : Board W)
    (m : Kernel W) (i : Nat) (s k : Int)
    (hrun : m.inTrap = false) (hg : m.gnRunTask = 0) (hreg : (i : Int) < m.gnTaskCount)
    (hs : (m.gstrcTaskContext i).nState = s) (ht : (m.gstrcTaskContext i).nTimer = k)
    (hk : 1 ≤ k) (flags : List Bool) (hcount : (flags.count true : Int) = k - 1) :
    (∀ l ∈ (runPasses code b flags m).2, ∀ inv ∈ l, inv.ni ≠ (i : Int)) ∧
    (mainLoopPass code b true (runPasses code b flags m).1).2.filter
        (fun inv => inv.ni = (i : Int)) =
      [⟨i, m.gfptrTask i, ⟨(m.gstrcTaskContext i).nID, s, 0⟩⟩] := by
  have hk0 : 0 < k := by omega
  obtain ⟨g1, g2, g3, g4, g5, g6⟩ :=
    wait_ticks code b i flags m k hrun hg hreg ht (by omega)
  refine ⟨g6, ?_⟩
  have h1 : (runPasses code b flags m).1.gnRunTask ≠ 1 := by omega
  have hreg2 : (i : Int) < (runPasses code b flags m).1.gnTaskCount := by
    rw [g3]
    exact hreg
  have hpos : 0 < ((runPasses code b flags m).1.gstrcTaskContext i).nTimer := by
    rw [g5]
    simp only []
    omega
  have hctx := tickHandler_ctx_pos b _ h1 i hreg2 hpos
  rw [mainLoopPass_tick_log code b _ g1 h1, calls_for_index]
  have hlt : i < (runPasses code b flags m).1.gnTaskCount.toNat := by omega
  have hf : (tickHandler b (runPasses code b flags m).1).gfptrTask = m.gfptrTask := by
    rw [tickHandler_run b _ h1]
    exact g4
  simp only [hlt, if_true, callOf, hctx, g5, hf]
  have hz : k - (List.count true flags : Int) - 1 = 0 := by omega
  simp [hz, hs]

/-- C7 on the task at index 2, which holds state 0 and timer 2, over passes with one tick. -/
theorem C7_witness :
    (sampleKernel 4 0).inTrap = false ∧ (sampleKernel 4 0).gnRunTask = 0 ∧
    ((2 : Nat) : Int) < (sampleKernel 4 0).gnTaskCount ∧
    ((sampleKernel 4 0).gstrcTaskContext (2 : Nat)).nState = 0 ∧
    ((sampleKernel 4 0).gstrcTaskContext (2 : Nat)).nTimer = 2 ∧
    (1 : Int) ≤ 2 ∧ (([false, true, false].count true : Nat) : Int) = 2 - 1 ∧
    ((∀ l ∈ (runPasses stepCode plainBoard [false, true, false] (sampleKernel 4 0)).2,
        ∀ inv ∈ l, inv.ni ≠ ((2 : Nat) : Int)) ∧
     (mainLoopPass stepCode plainBoard true
        (runPasses stepCode plainBoard [false, true, false] (sampleKernel 4 0)).1).2.filter
          (fun inv => inv.ni = ((2 : Nat) : Int)) =
        [⟨(2 : Nat), (sampleKernel 4 0).gfptrTask (2 : Nat),
          ⟨((sampleKernel 4 0).gstrcTaskContext (2 : Nat)).nID, 0, 0⟩⟩]) :=
  ⟨rfl, rfl, by decide, rfl, rfl, by decide, by decide,
    C7_yield_resumes_after_k_ticks stepCode plainBoard (sampleKernel 4 0) 2 0 2 rfl rfl
      (by decide) rfl rfl (by decide) [false, true, false] (by decide)⟩

/-! ### Registration and the steady state with timers 0 and 1 -/

/-- What the registrations of `main` leave in the tables, as long as the guard
of `OSCreateTask` lets every one of them through. -/
theorem registerAll_spec {W : Type} (fs : List TASK_POINTER) :
    ∀ m : Kernel W, m.gnTaskCount + (fs.length : Int) ≤ __MAXTASK + 1 →
      (registerAll fs m).gnTaskCount = m.gnTaskCount + (fs.length : Int) ∧
      (registerAll fs m).inTrap = m.inTrap ∧
      (registerAll fs m).gnRunTask = m.gnRunTask ∧
      (∀ j : Int, j < m.gnTaskCount →
        (registerAll fs m).gfptrTask j = m.gfptrTask j ∧
        (registerAll fs m).gstrcTaskContext j = m.gstrcTaskContext j) ∧
      (∀ k : Nat, k < fs.length →
        (registerAll fs m).gfptrTask (m.gnTaskCount + (k : Int)) = fs.getD k 0 ∧
        (registerAll fs m).gstrcTaskContext (m.gnTaskCount + (k : Int)) =
          ⟨m.gnTaskCount + (k : Int) + 1, 0, 1⟩) := by
  induction fs with
  | nil =>
    intro m _
    simp [registerAll]
  | cons f fs ih =>
    intro m hcap
    have hlen : ((f :: fs).length : Int) = (fs.length : Int) + 1 := by simp
    rw [hlen] at hcap
    have hle : m.gnTaskCount ≤ __MAXTASK := by omega
    have hstep := OSCreateTask_ok m m.gnTaskCount f hle
    simp only [registerAll, hstep]
    obtain ⟨i1, i2, i3, i4, i5⟩ := ih
      { m with gnTaskCount := m.gnTaskCount + 1,
               gfptrTask := setAt m.gfptrTask m.gnTaskCount f,
               gstrcTaskContext := setAt m.gstrcTaskContext m.gnTaskCount
                 ⟨m.gnTaskCount + 1, 0, 1⟩ } (by simp only []; omega)
    simp only [] at i1 i2 i3 i4 i5
    refine ⟨by rw [i1, hlen]; omega, i2, i3, ?_, ?_⟩
    · intro j hj
      have hne : j ≠ m.gnTaskCount := by omega
      obtain ⟨a, c⟩ := i4 j (by omega)
      rw [a, c]
      simp [setAt, hne]
    · intro k hk
      cases k with
      | zero =>
        obtain ⟨a, c⟩ := i4 m.gnTaskCount (by omega)
        simp only [Nat.cast_zero, add_zero, List.getD_cons_zero]
        rw [a, c]
        simp [setAt]
      | succ k2 =>
        have hk2 : k2 < fs.length := by
          simp only [List.length_cons] at hk
          omega
        obtain ⟨a, c⟩ := i5 k2 hk2
        have hidx : m.gnTaskCount + ((k2 + 1 : Nat) : Int) = m.gnTaskCount + 1 + (k2 : Int) := by
          push_cast
          omega
        rw [hidx, a, c]
        simp

/-- With the guard clear and every registered timer at 0 or 1, every pass with
a tick calls every registered routine, in table order, and a pass without a
tick calls none, as long as no step function leaves a timer other than 0 or 1. -/
theorem all_called_each_tick {W : Type} (code : TaskCode W) (b : Board W)
    (fs : List TASK_POINTER)
    (hcode : ∀ f c w, c.nTimer = 0 → (code f c w).1.nTimer = 0 ∨ (code f c w).1.nTimer = 1)
    (flags : List Bool) :
    ∀ m : Kernel W, m.inTrap = false → m.gnRunTask = 0 → m.gnTaskCount = (fs.length : Int) →
      (∀ i : Nat, i < fs.length → m.gfptrTask i = fs.getD i 0) →
      (∀ i : Nat, i < fs.length →
        (m.gstrcTaskContext i).nTimer = 0 ∨ (m.gstrcTaskContext i).nTimer = 1) →
      (runPasses code b flags m).2.map (fun l => l.map (fun inv => (inv.ni, inv.fptr))) =
          flags.map (fun t => if t then allCalls fs else []) ∧
      (runPasses code b flags m).1.inTrap = false := by
  induction flags with
  | nil =>
    intro m hrun _ _ _ _
    simp [runPasses, hrun]
  | cons t ts ih =>
    intro m hrun hg hcount hfp htm
    cases t with
    | false =>
      have hp := mainLoopPass_idle code b m hrun hg
      have := ih { m with world := b.ClearWatchDog m.world } hrun hg hcount hfp htm
      simp only [runPasses, hp, List.map_cons, List.map_nil]
      exact ⟨by rw [this.1]; simp, this.2⟩
    | true =>
      have h1 : m.gnRunTask ≠ 1 := by omega
      obtain ⟨g1, g2, g3, g4⟩ := mainLoopPass_tick_globals code b m hrun h1
      have hzero : ∀ i : Nat, i < fs.length →
          ((tickHandler b m).gstrcTaskContext i).nTimer = 0 := by
        intro i hi
        rcases htm i hi with h | h
        · rw [tickHandler_ctx_nonpos b m h1 i (by omega)]
          exact h
        · rw [tickHandler_ctx_pos b m h1 i (by omega) (by omega)]
          simp only []
          omega
      have hfT : (tickHandler b m).gfptrTask = m.gfptrTask := by
        rw [tickHandler_run b m h1]
      have hlog : (mainLoopPass code b true m).2.map (fun inv => (inv.ni, inv.fptr)) =
          allCalls fs := by
        rw [mainLoopPass_tick_log code b m hrun h1, hcount]
        simp only [Int.toNat_ofNat, allCalls, List.map_filterMap]
        rw [← List.filterMap_eq_map]
        apply List.filterMap_congr
        intro i hi
        have hi2 : i < fs.length := List.mem_range.mp hi
        simp [callOf, hzero i hi2, hfT, hfp i hi2]
      have htm2 : ∀ i : Nat, i < fs.length →
          ((mainLoopPass code b true m).1.gstrcTaskContext i).nTimer = 0 ∨
          ((mainLoopPass code b true m).1.gstrcTaskContext i).nTimer = 1 := by
        intro i hi
        rcases mainLoopPass_tick_ctx code b m hrun h1 i with h | ⟨h0, w, hw⟩
        · left
          rw [h]
          exact hzero i hi
        · rw [hw]
          exact hcode _ _ w h0
      have := ih (mainLoopPass code b true m).1 g1 g2 (by rw [g3, hcount])
        (by intro i hi; rw [g4]; exact hfp i hi) htm2
      simp only [runPasses, List.map_cons, hlog, if_true]
      exact ⟨by rw [this.1], this.2⟩

/-- C8, as stated, fails. One task is registered and its step function always
yields timer `-1`, so no step function ever yields a timer greater than 1 and
control never enters the trap; over `N + 1 = 2` consecutive ticks the task is
called in the first tick and not in the second, where its timer is `-1`. -/
theorem C8_counterexample_negative_timer :
    (∀ f c w, (negativeYieldCode f c w).1.nTimer ≤ 1) ∧
    (runPasses negativeYieldCode plainBoard [true, true] (registerAll [7] emptyKernel)).2 =
      [[⟨0, 7, ⟨1, 0, 0⟩⟩], []] ∧
    (runPasses negativeYieldCode plainBoard [true, true] (registerAll [7] emptyKernel)).1.inTrap
      = false ∧
    ((runPasses negativeYieldCode plainBoard [true, true]
      (registerAll [7] emptyKernel)).1.gstrcTaskContext 0).nTimer = -1 := by
  refine ⟨?_, by decide, by decide, by decide⟩
  intro f c w
  simp [negativeYieldCode, OSSetTaskContext]

/-- C8, amended. Let the routines `fs` (at most `__MAXTASK - 1` of them) be
registered with `OSCreateTask` on an empty table, with the guard clear, and let
every step function leave its timer at 0 or 1 (never greater than 1 and never
negative). Then over every run of passes, in particular one that observes
`N + 1` ticks, control never enters the trap, every pass that observes a tick
calls every one of the `N` routines, once and in registration order, and a pass
without a tick calls none. -/
theorem C8_every_task_called_each_tick {W : Type} (code : TaskCode W) (b : Board W)
    (m0 : Kernel W) (fs : List TASK_POINTER) (flags : List Bool)
    (hcap : (fs.length : Int) ≤ __MAXTASK - 1)
    (hempty : m0.gnTaskCount = 0) (hrun : m0.inTrap = false) (hg : m0.gnRunTask = 0)
    (hcode : ∀ f c w, c.nTimer = 0 → (code f c w).1.nTimer = 0 ∨ (code f c w).1.nTimer = 1) :
    (runPasses code b flags (registerAll fs m0)).2.map
        (fun l => l.map (fun inv => (inv.ni, inv.fptr))) =
      flags.map (fun t => if t then allCalls fs else []) ∧
    (runPasses code b flags (registerAll fs m0)).1.inTrap = false := by
  have hM : __MAXTASK = 12 := rfl
  obtain ⟨r1, r2, r3, -, r5⟩ := registerAll_spec fs m0 (by rw [hempty]; omega)
  rw [hempty] at r1 r5
  simp only [zero_add] at r1 r5
  apply all_called_each_tick code b fs hcode flags (registerAll fs m0)
  · rw [r2, hrun]
  · rw [r3, hg]
  · exact r1
  · intro i hi
    exact (r5 i hi).1
  · intro i hi
    right
    rw [(r5 i hi).2]

/-- C8 amended, on three routines that yield their own state with timer 1, over four ticks. -/
theorem C8_witness :
    (([20, 21, 22].length : Nat) : Int) ≤ __MAXTASK - 1 ∧
    emptyKernel.gnTaskCount = 0 ∧ emptyKernel.inTrap = false ∧ emptyKernel.gnRunTask = 0 ∧
    (∀ f c w, c.nTimer = 0 →
      (selfLoopCode f c w).1.nTimer = 0 ∨ (selfLoopCode f c w).1.nTimer = 1) ∧
    ((runPasses selfLoopCode plainBoard [true, false, true, true, true]
        (registerAll [20, 21, 22] emptyKernel)).2.map
        (fun l => l.map (fun inv => (inv.ni, inv.fptr))) =
      [true, false, true, true, true].map (fun t => if t then allCalls [20, 21, 22] else []) ∧
     (runPasses selfLoopCode plainBoard [true, false, true, true, true]
        (registerAll [20, 21, 22] emptyKernel)).1.inTrap = false) :=
  ⟨by decide, rfl, rfl, rfl,
    fun _ _ _ _ => Or.inr rfl,
    C8_every_task_called_each_tick selfLoopCode plainBoard emptyKernel [20, 21, 22]
      [true, false, true, true, true] (by decide) rfl rfl rfl (fun _ _ _ _ => Or.inr rfl)⟩

/-! ### Timers stay non-negative -/

/-- The context of a cell after the scan: untouched, or what the step function
of the cell returned when called with timer 0. -/
theorem scanLoop_ctx_cases {W : Type} (code : TaskCode W) (m : Kernel W) (n : Nat) (j : Int) :
    (scanLoop code m n).1.gstrcTaskContext j = m.gstrcTaskContext j ∨
    ((m.gstrcTaskContext j).nTimer = 0 ∧
      ∃ w, (scanLoop code m n).1.gstrcTaskContext j =
        (code (m.gfptrTask j) (m.gstrcTaskContext j) w).1) := by
  by_cases h0 : (m.gstrcTaskContext j).nTimer = 0
  · by_cases hr : 0 ≤ j ∧ j < (n : Int)
    · right
      obtain ⟨jn, rfl⟩ := Int.eq_ofNat_of_zero_le hr.1
      have hlt : jn < n := by exact_mod_cast hr.2
      exact ⟨h0, scanLoop_ctx_called code m n jn hlt h0⟩
    · left
      apply scanLoop_ctx_unreached
      omega
  · left
    exact scanLoop_ctx_skipped code m n j h0

/-- The tick handler changes a timer by at most 1 and never below 0. -/
theorem tickHandler_timer_bounds {W : Type} (b : Board W) (m : Kernel W) (j : Int) :
    (0 ≤ (m.gstrcTaskContext j).nTimer → 0 ≤ ((tickHandler b m).gstrcTaskContext j).nTimer) ∧
    (m.gstrcTaskContext j).nTimer - 1 ≤ ((tickHandler b m).gstrcTaskContext j).nTimer ∧
    ((tickHandler b m).gstrcTaskContext j).nTimer ≤ (m.gstrcTaskContext j).nTimer := by
  by_cases h1 : m.gnRunTask = 1
  · rw [tickHandler_trap b m h1]
    simp
  · rw [tickHandler_run b m h1]
    simp only [timerLoop_apply]
    split
    · rename_i hc
      simp only []
      omega
    · omega

/-- C9. If every registered task has `nTimer >= 0` before a pass of the main
loop and every step function leaves a timer `>= 0`, then every registered task
has `nTimer >= 0` after the pass, whatever the tick flag reads; and the tick
handler alone never takes a timer from `>= 0` to below 0 and changes each timer
by at most 1 (it leaves it or lowers it by 1). -/
theorem C9_timers_stay_nonnegative {W : Type} (code : TaskCode W) (b : Board W)
    (m : Kernel W) (tick : Bool)
    (hcode : ∀ f c w, c.nTimer = 0 → 0 ≤ (code f c w).1.nTimer)
    (hm : ∀ i : Int, 0 ≤ i → i < m.gnTaskCount → 0 ≤ (m.gstrcTaskContext i).nTimer) :
    (∀ i : Int, 0 ≤ i → i < (mainLoopPass code b tick m).1.gnTaskCount →
      0 ≤ ((mainLoopPass code b tick m).1.gstrcTaskContext i).nTimer) ∧
    (∀ j : Int,
      (0 ≤ (m.gstrcTaskContext j).nTimer → 0 ≤ ((tickHandler b m).gstrcTaskContext j).nTimer) ∧
      (m.gstrcTaskContext j).nTimer - 1 ≤ ((tickHandler b m).gstrcTaskContext j).nTimer ∧
      ((tickHandler b m).gstrcTaskContext j).nTimer ≤ (m.gstrcTaskContext j).nTimer) := by
  refine ⟨?_, fun j => tickHandler_timer_bounds b m j⟩
  have hscan : ∀ (m1 : Kernel W),
      (∀ i : Int, 0 ≤ i → i < m1.gnTaskCount → 0 ≤ (m1.gstrcTaskContext i).nTimer) →
      ∀ i : Int, 0 ≤ i → i < (runTasks code b m1).1.gnTaskCount →
        0 ≤ ((runTasks code b m1).1.gstrcTaskContext i).nTimer := by
    intro m1 h i h0 hlt
    unfold runTasks at hlt ⊢
    simp only [] at hlt ⊢
    split at hlt
    · rw [if_pos (by assumption)]
      have hf := scanLoop_frame code { m1 with world := b.ClearWatchDog m1.world }
        m1.gnTaskCount.toNat
      simp only [] at hlt hf ⊢
      rw [hf.2.2.1] at hlt
      rcases scanLoop_ctx_cases code { m1 with world := b.ClearWatchDog m1.world }
        m1.gnTaskCount.toNat i with hc | ⟨hz, w, hw⟩
      · rw [hc]
        exact h i h0 hlt
      · rw [hw]
        exact hcode _ _ w hz
    · rw [if_neg (by assumption)]
      exact h i h0 hlt
  by_cases hrun : m.inTrap = true
  · intro i h0 hlt
    simp only [mainLoopPass, hrun, if_true] at hlt ⊢
    exact hm i h0 hlt
  · have hrun2 : m.inTrap = false := by simpa using hrun
    cases tick with
    | false =>
      have hp : mainLoopPass code b false m = runTasks code b m := by
        simp [mainLoopPass, hrun2]
      rw [hp]
      exact hscan m hm
    | true =>
      by_cases h1 : m.gnRunTask = 1
      · intro i h0 hlt
        have hp : mainLoopPass code b true m = (tickHandler b m, []) := by
          simp [mainLoopPass, hrun2, tickHandler_trap b m h1]
        rw [hp] at hlt ⊢
        rw [tickHandler_trap b m h1] at hlt ⊢
        exact hm i h0 hlt
      · have hp : mainLoopPass code b true m = runTasks code b (tickHandler b m) := by
          have hT : (tickHandler b m).inTrap = false := by
            rw [tickHandler_run b m h1]
            exact hrun2
          simp [mainLoopPass, hrun2, hT]
        rw [hp]
        apply hscan
        intro i h0 hlt
        have hcnt : (tickHandler b m).gnTaskCount = m.gnTaskCount := by
          rw [tickHandler_run b m h1]
        rw [hcnt] at hlt
        exact (tickHandler_timer_bounds b m i).1 (hm i h0 hlt)

/-- C9 on a kernel with four tasks and routines that yield timer 2. -/
theorem C9_witness :
    (∀ f c w, c.nTimer = 0 → 0 ≤ (stepCode f c w).1.nTimer) ∧
    (∀ i : Int, 0 ≤ i → i < (sampleKernel 4 0).gnTaskCount →
      0 ≤ ((sampleKernel 4 0).gstrcTaskContext i).nTimer) ∧
    ((∀ i : Int, 0 ≤ i →
      i < (mainLoopPass stepCode plainBoard true (sampleKernel 4 0)).1.gnTaskCount →
      0 ≤ ((mainLoopPass stepCode plainBoard true
        (sampleKernel 4 0)).1.gstrcTaskContext i).nTimer) ∧
     (∀ j : Int,
      (0 ≤ ((sampleKernel 4 0).gstrcTaskContext j).nTimer →
        0 ≤ ((tickHandler plainBoard (sampleKernel 4 0)).gstrcTaskContext j).nTimer) ∧
      ((sampleKernel 4 0).gstrcTaskContext j).nTimer - 1 ≤
        ((tickHandler plainBoard (sampleKernel 4 0)).gstrcTaskContext j).nTimer ∧
      ((tickHandler plainBoard (sampleKernel 4 0)).gstrcTaskContext j).nTimer ≤
        ((sampleKernel 4 0).gstrcTaskContext j).nTimer)) :=
  have hc : ∀ (f : TASK_POINTER) (c : TASK_ATTRIBUTE) (w : Unit),
      c.nTimer = 0 → 0 ≤ (stepCode f c w).1.nTimer :=
    fun _ _ _ _ => by simp [stepCode, OSSetTaskContext]
  have hs : ∀ i : Int, 0 ≤ i → i < (sampleKernel 4 0).gnTaskCount →
      0 ≤ ((sampleKernel 4 0).gstrcTaskContext i).nTimer :=
    fun i _ _ => Int.emod_nonneg i (by decide)
  ⟨hc, hs, C9_timers_stay_nonnegative stepCode plainBoard (sampleKernel 4 0) true hc hs⟩

/-! ### The UART driver task -/

/-- C10. `Proce_UART_Driver`, called with `nTimer = 0` in state 1 while a DMA
transmission is pending (`bTXRDY = 1`, `bTXDMAEN = 1`) and the status register
reads `ENDTX` set, returns without any call of `OSSetTaskContext`, whatever the
loop bound: the `break` of the DMA branch leaves the `switch`, and the context
keeps state 1 and timer 0. With the status register reading 0 instead, the same
call makes one call of `OSSetTaskContext` and yields state 1 with timer 1. -/
theorem C10_uart_dma_completion_makes_no_call :
    (∀ fuel : Nat,
      (Proce_UART_Driver sam4sUart fuel ⟨3, 1, 0⟩ (uartDmaWorld sam4sUart.UART_SR_ENDTX)).map
        (fun r => (r.calls, r.ctx)) = some (0, ⟨3, 1, 0⟩)) ∧
    (∀ fuel : Nat,
      (Proce_UART_Driver sam4sUart (fuel + 1) ⟨3, 1, 0⟩ (uartDmaWorld 0)).map
        (fun r => (r.calls, r.ctx)) = some (1, ⟨3, 1, 1⟩)) := by
  constructor
  · intro fuel
    rfl
  · intro fuel
    rfl

/-! ### Task deletion -/

/-- What the shift loop of `OSTaskDelete` leaves: the cells from `start` on, as
far as the loop got, hold what their upper neighbour held. -/
theorem deleteShift_apply {W : Type} (m : Kernel W) (start : Int) (k : Nat) :
    (∀ j : Int, (deleteShift m start k).gstrcTaskContext j =
      if start ≤ j ∧ j < start + (k : Int) then m.gstrcTaskContext (j + 1)
      else m.gstrcTaskContext j) ∧
    (∀ j : Int, (deleteShift m start k).gfptrTask j =
      if start ≤ j ∧ j < start + (k : Int) then m.gfptrTask (j + 1) else m.gfptrTask j) ∧
    (deleteShift m start k).gnTaskCount = m.gnTaskCount ∧
    (deleteShift m start k).gnRunTask = m.gnRunTask ∧
    (deleteShift m start k).gunClockTick = m.gunClockTick := by
  induction k with
  | zero =>
    refine ⟨?_, ?_, rfl, rfl, rfl⟩
    · intro j
      have h : ¬ (start ≤ j ∧ j < start + ((0 : Nat) : Int)) := by
        rintro ⟨h1, h2⟩
        simp at h2
        omega
      rw [if_neg h]
      rfl
    · intro j
      have h : ¬ (start ≤ j ∧ j < start + ((0 : Nat) : Int)) := by
        rintro ⟨h1, h2⟩
        simp at h2
        omega
      rw [if_neg h]
      rfl
  | succ k ih =>
    obtain ⟨ihc, ihf, ihn, ihr, iht⟩ := ih
    have hnext : ¬ (start ≤ start + (k : Int) + 1 ∧ start + (k : Int) + 1 < start + (k : Int)) := by
      omega
    have hc1 : (deleteShift m start k).gstrcTaskContext (start + (k : Int) + 1) =
        m.gstrcTaskContext (start + (k : Int) + 1) := by
      rw [ihc, if_neg hnext]
    have hf1 : (deleteShift m start k).gfptrTask (start + (k : Int) + 1) =
        m.gfptrTask (start + (k : Int) + 1) := by
      rw [ihf, if_neg hnext]
    refine ⟨?_, ?_, ?_, ?_, ?_⟩
    · intro j
      simp only [deleteShift, Kernel.atPtr, setAt, if_true, hc1]
      by_cases hj : j = start + (k : Int)
      · subst hj
        have h : start ≤ start + (k : Int) ∧ start + (k : Int) < start + ((k + 1 : Nat) : Int) := by
          push_cast
          omega
        simp [h]
      · simp only [hj, if_false]
        rw [ihc]
        have : (start ≤ j ∧ j < start + ((k + 1 : Nat) : Int)) ↔
            (start ≤ j ∧ j < start + (k : Int)) := by
          push_cast
          omega
        simp only [this]
    · intro j
      simp only [deleteShift, Kernel.atPtr, setAt, hf1]
      by_cases hj : j = start + (k : Int)
      · subst hj
        have h : start ≤ start + (k : Int) ∧ start + (k : Int) < start + ((k + 1 : Nat) : Int) := by
          push_cast
          omega
        simp [h]
      · simp only [hj, if_false]
        rw [ihf]
        have : (start ≤ j ∧ j < start + ((k + 1 : Nat) : Int)) ↔
            (start ≤ j ∧ j < start + (k : Int)) := by
          push_cast
          omega
        simp only [this]
    · simp only [deleteShift, Kernel.atPtr]
      exact ihn
    · simp only [deleteShift, Kernel.atPtr]
      exact ihr
    · simp only [deleteShift, Kernel.atPtr]
      exact iht

/-- C12, as stated, fails. On a table of `n = 4` tasks, `OSTaskDelete(4)`, with
the id `OSCreateTask` gave the last task, returns 1 and deletes nothing; and
`OSTaskDelete(3)` returns 0 but leaves `gnTaskCount` at 4 and every entry in
place. -/
theorem C12_counterexample_last_ids :
    (OSTaskDelete (sampleKernel 4 0) 4).1 = 1 ∧
    (OSTaskDelete (sampleKernel 4 0) 4).2.gnTaskCount = 4 ∧
    (OSTaskDelete (sampleKernel 4 0) 3).1 = 0 ∧
    (OSTaskDelete (sampleKernel 4 0) 3).2.gnTaskCount = 4 ∧
    (OSTaskDelete (sampleKernel 4 0) 3).2.gstrcTaskContext 2 =
      (sampleKernel 4 0).gstrcTaskContext 2 := by
  decide

/-- C12, amended. For a table with `n = gnTaskCount` entries and an id with
`1 <= id <= n - 2`, `OSTaskDelete(id)` returns 0, lowers `gnTaskCount` to
`n - 1`, and leaves in the positions `0 .. n - 2` of `gstrcTaskContext` and of
`gfptrTask` the old entries without the one at position `id - 1`, in their
order: the positions below `id - 1` keep their entry and every position from
`id - 1` on holds the entry of its upper neighbour. `OSTaskDelete(n)` returns 1
and changes nothing. -/
theorem C12_delete_compacts_table {W : Type} (m : Kernel W) (id : Int)
    (h1 : 1 ≤ id) (h2 : id ≤ m.gnTaskCount - 2) :
    (OSTaskDelete m id).1 = 0 ∧
    (OSTaskDelete m id).2.gnTaskCount = m.gnTaskCount - 1 ∧
    (∀ j : Int, 0 ≤ j → j < id - 1 →
      (OSTaskDelete m id).2.gstrcTaskContext j = m.gstrcTaskContext j ∧
      (OSTaskDelete m id).2.gfptrTask j = m.gfptrTask j) ∧
    (∀ j : Int, id - 1 ≤ j → j ≤ m.gnTaskCount - 2 →
      (OSTaskDelete m id).2.gstrcTaskContext j = m.gstrcTaskContext (j + 1) ∧
      (OSTaskDelete m id).2.gfptrTask j = m.gfptrTask (j + 1)) ∧
    OSTaskDelete m m.gnTaskCount = (1, m) := by
  have hpos : 0 < id := by omega
  have ha : id < m.gnTaskCount := by omega
  have hb : id < m.gnTaskCount - 1 := by omega
  obtain ⟨hc, hf, hn, -, -⟩ :=
    deleteShift_apply m (id - 1) ((m.gnTaskCount - 1) - (id - 1)).toNat
  have hdel : OSTaskDelete m id =
      (0, { deleteShift m (id - 1) ((m.gnTaskCount - 1) - (id - 1)).toNat with
              gnTaskCount := m.gnTaskCount - 1 }) := by
    simp only [OSTaskDelete, ha, hb, if_true, hn]
  have hlast : OSTaskDelete m m.gnTaskCount = (1, m) := by
    simp [OSTaskDelete]
  rw [hdel]
  refine ⟨rfl, rfl, ?_, ?_, hlast⟩
  · intro j _ hj
    have h : ¬ (id - 1 ≤ j ∧ j < id - 1 + (((m.gnTaskCount - 1) - (id - 1)).toNat : Int)) := by
      omega
    simp only []
    rw [hc, hf, if_neg h, if_neg h]
    exact ⟨rfl, rfl⟩
  · intro j hj1 hj2
    have h : id - 1 ≤ j ∧ j < id - 1 + (((m.gnTaskCount - 1) - (id - 1)).toNat : Int) := by
      omega
    simp only []
    rw [hc, hf, if_pos h, if_pos h]
    exact ⟨rfl, rfl⟩

/-- C12 amended, on a table of five tasks, deleting the task with id 2. -/
theorem C12_witness :
    (1 : Int) ≤ 2 ∧ (2 : Int) ≤ (sampleKernel 5 0).gnTaskCount - 2 ∧
    ((OSTaskDelete (sampleKernel 5 0) 2).1 = 0 ∧
     (OSTaskDelete (sampleKernel 5 0) 2).2.gnTaskCount = (sampleKernel 5 0).gnTaskCount - 1 ∧
     (∀ j : Int, 0 ≤ j → j < 2 - 1 →
       (OSTaskDelete (sampleKernel 5 0) 2).2.gstrcTaskContext j =
         (sampleKernel 5 0).gstrcTaskContext j ∧
       (OSTaskDelete (sampleKernel 5 0) 2).2.gfptrTask j = (sampleKernel 5 0).gfptrTask j) ∧
     (∀ j : Int, 2 - 1 ≤ j → j ≤ (sampleKernel 5 0).gnTaskCount - 2 →
       (OSTaskDelete (sampleKernel 5 0) 2).2.gstrcTaskContext j =
         (sampleKernel 5 0).gstrcTaskContext (j + 1) ∧
       (OSTaskDelete (sampleKernel 5 0) 2).2.gfptrTask j =
         (sampleKernel 5 0).gfptrTask (j + 1)) ∧
     OSTaskDelete (sampleKernel 5 0) (sampleKernel 5 0).gnTaskCount = (1, sampleKernel 5 0)) :=
  ⟨by decide, by decide, C12_delete_compacts_table (sampleKernel 5 0) 2 (by decide) (by decide)⟩

/-- C13. On a table of `n = 3` tasks, `OSTaskDelete(0)`, whose id is not in
`1 .. n`, does not fail: it returns 0, lowers `gnTaskCount` to 2, shifts the
table down from index `-1` (so the entry of the task with id 1 is lost and
cell `-1`, outside the array, is written). An id above `n` is refused with 1
and no change. -/
theorem C13_delete_id_zero_succeeds :
    (OSTaskDelete (sampleKernel 3 0) 0).1 = 0 ∧
    (OSTaskDelete (sampleKernel 3 0) 0).2.gnTaskCount = 2 ∧
    (OSTaskDelete (sampleKernel 3 0) 0).2.gstrcTaskContext 0 =
      (sampleKernel 3 0).gstrcTaskContext 1 ∧
    (OSTaskDelete (sampleKernel 3 0) 0).2.gstrcTaskContext 1 =
      (sampleKernel 3 0).gstrcTaskContext 2 ∧
    (OSTaskDelete (sampleKernel 3 0) 0).2.gfptrTask 0 = (sampleKernel 3 0).gfptrTask 1 ∧
    (OSTaskDelete (sampleKernel 3 0) 0).2.gstrcTaskContext (-1) =
      (sampleKernel 3 0).gstrcTaskContext 0 ∧
    (sampleKernel 3 0).gstrcTaskContext (-1) ≠ (sampleKernel 3 0).gstrcTaskContext 0 ∧
    (OSTaskDelete (sampleKernel 3 0) 7).1 = 1 ∧
    (OSTaskDelete (sampleKernel 3 0) 7).2.gnTaskCount = 3 := by
  decide

/-! ### Start-up -/

/-- C14, as stated, fails. `OSInit` on a kernel whose task count is 4 leaves the
task count at 4. -/
theorem C14_counterexample_task_count_kept :
    (OSInit (sampleKernel 4 0)).gnTaskCount = 4 ∧ (OSInit (sampleKernel 4 0)).gunClockTick = 0 := by
  decide

/-- C14, amended. For every prior state, after `OSInit()` the tick counter
`gunClockTick` is 0 and `gnTaskCount` is what it was; the task count is 0 after
the statement `gnTaskCount = 0` that follows the call in `main`. -/
theorem C14_init_zeroes_tick_counter {W : Type} (m : Kernel W) :
    (OSInit m).gunClockTick = 0 ∧
    (OSInit m).gnTaskCount = m.gnTaskCount ∧
    (startKernel m).gunClockTick = 0 ∧
    (startKernel m).gnTaskCount = 0 := by
  exact ⟨rfl, rfl, rfl, rfl⟩

/-! ### Hue -/

theorem Max_bounds (a b c : Int) :
    a ≤ Max a (Max b c) ∧ b ≤ Max a (Max b c) ∧ c ≤ Max a (Max b c) ∧
    (Max a (Max b c) = a ∨ Max a (Max b c) = b ∨ Max a (Max b c) = c) := by
  unfold Max
  split_ifs <;> omega

theorem Min_bounds (a b c : Int) :
    Min a (Min b c) ≤ a ∧ Min a (Min b c) ≤ b ∧ Min a (Min b c) ≤ c ∧
    (Min a (Min b c) = a ∨ Min a (Min b c) = b ∨ Min a (Min b c) = c) := by
  unfold Min
  split_ifs <;> omega

/-- The truncated quotient of `60 * a` by `d` lies between `-60` and `60` when
`a` lies between `-d` and `d`. -/
theorem tdiv_sixty_bounds (a d : Int) (hd : 0 < d) (h1 : -d ≤ a) (h2 : a ≤ d) :
    -60 ≤ Int.tdiv (60 * a) d ∧ Int.tdiv (60 * a) d ≤ 60 := by
  have key : ∀ x : Int, 0 ≤ x → x ≤ d → 0 ≤ Int.tdiv (60 * x) d ∧ Int.tdiv (60 * x) d ≤ 60 := by
    intro x hx0 hxd
    rw [Int.tdiv_eq_ediv (by omega) (by omega)]
    constructor
    · exact Int.ediv_nonneg (by omega) (by omega)
    · apply Int.ediv_le_of_le_mul hd
      omega
  by_cases ha : 0 ≤ a
  · have := key a ha h2
    omega
  · have hk := key (-a) (by omega) (by omega)
    have hneg : Int.tdiv (60 * a) d = -Int.tdiv (60 * -a) d := by
      rw [← Int.neg_tdiv]
      congr 1
      ring
    omega

/-- The hue is a value in `0 .. 359` or one of the two codes 400 and 420. -/
theorem hueOf_range (nR5 nG6 nB5 : Nat) (nHue : Int) :
    (0 ≤ hueOf nR5 nG6 nB5 nHue ∧ hueOf nR5 nG6 nB5 nHue ≤ 359) ∨
      hueOf nR5 nG6 nB5 nHue = _NO_HUE_DARK ∨ hueOf nR5 nG6 nB5 nHue = _NO_HUE_BRIGHT := by
  unfold hueOf
  simp only [Nat.shiftLeft_eq, pow_one, Nat.cast_mul, Nat.cast_ofNat]
  obtain ⟨m1, m2, m3, m4⟩ := Max_bounds ((nR5 : Int) * 2) (nG6 : Int) ((nB5 : Int) * 2)
  obtain ⟨n1, n2, n3, n4⟩ := Min_bounds ((nR5 : Int) * 2) (nG6 : Int) ((nB5 : Int) * 2)
  generalize Max ((nR5 : Int) * 2) (Max (nG6 : Int) ((nB5 : Int) * 2)) = mx at *
  generalize Min ((nR5 : Int) * 2) (Min (nG6 : Int) ((nB5 : Int) * 2)) = mn at *
  by_cases hd : mx - mn < 5
  · simp only [hd, if_true]
    split_ifs
    · right; left; rfl
    · right; right; rfl
  · simp only [hd, if_false]
    have hpos : 0 < mx - mn := by omega
    have b1 := tdiv_sixty_bounds ((nG6 : Int) - (nB5 : Int) * 2) (mx - mn) hpos
      (by omega) (by omega)
    have b2 := tdiv_sixty_bounds ((nB5 : Int) * 2 - (nR5 : Int) * 2) (mx - mn) hpos
      (by omega) (by omega)
    have b3 := tdiv_sixty_bounds ((nR5 : Int) * 2 - (nG6 : Int)) (mx - mn) hpos
      (by omega) (by omega)
    left
    split_ifs <;> omega

/-- C15. For every pixel, in particular for `nR5` in `0 .. 31`, `nG6` in
`0 .. 63` and `nB5` in `0 .. 31` (with R and B doubled to 6 bits), the hue the
line-processing step computes is a value in `0 .. 359` or one of the two codes
400 (`_NO_HUE_DARK`) and 420 (`_NO_HUE_BRIGHT`), whatever the local variable
held before; it is never negative. -/
theorem C15_hue_range (nR5 nG6 nB5 : Nat) (nHue : Int) :
    ((0 ≤ hueOf nR5 nG6 nB5 nHue ∧ hueOf nR5 nG6 nB5 nHue ≤ 359) ∨
      hueOf nR5 nG6 nB5 nHue = 400 ∨ hueOf nR5 nG6 nB5 nHue = 420) ∧
    _NO_HUE_DARK = 400 ∧ _NO_HUE_BRIGHT = 420 ∧
    0 ≤ hueOf nR5 nG6 nB5 nHue := by
  have hrange := hueOf_range nR5 nG6 nB5 nHue
  refine ⟨hrange, rfl, rfl, ?_⟩
  rcases hrange with h | h | h
  · exact h.1
  · rw [h]; decide
  · rw [h]; decide

/-! ### The Pixel Attribute Word -/

/-- C16. With luminance 0, hue 0, saturation 32 and gradient 0, all within
their bit widths, the word the driver stores is `32 << 17`, and unpacking the
saturation with the constants of the header, `(w & _SAT_MASK) >> _SAT_SHIFT`,
gives 0 and not 32: `_SAT_MASK` is `0x003E0000`, which covers the bits 21 to 17
and not bit 22. The other three fields of a word with four non-zero fields are
recovered. -/
theorem C16_saturation_mask_drops_bit_22 :
    writeBackGradient (pixelWord 0 32 0) 0 = 32 <<< _SAT_SHIFT ∧
    unpackField _SAT_MASK _SAT_SHIFT (writeBackGradient (pixelWord 0 32 0) 0) = 0 ∧
    _SAT_MASK &&& 2 ^ 22 = 0 ∧
    _SAT_MASK = (2 ^ 5 - 1) <<< _SAT_SHIFT ∧
    unpackField _LUMINANCE_MASK _LUMINANCE_SHIFT (writeBackGradient (pixelWord 100 63 420) 127)
      = 100 ∧
    unpackField _HUE_MASK _HUE_SHIFT (writeBackGradient (pixelWord 100 63 420) 127) = 420 ∧
    unpackField _GRAD_MASK _GRAD_SHIFT (writeBackGradient (pixelWord 100 63 420) 127) = 127 ∧
    unpackField _SAT_MASK _SAT_SHIFT (writeBackGradient (pixelWord 100 63 420) 127) = 31 := by
  decide

/-! ### Gradient -/

theorem clampGradient_cases (gx gy : Int) :
    clampGradient gx gy ≤ 127 ∧ 0 ≤ clampGradient gx gy ∧
    (gx + gy < 20 → clampGradient gx gy = 0) ∧
    (127 < gx + gy → clampGradient gx gy = 127) ∧
    (20 ≤ gx + gy → gx + gy ≤ 127 → clampGradient gx gy = gx + gy) := by
  unfold clampGradient
  simp only []
  split_ifs <;> omega

/-- The gradient of a pixel is 0 or a value in `20 .. 127`. -/
theorem gradientOf_range (img : Int → Int → Nat) (c l lum : Int) (loc : GradLocals) :
    0 ≤ (gradientOf img c l lum loc).1 ∧ (gradientOf img c l lum loc).1 ≤ 127 := by
  unfold gradientOf
  split
  · simp only []
    exact ⟨(clampGradient_cases _ _).2.1, (clampGradient_cases _ _).1⟩
  · simp

theorem gradientTerms_nonneg (l1 l2 l3 l4 l5 l6 l7 l8 : Int) :
    0 ≤ (gradientTerms l1 l2 l3 l4 l5 l6 l7 l8).1 ∧
    0 ≤ (gradientTerms l1 l2 l3 l4 l5 l6 l7 l8).2 := by
  unfold gradientTerms
  simp only []
  constructor <;> split_ifs <;> omega

/-- Past the first two columns and the first line, the gradient is the
magnitude of the terms of the neighbours the code reads, limited by
`clampGradient`: the carried neighbours are read from the frame buffer at
column 2 and are the carried locals otherwise. -/
theorem gradientOf_inside (img : Int → Int → Nat) (c l lum : Int) (loc : GradLocals)
    (hc : 1 < c) (hl : 1 < l) :
    (gradientOf img c l lum loc).1 =
      clampGradient
        (gradientTerms (if c = 2 then freshLocals img c l else loc).nLuminance1
          ((img c (l - 2) &&& _LUMINANCE_MASK : Nat) : Int)
          ((img (c - 2) (l - 1) &&& _LUMINANCE_MASK : Nat) : Int)
          ((img c (l - 1) &&& _LUMINANCE_MASK : Nat) : Int)
          (if c = 2 then freshLocals img c l else loc).nLuminance5 lum
          (if c = 2 then freshLocals img c l else loc).nLuminance7
          (if c = 2 then freshLocals img c l else loc).nLuminance8).1
        (gradientTerms (if c = 2 then freshLocals img c l else loc).nLuminance1
          ((img c (l - 2) &&& _LUMINANCE_MASK : Nat) : Int)
          ((img (c - 2) (l - 1) &&& _LUMINANCE_MASK : Nat) : Int)
          ((img c (l - 1) &&& _LUMINANCE_MASK : Nat) : Int)
          (if c = 2 then freshLocals img c l else loc).nLuminance5 lum
          (if c = 2 then freshLocals img c l else loc).nLuminance7
          (if c = 2 then freshLocals img c l else loc).nLuminance8).2 := by
  have hp : c > 1 ∧ l > 1 := ⟨hc, hl⟩
  simp only [gradientOf, hp, and_self, if_true, freshLocals]

theorem and_luminance_mask (n : Nat) (h : n ≤ 127) : n &&& _LUMINANCE_MASK = n := by
  have hm : _LUMINANCE_MASK = 2 ^ 7 - 1 := by decide
  rw [hm, Nat.and_pow_two_sub_one_eq_mod]
  omega

/-- At column 2 of the line counter 2 of the frame buffer `neighbourhood`, the
gradient code reads the seven luminances the buffer was built from. -/
theorem gradientOf_neighbourhood (n1 n2 n3 n4 n5 n7 n8 : Nat) (lum : Int) (loc : GradLocals)
    (h1 : n1 ≤ 127) (h2 : n2 ≤ 127) (h3 : n3 ≤ 127) (h4 : n4 ≤ 127) (h5 : n5 ≤ 127)
    (h7 : n7 ≤ 127) (h8 : n8 ≤ 127) :
    (gradientOf (neighbourhood n1 n2 n3 n4 n5 n7 n8) 2 2 lum loc).1 =
      clampGradient (gradientTerms n1 n2 n3 n4 n5 lum n7 n8).1
        (gradientTerms n1 n2 n3 n4 n5 lum n7 n8).2 := by
  rw [gradientOf_inside _ _ _ _ _ (by decide) (by decide)]
  simp [freshLocals, neighbourhood, and_luminance_mask, h1, h2, h3, h4, h5, h7, h8]

/-- C17. The gradient `nLumGrad` that lines 540 to 602 produce is at most 127
and is 0 for a pixel in the first two columns (column index at most 1) or in
the first line (line counter at most 1) of a frame.  Past these, with `m` the
computed magnitude `nLumGradx + nLumGrady` of the neighbours the code reads
(the carried neighbours are read from the frame buffer at column 2 and are the
carried locals otherwise), the gradient is 0 when `m` is below 20, 127 when `m`
exceeds 127 and `m` otherwise.  Every 3x3 neighbourhood of luminances in
`0 .. 127` is read as such from the frame buffer `neighbourhood`, and the
gradient produced for it follows the same three cases of its magnitude. -/
theorem C17_gradient_clamped (img : Int → Int → Nat) (c l lum : Int) (loc : GradLocals) :
    (gradientOf img c l lum loc).1 ≤ 127 ∧
    (c ≤ 1 ∨ l ≤ 1 → (gradientOf img c l lum loc).1 = 0) ∧
    (1 < c → 1 < l → ∀ m : Int,
      m = (gradientTerms (if c = 2 then freshLocals img c l else loc).nLuminance1
            ((img c (l - 2) &&& _LUMINANCE_MASK : Nat) : Int)
            ((img (c - 2) (l - 1) &&& _LUMINANCE_MASK : Nat) : Int)
            ((img c (l - 1) &&& _LUMINANCE_MASK : Nat) : Int)
            (if c = 2 then freshLocals img c l else loc).nLuminance5 lum
            (if c = 2 then freshLocals img c l else loc).nLuminance7
            (if c = 2 then freshLocals img c l else loc).nLuminance8).1 +
          (gradientTerms (if c = 2 then freshLocals img c l else loc).nLuminance1
            ((img c (l - 2) &&& _LUMINANCE_MASK : Nat) : Int)
            ((img (c - 2) (l - 1) &&& _LUMINANCE_MASK : Nat) : Int)
            ((img c (l - 1) &&& _LUMINANCE_MASK : Nat) : Int)
            (if c = 2 then freshLocals img c l else loc).nLuminance5 lum
            (if c = 2 then freshLocals img c l else loc).nLuminance7
            (if c = 2 then freshLocals img c l else loc).nLuminance8).2 →
      0 ≤ m ∧
      (m < 20 → (gradientOf img c l lum loc).1 = 0) ∧
      (127 < m → (gradientOf img c l lum loc).1 = 127) ∧
      (20 ≤ m → m ≤ 127 → (gradientOf img c l lum loc).1 = m)) ∧
    (∀ n1 n2 n3 n4 n5 n6 n7 n8 : Nat, n1 ≤ 127 → n2 ≤ 127 → n3 ≤ 127 → n4 ≤ 127 →
      n5 ≤ 127 → n6 ≤ 127 → n7 ≤ 127 → n8 ≤ 127 → ∀ m : Int,
      m = (gradientTerms n1 n2 n3 n4 n5 n6 n7 n8).1 +
          (gradientTerms n1 n2 n3 n4 n5 n6 n7 n8).2 →
      (gradientOf (neighbourhood n1 n2 n3 n4 n5 n7 n8) 2 2 n6 loc).1 ≤ 127 ∧
      (m < 20 → (gradientOf (neighbourhood n1 n2 n3 n4 n5 n7 n8) 2 2 n6 loc).1 = 0) ∧
      (127 < m → (gradientOf (neighbourhood n1 n2 n3 n4 n5 n7 n8) 2 2 n6 loc).1 = 127) ∧
      (20 ≤ m → m ≤ 127 →
        (gradientOf (neighbourhood n1 n2 n3 n4 n5 n7 n8) 2 2 n6 loc).1 = m)) := by
  refine ⟨(gradientOf_range img c l lum loc).2, ?_, ?_, ?_⟩
  · intro h
    have hn : ¬ (c > 1 ∧ l > 1) := by omega
    simp [gradientOf, hn]
  · intro h1 h2 m hm
    rw [gradientOf_inside img c l lum loc h1 h2]
    have hc := clampGradient_cases
      (gradientTerms (if c = 2 then freshLocals img c l else loc).nLuminance1
            ((img c (l - 2) &&& _LUMINANCE_MASK : Nat) : Int)
            ((img (c - 2) (l - 1) &&& _LUMINANCE_MASK : Nat) : Int)
            ((img c (l - 1) &&& _LUMINANCE_MASK : Nat) : Int)
            (if c = 2 then freshLocals img c l else loc).nLuminance5 lum
            (if c = 2 then freshLocals img c l else loc).nLuminance7
            (if c = 2 then freshLocals img c l else loc).nLuminance8).1
      (gradientTerms (if c = 2 then freshLocals img c l else loc).nLuminance1
            ((img c (l - 2) &&& _LUMINANCE_MASK : Nat) : Int)
            ((img (c - 2) (l - 1) &&& _LUMINANCE_MASK : Nat) : Int)
            ((img c (l - 1) &&& _LUMINANCE_MASK : Nat) : Int)
            (if c = 2 then freshLocals img c l else loc).nLuminance5 lum
            (if c = 2 then freshLocals img c l else loc).nLuminance7
            (if c = 2 then freshLocals img c l else loc).nLuminance8).2
    have hx := gradientTerms_nonneg (if c = 2 then freshLocals img c l else loc).nLuminance1
            ((img c (l - 2) &&& _LUMINANCE_MASK : Nat) : Int)
            ((img (c - 2) (l - 1) &&& _LUMINANCE_MASK : Nat) : Int)
            ((img c (l - 1) &&& _LUMINANCE_MASK : Nat) : Int)
            (if c = 2 then freshLocals img c l else loc).nLuminance5 lum
            (if c = 2 then freshLocals img c l else loc).nLuminance7
            (if c = 2 then freshLocals img c l else loc).nLuminance8
    rw [← hm] at hc
    exact ⟨by omega, hc.2.2.1, hc.2.2.2.1, hc.2.2.2.2⟩
  · intro n1 n2 n3 n4 n5 n6 n7 n8 h1 h2 h3 h4 h5 _ h7 h8 m hm
    rw [gradientOf_neighbourhood n1 n2 n3 n4 n5 n7 n8 n6 loc h1 h2 h3 h4 h5 h7 h8]
    have hc := clampGradient_cases (gradientTerms n1 n2 n3 n4 n5 n6 n7 n8).1
      (gradientTerms n1 n2 n3 n4 n5 n6 n7 n8).2
    rw [← hm] at hc
    exact ⟨hc.1, hc.2.2.1, hc.2.2.2.1, hc.2.2.2.2⟩

/-- C17, at three pixels of column 2 of the line counter 2.  In the frame buffer
`edgeImage` the magnitude is 40 and the gradient is 40; for the neighbourhood
of all zeroes around a pixel of luminance 5 the magnitude is 10 and the
gradient is 0; around a pixel of luminance 127 the magnitude is 254 and the
gradient is 127. -/
theorem C17_witness :
    (gradientOf edgeImage 2 2 0 someLocals.grad).1 = 40 ∧
    (gradientOf (neighbourhood 0 0 0 0 0 0 0) 2 2 ((5 : Nat) : Int) someLocals.grad).1 = 0 ∧
    (gradientOf (neighbourhood 0 0 0 0 0 0 0) 2 2 ((127 : Nat) : Int) someLocals.grad).1 = 127 :=
  ⟨((C17_gradient_clamped edgeImage 2 2 0 someLocals.grad).2.2.1 (by decide) (by decide) 40
      (by decide)).2.2.2 (by decide) (by decide),
    ((C17_gradient_clamped edgeImage 2 2 0 someLocals.grad).2.2.2 0 0 0 0 0 5 0 0
      (by decide) (by decide) (by decide) (by decide) (by decide) (by decide) (by decide)
      (by decide) 10 (by decide)).2.1 (by decide),
    ((C17_gradient_clamped edgeImage 2 2 0 someLocals.grad).2.2.2 0 0 0 0 0 127 0 0
      (by decide) (by decide) (by decide) (by decide) (by decide) (by decide) (by decide)
      (by decide) 254 (by decide)).2.2.1 (by decide)⟩

/-! ### Field widths and the layout of the stored word -/

theorem toWord_ofNat (n : Nat) (h : n < 2 ^ 32) : toWord (n : Int) = n := by
  unfold toWord
  have h2 : ((n : Int)) % 2 ^ 32 = (n : Int) := by
    apply Int.emod_eq_of_lt (by omega)
    exact_mod_cast h
  rw [h2]
  simp

/-- With every field inside its width, the word after the write-back of the
gradient is the sum of the four fields at their positions. -/
theorem packed_value (lum h s g : Nat) (hl : lum < 2 ^ 7) (hh : h < 2 ^ 9) (hs : s < 2 ^ 6)
    (hg : g < 2 ^ 8) :
    writeBackGradient (pixelWord lum (s : Int) (h : Int)) (g : Int) =
      lum + 2 ^ 8 * h + 2 ^ 17 * s + 2 ^ 23 * g := by
  have e1 : shl32 (toWord (s : Int)) _SAT_SHIFT = 2 ^ 17 * s := by
    rw [toWord_ofNat s (by omega)]
    unfold shl32 _SAT_SHIFT
    rw [Nat.shiftLeft_eq, Nat.mod_eq_of_lt (by omega)]
    ring
  have e2 : shl32 (toWord (h : Int)) _HUE_SHIFT = 2 ^ 8 * h := by
    rw [toWord_ofNat h (by omega)]
    unfold shl32 _HUE_SHIFT
    rw [Nat.shiftLeft_eq, Nat.mod_eq_of_lt (by omega)]
    ring
  have e3 : shl32 (toWord (g : Int)) _GRAD_SHIFT = 2 ^ 23 * g := by
    rw [toWord_ofNat g (by omega)]
    unfold shl32 _GRAD_SHIFT
    rw [Nat.shiftLeft_eq, Nat.mod_eq_of_lt (by omega)]
    ring
  have o1 : 2 ^ 8 * h + lum = 2 ^ 8 * h ||| lum := Nat.mul_add_lt_is_or (by omega) h
  have o2 : 2 ^ 17 * s + (2 ^ 8 * h + lum) = 2 ^ 17 * s ||| (2 ^ 8 * h + lum) :=
    Nat.mul_add_lt_is_or (by omega) s
  have o3 : 2 ^ 23 * g + (2 ^ 17 * s + (2 ^ 8 * h + lum)) =
      2 ^ 23 * g ||| (2 ^ 17 * s + (2 ^ 8 * h + lum)) :=
    Nat.mul_add_lt_is_or (by omega) g
  have p : pixelWord lum (s : Int) (h : Int) = 2 ^ 17 * s + (2 ^ 8 * h + lum) := by
    unfold pixelWord
    rw [e1, e2, o2, o1]
    rw [Nat.mod_eq_of_lt]
    · rw [Nat.or_comm lum, Nat.or_assoc, Nat.or_comm lum]
    · rw [Nat.or_comm lum, Nat.or_assoc, Nat.or_comm lum, ← o1, ← o2]
      omega
  unfold writeBackGradient
  rw [p, e3, Nat.or_comm, ← o3]
  omega

theorem decodeSample_range (sample : Int) :
    (decodeSample sample).1 ≤ 31 ∧ (decodeSample sample).2.1 ≤ 63 ∧
    (decodeSample sample).2.2 ≤ 31 := by
  unfold decodeSample
  exact ⟨Nat.and_le_right, Nat.and_le_right, Nat.and_le_right⟩

theorem luminanceOf_le (mode : Int) (r g b : Nat) (hr : r ≤ 31) (hg : g ≤ 63) (hb : b ≤ 31) :
    luminanceOf mode r g b ≤ 127 := by
  unfold luminanceOf
  simp only [Nat.shiftLeft_eq, Nat.shiftRight_eq_div_pow]
  split_ifs <;> omega

theorem saturationOf_range (r g b : Nat) (hr : r ≤ 31) (hg : g ≤ 63) (hb : b ≤ 31) :
    0 ≤ saturationOf r g b ∧ saturationOf r g b ≤ 63 := by
  unfold saturationOf
  simp only [Nat.shiftLeft_eq, pow_one, Nat.cast_mul, Nat.cast_ofNat]
  obtain ⟨m1, m2, m3, m4⟩ := Max_bounds ((r : Int) * 2) (g : Int) ((b : Int) * 2)
  obtain ⟨n1, n2, n3, n4⟩ := Min_bounds ((r : Int) * 2) (g : Int) ((b : Int) * 2)
  omega

/-- The layout of the word after the write-back, for fields inside their
widths. -/
theorem packed_layout (lum h s g : Nat) (hl : lum ≤ 127) (hh : h ≤ 420) (hs : s ≤ 63)
    (hg : g ≤ 127) :
    writeBackGradient (pixelWord lum (s : Int) (h : Int)) (g : Int) % 2 ^ 7 = lum ∧
    (writeBackGradient (pixelWord lum (s : Int) (h : Int)) (g : Int) >>> 8) % 2 ^ 9 = h ∧
    (writeBackGradient (pixelWord lum (s : Int) (h : Int)) (g : Int) >>> 17) % 2 ^ 6 = s ∧
    (writeBackGradient (pixelWord lum (s : Int) (h : Int)) (g : Int) >>> 23) % 2 ^ 8 = g ∧
    (writeBackGradient (pixelWord lum (s : Int) (h : Int)) (g : Int) >>> 7) % 2 = 0 ∧
    (writeBackGradient (pixelWord lum (s : Int) (h : Int)) (g : Int) >>> 31) % 2 = 0 := by
  have hv := packed_value lum h s g (by omega) (by omega) (by omega) (by omega)
  rw [hv]
  simp only [Nat.shiftRight_eq_div_pow]
  refine ⟨?_, ?_, ?_, ?_, ?_, ?_⟩ <;> omega

/-- C19. For every pixel the line-processing step processes (any sample of
the line buffer, any luminance mode, any neighbourhood), the luminance is at
most 127, the hue at most 511, the saturation at most 63 and the gradient at
most 255, none of them negative, and the word stored for the pixel, once a
gradient has been written back into it, holds the luminance in bits 6 to 0, the
hue in bits 16 to 8, the saturation in bits 22 to 17 and the gradient in bits
30 to 23, with bits 7 and 31 equal to 0. -/
theorem C19_fields_do_not_overlap (sample mode nHue : Int) (img : Int → Int → Nat)
    (c l lum0 : Int) (loc : GradLocals) :
    luminanceOf mode (decodeSample sample).1 (decodeSample sample).2.1 (decodeSample sample).2.2
      ≤ 127 ∧
    0 ≤ hueOf (decodeSample sample).1 (decodeSample sample).2.1 (decodeSample sample).2.2 nHue ∧
    hueOf (decodeSample sample).1 (decodeSample sample).2.1 (decodeSample sample).2.2 nHue
      ≤ 511 ∧
    0 ≤ saturationOf (decodeSample sample).1 (decodeSample sample).2.1 (decodeSample sample).2.2 ∧
    saturationOf (decodeSample sample).1 (decodeSample sample).2.1 (decodeSample sample).2.2
      ≤ 63 ∧
    0 ≤ (gradientOf img c l lum0 loc).1 ∧ (gradientOf img c l lum0 loc).1 ≤ 255 ∧
    (writeBackGradient
      (pixelWord
        (luminanceOf mode (decodeSample sample).1 (decodeSample sample).2.1
          (decodeSample sample).2.2)
        (saturationOf (decodeSample sample).1 (decodeSample sample).2.1 (decodeSample sample).2.2)
        (hueOf (decodeSample sample).1 (decodeSample sample).2.1 (decodeSample sample).2.2 nHue))
      (gradientOf img c l lum0 loc).1) % 2 ^ 7 =
      luminanceOf mode (decodeSample sample).1 (decodeSample sample).2.1
        (decodeSample sample).2.2 ∧
    (((writeBackGradient
      (pixelWord
        (luminanceOf mode (decodeSample sample).1 (decodeSample sample).2.1
          (decodeSample sample).2.2)
        (saturationOf (decodeSample sample).1 (decodeSample sample).2.1 (decodeSample sample).2.2)
        (hueOf (decodeSample sample).1 (decodeSample sample).2.1 (decodeSample sample).2.2 nHue))
      (gradientOf img c l lum0 loc).1 >>> 8) % 2 ^ 9 : Nat) : Int) =
      hueOf (decodeSample sample).1 (decodeSample sample).2.1 (decodeSample sample).2.2 nHue ∧
    (((writeBackGradient
      (pixelWord
        (luminanceOf mode (decodeSample sample).1 (decodeSample sample).2.1
          (decodeSample sample).2.2)
        (saturationOf (decodeSample sample).1 (decodeSample sample).2.1 (decodeSample sample).2.2)
        (hueOf (decodeSample sample).1 (decodeSample sample).2.1 (decodeSample sample).2.2 nHue))
      (gradientOf img c l lum0 loc).1 >>> 17) % 2 ^ 6 : Nat) : Int) =
      saturationOf (decodeSample sample).1 (decodeSample sample).2.1 (decodeSample sample).2.2 ∧
    (((writeBackGradient
      (pixelWord
        (luminanceOf mode (decodeSample sample).1 (decodeSample sample).2.1
          (decodeSample sample).2.2)
        (saturationOf (decodeSample sample).1 (decodeSample sample).2.1 (decodeSample sample).2.2)
        (hueOf (decodeSample sample).1 (decodeSample sample).2.1 (decodeSample sample).2.2 nHue))
      (gradientOf img c l lum0 loc).1 >>> 23) % 2 ^ 8 : Nat) : Int) =
      (gradientOf img c l lum0 loc).1 ∧
    (writeBackGradient
      (pixelWord
        (luminanceOf mode (decodeSample sample).1 (decodeSample sample).2.1
          (decodeSample sample).2.2)
        (saturationOf (decodeSample sample).1 (decodeSample sample).2.1 (decodeSample sample).2.2)
        (hueOf (decodeSample sample).1 (decodeSample sample).2.1 (decodeSample sample).2.2 nHue))
      (gradientOf img c l lum0 loc).1 >>> 7) % 2 = 0 ∧
    (writeBackGradient
      (pixelWord
        (luminanceOf mode (decodeSample sample).1 (decodeSample sample).2.1
          (decodeSample sample).2.2)
        (saturationOf (decodeSample sample).1 (decodeSample sample).2.1 (decodeSample sample).2.2)
        (hueOf (decodeSample sample).1 (decodeSample sample).2.1 (decodeSample sample).2.2 nHue))
      (gradientOf img c l lum0 loc).1 >>> 31) % 2 = 0 := by
  obtain ⟨hr, hg, hb⟩ := decodeSample_range sample
  generalize (decodeSample sample).1 = r at *
  generalize (decodeSample sample).2.1 = g at *
  generalize (decodeSample sample).2.2 = b at *
  have hlum := luminanceOf_le mode r g b hr hg hb
  have hsat := saturationOf_range r g b hr hg hb
  have hgrad := gradientOf_range img c l lum0 loc
  have hhue : 0 ≤ hueOf r g b nHue ∧ hueOf r g b nHue ≤ 420 := by
    rcases hueOf_range r g b nHue with h | h | h
    · omega
    · rw [h]; decide
    · rw [h]; decide
  generalize luminanceOf mode r g b = lum at *
  obtain ⟨hN, hNe⟩ := Int.eq_ofNat_of_zero_le hhue.1
  obtain ⟨sN, sNe⟩ := Int.eq_ofNat_of_zero_le hsat.1
  obtain ⟨gN, gNe⟩ := Int.eq_ofNat_of_zero_le hgrad.1
  have hN420 : hN ≤ 420 := by omega
  have sN63 : sN ≤ 63 := by omega
  have gN127 : gN ≤ 127 := by omega
  obtain ⟨p1, p2, p3, p4, p5, p6⟩ := packed_layout lum hN sN gN hlum hN420 sN63 gN127
  simp only [hNe, sNe, gNe]
  refine ⟨hlum, by omega, by omega, by omega, by omega, by omega, by omega, p1, ?_, ?_, ?_,
    p5, p6⟩
  · exact_mod_cast p2
  · exact_mod_cast p3
  · exact_mod_cast p4

/-! ### The default case of the step functions -/

/-- C11, as stated, fails. `OSProce1`, called in state 2, which it does not
handle, leaves the task with `nState = 0` and `nTimer = 0`, not 1. -/
theorem C11_counterexample_OSProce1_timer :
    (OSProce1 sam4s ⟨1, 2, 0⟩ (resetFirmware 160 120 0 (fun _ => 0) (fun _ => 0))).ctx =
      ⟨1, 0, 0⟩ := by
  decide

/-- C11, amended. Each of the six driver step functions, called with
`nTimer = 0` in an `nState` that is not one of the states it handles, leaves the
task with `nState = 0` and `nTimer = 1` (the two serial drivers for every loop
bound); `OSProce1`, called in an `nState` other than 0 and 1, leaves the task
with `nState = 0` and `nTimer = 0`. -/
theorem C11_default_state_resets (k : SamHeader) (ku : UartHeader) (fuel : Nat)
    (loc : LineLocals) (c : TASK_ATTRIBUTE) (w : Firmware) (wu : UartWorld)
    (hT : c.nTimer = 0) :
    (c.nState < 0 ∨ 9 < c.nState → (Proce_TCM8230_Driver k loc c w).ctx = ⟨c.nID, 0, 1⟩) ∧
    (c.nState < 0 ∨ 2 < c.nState → (Proce_Camera_LED_Driver k c w).ctx = ⟨c.nID, 0, 1⟩) ∧
    (c.nState < 0 ∨ (1 < c.nState ∧ c.nState < 45) ∨ 49 < c.nState →
      (Proce_I2C0_Driver k c w).ctx = ⟨c.nID, 0, 1⟩) ∧
    (c.nState < 0 ∨ 1 < c.nState →
      (Proce_UART_Driver ku fuel c wu).map (fun r => r.ctx) = some ⟨c.nID, 0, 1⟩) ∧
    (c.nState < 0 ∨ 1 < c.nState →
      (Proce_USART_Driver k fuel c w).map (fun r => r.ctx) = some ⟨c.nID, 0, 1⟩) ∧
    (c.nState < 0 ∨ 3 < c.nState → (Proce_DACC_Driver k c w).ctx = ⟨c.nID, 0, 1⟩) ∧
    (c.nState < 0 ∨ 1 < c.nState → (OSProce1 k c w).ctx = ⟨c.nID, 0, 0⟩) := by
  refine ⟨?_, ?_, ?_, ?_, ?_, ?_, ?_⟩
  · intro h
    have h0 : c.nState ≠ 0 := by omega
    have h1 : c.nState ≠ 1 := by omega
    have h2 : c.nState ≠ 2 := by omega
    have h3 : c.nState ≠ 3 := by omega
    have h4 : c.nState ≠ 4 := by omega
    have h5 : c.nState ≠ 5 := by omega
    have h6 : c.nState ≠ 6 := by omega
    have h7 : c.nState ≠ 7 := by omega
    have h8 : c.nState ≠ 8 := by omega
    have h9 : c.nState ≠ 9 := by omega
    simp [Proce_TCM8230_Driver, hT, h0, h1, h2, h3, h4, h5, h6, h7, h8, h9,
      StepResult.setContext, OSSetTaskContext]
  · intro h
    have h0 : c.nState ≠ 0 := by omega
    have h1 : c.nState ≠ 1 := by omega
    have h2 : c.nState ≠ 2 := by omega
    simp [Proce_Camera_LED_Driver, hT, h0, h1, h2, StepResult.setContext, OSSetTaskContext]
  · intro h
    have h0 : c.nState ≠ 0 := by omega
    have h1 : c.nState ≠ 1 := by omega
    have h45 : c.nState ≠ 45 := by omega
    have h46 : c.nState ≠ 46 := by omega
    have h47 : c.nState ≠ 47 := by omega
    have h48 : c.nState ≠ 48 := by omega
    have h49 : c.nState ≠ 49 := by omega
    simp [Proce_I2C0_Driver, hT, h0, h1, h45, h46, h47, h48, h49, StepResult.setContext,
      OSSetTaskContext]
  · intro h
    have h0 : c.nState ≠ 0 := by omega
    have h1 : c.nState ≠ 1 := by omega
    simp [Proce_UART_Driver, hT, h0, h1, StepResult.setContext, OSSetTaskContext]
  · intro h
    have h0 : c.nState ≠ 0 := by omega
    have h1 : c.nState ≠ 1 := by omega
    simp [Proce_USART_Driver, hT, h0, h1, StepResult.setContext, OSSetTaskContext]
  · intro h
    have h0 : c.nState ≠ 0 := by omega
    have h1 : c.nState ≠ 1 := by omega
    have h2 : c.nState ≠ 2 := by omega
    have h3 : c.nState ≠ 3 := by omega
    simp [Proce_DACC_Driver, hT, h0, h1, h2, h3, StepResult.setContext, OSSetTaskContext]
  · intro h
    have h0 : c.nState ≠ 0 := by omega
    have h1 : c.nState ≠ 1 := by omega
    simp [OSProce1, h0, h1, StepResult.setContext, OSSetTaskContext]

/-- C11 amended, on a context in state 77 with the SAM4S constants. -/
theorem C11_witness :
    (⟨3, 77, 0⟩ : TASK_ATTRIBUTE).nTimer = 0 ∧
    (((⟨3, 77, 0⟩ : TASK_ATTRIBUTE).nState < 0 ∨ 9 < (⟨3, 77, 0⟩ : TASK_ATTRIBUTE).nState →
      (Proce_TCM8230_Driver sam4s someLocals ⟨3, 77, 0⟩
        (resetFirmware 160 120 0 (fun _ => 0) (fun _ => 0))).ctx =
        ⟨(⟨3, 77, 0⟩ : TASK_ATTRIBUTE).nID, 0, 1⟩) ∧
     ((⟨3, 77, 0⟩ : TASK_ATTRIBUTE).nState < 0 ∨ 2 < (⟨3, 77, 0⟩ : TASK_ATTRIBUTE).nState →
      (Proce_Camera_LED_Driver sam4s ⟨3, 77, 0⟩
        (resetFirmware 160 120 0 (fun _ => 0) (fun _ => 0))).ctx =
        ⟨(⟨3, 77, 0⟩ : TASK_ATTRIBUTE).nID, 0, 1⟩) ∧
     ((⟨3, 77, 0⟩ : TASK_ATTRIBUTE).nState < 0 ∨
        (1 < (⟨3, 77, 0⟩ : TASK_ATTRIBUTE).nState ∧ (⟨3, 77, 0⟩ : TASK_ATTRIBUTE).nState < 45) ∨
        49 < (⟨3, 77, 0⟩ : TASK_ATTRIBUTE).nState →
      (Proce_I2C0_Driver sam4s ⟨3, 77, 0⟩
        (resetFirmware 160 120 0 (fun _ => 0) (fun _ => 0))).ctx =
        ⟨(⟨3, 77, 0⟩ : TASK_ATTRIBUTE).nID, 0, 1⟩) ∧
     ((⟨3, 77, 0⟩ : TASK_ATTRIBUTE).nState < 0 ∨ 1 < (⟨3, 77, 0⟩ : TASK_ATTRIBUTE).nState →
      (Proce_UART_Driver sam4sUart 0 ⟨3, 77, 0⟩ (uartDmaWorld 0)).map (fun r => r.ctx) =
        some ⟨(⟨3, 77, 0⟩ : TASK_ATTRIBUTE).nID, 0, 1⟩) ∧
     ((⟨3, 77, 0⟩ : TASK_ATTRIBUTE).nState < 0 ∨ 1 < (⟨3, 77, 0⟩ : TASK_ATTRIBUTE).nState →
      (Proce_USART_Driver sam4s 0 ⟨3, 77, 0⟩
        (resetFirmware 160 120 0 (fun _ => 0) (fun _ => 0))).map (fun r => r.ctx) =
        some ⟨(⟨3, 77, 0⟩ : TASK_ATTRIBUTE).nID, 0, 1⟩) ∧
     ((⟨3, 77, 0⟩ : TASK_ATTRIBUTE).nState < 0 ∨ 3 < (⟨3, 77, 0⟩ : TASK_ATTRIBUTE).nState →
      (Proce_DACC_Driver sam4s ⟨3, 77, 0⟩
        (resetFirmware 160 120 0 (fun _ => 0) (fun _ => 0))).ctx =
        ⟨(⟨3, 77, 0⟩ : TASK_ATTRIBUTE).nID, 0, 1⟩) ∧
     ((⟨3, 77, 0⟩ : TASK_ATTRIBUTE).nState < 0 ∨ 1 < (⟨3, 77, 0⟩ : TASK_ATTRIBUTE).nState →
      (OSProce1 sam4s ⟨3, 77, 0⟩ (resetFirmware 160 120 0 (fun _ => 0) (fun _ => 0))).ctx =
        ⟨(⟨3, 77, 0⟩ : TASK_ATTRIBUTE).nID, 0, 0⟩)) :=
  ⟨rfl, C11_default_state_resets sam4s sam4sUart 0 someLocals ⟨3, 77, 0⟩
    (resetFirmware 160 120 0 (fun _ => 0) (fun _ => 0)) (uartDmaWorld 0) rfl⟩

/-! ### End of frame -/

theorem clearHisto_apply (h : Int → Int) (n : Nat) (j : Int) :
    clearHisto h n j = if 0 ≤ j ∧ j < (n : Int) then 0 else h j := by
  induction n with
  | zero =>
    have hn : ¬ (0 ≤ j ∧ j < ((0 : Nat) : Int)) := by
      rintro ⟨h0, h1⟩
      simp at h1
      omega
    rw [if_neg hn]
    rfl
  | succ k ih =>
    simp only [clearHisto, setAt]
    by_cases hj : j = (k : Int)
    · subst hj
      have hp : 0 ≤ (k : Int) ∧ (k : Int) < ((k + 1 : Nat) : Int) := by
        push_cast
        omega
      simp [hp]
    · simp only [hj, if_false]
      rw [ih]
      have : (0 ≤ j ∧ j < ((k + 1 : Nat) : Int)) ↔ (0 ≤ j ∧ j < (k : Int)) := by
        push_cast
        omega
      simp only [this]

/-- C18, as stated, fails. The end-of-frame step, on a state whose histogram
holds 7 in bucket 5 and whose cumulative luminance is 57600, sets the average
to 3 and the cumulative sum to 0 and leaves the 7 in bucket 5. -/
theorem C18_counterexample_histogram_kept :
    (Proce_TCM8230_Driver sam4s someLocals ⟨5, 9, 0⟩ (frameEndFirmware 57600)).world.gunIHisto 5
      = 7 ∧
    (Proce_TCM8230_Driver sam4s someLocals ⟨5, 9, 0⟩
      (frameEndFirmware 57600)).world.gunAverageLuminance = 3 ∧
    (Proce_TCM8230_Driver sam4s someLocals ⟨5, 9, 0⟩
      (frameEndFirmware 57600)).world.unLumCumulative = 0 := by
  decide

/-- C18, amended. A call of the camera task in state 9 sets
`gunAverageLuminance` to the cumulative luminance divided, with truncation, by
the constant `_NOPIXELSINFRAME = 19200` (the product of the default width 160
and height 120, whatever `gnImageWidth` and `gnImageHeight` hold), and leaves
`unLumCumulative` at zero and the histogram `gunIHisto` as it was; the buckets
`0 .. 127` of the histogram are set to zero by the frame-sync transition of
state 7, which leaves the other buckets as they were. -/
theorem C18_end_of_frame_average (k : SamHeader) (loc : LineLocals) (c : TASK_ATTRIBUTE)
    (w : Firmware) (hT : c.nTimer = 0) (hS : c.nState = 9) :
    (Proce_TCM8230_Driver k loc c w).world.gunAverageLuminance = w.unLumCumulative / 19200 ∧
    _NOPIXELSINFRAME = 160 * 120 ∧
    (Proce_TCM8230_Driver k loc c w).world.unLumCumulative = 0 ∧
    (Proce_TCM8230_Driver k loc c w).world.gunIHisto = w.gunIHisto ∧
    (∀ j : Int, 0 ≤ j → j < 128 → (camFrameSync k w).gunIHisto j = 0) ∧
    (∀ j : Int, 128 ≤ j → (camFrameSync k w).gunIHisto j = w.gunIHisto j) := by
  refine ⟨?_, rfl, ?_, ?_, ?_, ?_⟩
  · simp [Proce_TCM8230_Driver, hT, hS, StepResult.setContext, _NOPIXELSINFRAME]
  · simp [Proce_TCM8230_Driver, hT, hS, StepResult.setContext]
  · simp [Proce_TCM8230_Driver, hT, hS, StepResult.setContext]
  · intro j h0 h1
    have hp : 0 ≤ j ∧ j < ((128 : Nat) : Int) := ⟨h0, by simpa using h1⟩
    simp only [camFrameSync, clearHisto_apply, hp, and_self, if_true]
  · intro j h0
    have hp : ¬ (0 ≤ j ∧ j < ((128 : Nat) : Int)) := by
      rintro ⟨-, h1⟩
      simp at h1
      omega
    simp only [camFrameSync, clearHisto_apply, hp, if_false]
    rfl

/-- C18 amended, on the state at the end of a frame with cumulative luminance
57600. -/
theorem C18_witness :
    (⟨5, 9, 0⟩ : TASK_ATTRIBUTE).nTimer = 0 ∧ (⟨5, 9, 0⟩ : TASK_ATTRIBUTE).nState = 9 ∧
    ((Proce_TCM8230_Driver sam4s someLocals ⟨5, 9, 0⟩
        (frameEndFirmware 57600)).world.gunAverageLuminance =
        (frameEndFirmware 57600).unLumCumulative / 19200 ∧
     _NOPIXELSINFRAME = 160 * 120 ∧
     (Proce_TCM8230_Driver sam4s someLocals ⟨5, 9, 0⟩
        (frameEndFirmware 57600)).world.unLumCumulative = 0 ∧
     (Proce_TCM8230_Driver sam4s someLocals ⟨5, 9, 0⟩ (frameEndFirmware 57600)).world.gunIHisto =
        (frameEndFirmware 57600).gunIHisto ∧
     (∀ j : Int, 0 ≤ j → j < 128 → (camFrameSync sam4s (frameEndFirmware 57600)).gunIHisto j = 0) ∧
     (∀ j : Int, 128 ≤ j → (camFrameSync sam4s (frameEndFirmware 57600)).gunIHisto j =
        (frameEndFirmware 57600).gunIHisto j)) :=
  ⟨rfl, rfl, C18_end_of_frame_average sam4s someLocals ⟨5, 9, 0⟩ (frameEndFirmware 57600) rfl rfl⟩

/-! ### Row 0 of the frame buffer -/

theorem gradientOf_first_line (img : Int → Int → Nat) (c l lum : Int) (loc : GradLocals)
    (h : l ≤ 1) : (gradientOf img c l lum loc).1 = 0 := by
  have hn : ¬ (c > 1 ∧ l > 1) := by omega
  simp [gradientOf, hn]

theorem writeBackGradient_zero (v : Nat) : writeBackGradient v 0 = v := by
  have h : shl32 (toWord 0) _GRAD_SHIFT = 0 := by decide
  unfold writeBackGradient
  rw [h]
  simp

/-- One column step leaves row 0 of the frame buffer and the line counter as
they were, when the line counter is at least 1. -/
theorem pixelStep_row_zero (w : Firmware) (c : Int) (loc : LineLocals)
    (hL : 1 ≤ w.nLineCounter) :
    (∀ x : Int, (pixelStep w c loc).1.gunImgAtt x 0 = w.gunImgAtt x 0) ∧
    (pixelStep w c loc).1.nLineCounter = w.nLineCounter := by
  refine ⟨?_, rfl⟩
  intro x
  have hne : ¬ ((0 : Int) = w.nLineCounter) := by omega
  simp only [pixelStep, setAt2]
  by_cases h1 : x = c - 1 ∧ (0 : Int) = w.nLineCounter - 1
  · have hl : w.nLineCounter ≤ 1 := by omega
    rw [if_pos h1, gradientOf_first_line _ _ _ _ _ hl, writeBackGradient_zero]
    have h2 : ¬ (c - 1 = c ∧ w.nLineCounter - 1 = w.nLineCounter) := by omega
    rw [if_neg h2, ← h1.1, ← h1.2]
  · rw [if_neg h1]
    have h2 : ¬ (x = c ∧ (0 : Int) = w.nLineCounter) := by omega
    rw [if_neg h2]

theorem lineLoop_row_zero (w : Firmware) (loc : LineLocals) (n : Nat)
    (hL : 1 ≤ w.nLineCounter) :
    (∀ x : Int, (lineLoop w loc n).1.gunImgAtt x 0 = w.gunImgAtt x 0) ∧
    (lineLoop w loc n).1.nLineCounter = w.nLineCounter := by
  induction n with
  | zero => exact ⟨fun _ => rfl, rfl⟩
  | succ m ih =>
    obtain ⟨ih1, ih2⟩ := ih
    have hs := pixelStep_row_zero (lineLoop w loc m).1 (m : Int) (lineLoop w loc m).2
      (by rw [ih2]; exact hL)
    simp only [lineLoop]
    refine ⟨?_, ?_⟩
    · intro x
      rw [hs.1 x, ih1 x]
    · rw [hs.2, ih2]

/-- Processing a completed line leaves row 0 of the frame buffer as it was and
raises the line counter by 1. -/
theorem camLineDone_row_zero (k : SamHeader) (loc : LineLocals) (w : Firmware)
    (hL : 0 ≤ w.nLineCounter) :
    (∀ x : Int, (camLineDone k loc w).gunImgAtt x 0 = w.gunImgAtt x 0) ∧
    (camLineDone k loc w).nLineCounter = w.nLineCounter + 1 := by
  unfold camLineDone
  simp only [Firmware.store]
  constructor
  · intro x
    rw [(lineLoop_row_zero _ loc _ (by simp only []; omega)).1 x]
  · rw [(lineLoop_row_zero _ loc _ (by simp only []; omega)).2]

theorem captureLines_row_zero (k : SamHeader) (loc : LineLocals) (lines : List (Int → Int)) :
    ∀ w : Firmware, 0 ≤ w.nLineCounter →
      (∀ x : Int, (captureLines k loc lines w).gunImgAtt x 0 = w.gunImgAtt x 0) ∧
      (captureLines k loc lines w).nLineCounter = w.nLineCounter + (lines.length : Int) := by
  induction lines with
  | nil =>
    intro w _
    simp [captureLines]
  | cons line rest ih =>
    intro w hL
    obtain ⟨d1, d2⟩ := camLineDone_row_zero k loc { w with gn16Pixel := line } hL
    obtain ⟨i1, i2⟩ := ih (camLineDone k loc { w with gn16Pixel := line })
      (by rw [d2]; simp only []; omega)
    simp only [captureLines]
    refine ⟨?_, ?_⟩
    · intro x
      rw [i1 x, d1 x]
    · rw [i2, d2]
      simp only [List.length_cons]
      push_cast
      omega

/-- C20. From the frame-sync transition on, however many lines are captured and
whatever they hold, no cell of row 0 of the frame buffer is given a new value:
the line counter is raised before it is used as the row index, so the lines of
a frame go to the rows `1 .. gnImageHeight`. On an image of 2 by 2 pixels the
camera task, called in state 7 and then twice in state 8, reaches state 9 with
the line counter at `gnImageHeight`; the cells `[0][0]` and `[1][0]` still hold
the value `0xABCD` of before the frame, and the second line has been stored in
row 2. -/
theorem C20_row_zero_keeps_old_frame :
    (∀ (k : SamHeader) (loc : LineLocals) (lines : List (Int → Int)) (w : Firmware) (c : Int),
      (captureLines k loc lines (camFrameSync k w)).gunImgAtt c 0 = w.gunImgAtt c 0 ∧
      (captureLines k loc lines (camFrameSync k w)).nLineCounter = (lines.length : Int)) ∧
    (camInvoke sam4s someLocals (camInvoke sam4s someLocals
      (camInvoke sam4s someLocals tinyCamera))).ctx = ⟨5, 9, 1⟩ ∧
    (camInvoke sam4s someLocals (camInvoke sam4s someLocals
      (camInvoke sam4s someLocals tinyCamera))).world.nLineCounter =
        tinyCamera.world.gnImageHeight ∧
    (camInvoke sam4s someLocals (camInvoke sam4s someLocals
      (camInvoke sam4s someLocals tinyCamera))).world.gunImgAtt 0 0 = 0xABCD ∧
    (camInvoke sam4s someLocals (camInvoke sam4s someLocals
      (camInvoke sam4s someLocals tinyCamera))).world.gunImgAtt 1 0 = 0xABCD ∧
    (camInvoke sam4s someLocals (camInvoke sam4s someLocals
      (camInvoke sam4s someLocals tinyCamera))).world.gunImgAtt 0 1 ≠ 0xABCD ∧
    (camInvoke sam4s someLocals (camInvoke sam4s someLocals
      (camInvoke sam4s someLocals tinyCamera))).world.gunImgAtt 0 2 ≠ 0xABCD ∧
    tinyCamera.world.gunImgAtt 0 0 = 0xABCD := by
  refine ⟨?_, by decide, by decide, by decide, by decide, by decide, by decide, by decide⟩
  intro k loc lines w c
  have h0 : (camFrameSync k w).nLineCounter = 0 := rfl
  have hg : (camFrameSync k w).gunImgAtt = w.gunImgAtt := rfl
  obtain ⟨r1, r2⟩ := captureLines_row_zero k loc lines (camFrameSync k w) (by rw [h0])
  rw [r1 c, r2, h0, hg]
  simp

/-! ### The I2C task and the transaction descriptor -/

theorem i2cInvoke_input (k : SamHeader) (r : StepResult Firmware) :
    (i2cInvoke k r).world.hw.input = r.world.hw.input := by
  by_cases h0 : r.ctx.nState = 0
  · simp [i2cInvoke, Proce_I2C0_Driver, h0, StepResult.setContext, i2cInit, Firmware.store,
      Hw.store, Firmware.clearBits, Firmware.orBits]
  by_cases h1 : r.ctx.nState = 1
  · simp only [i2cInvoke, Proce_I2C0_Driver, h1, StepResult.setContext]
    simp only [if_true, if_false]
    split_ifs <;> rfl
  by_cases h45 : r.ctx.nState = 45
  · simp [i2cInvoke, Proce_I2C0_Driver, h45, StepResult.setContext, Firmware.store,
      Hw.store, Firmware.clearBits]
  by_cases h46 : r.ctx.nState = 46
  · simp [i2cInvoke, Proce_I2C0_Driver, h46, StepResult.setContext, Firmware.store, Hw.store]
  by_cases h47 : r.ctx.nState = 47
  · simp only [i2cInvoke, Proce_I2C0_Driver, h47, StepResult.setContext]
    simp only [if_true, if_false]
    split_ifs <;> rfl
  by_cases h48 : r.ctx.nState = 48
  · simp only [i2cInvoke, Proce_I2C0_Driver, h48, StepResult.setContext]
    simp only [if_true, if_false]
    split_ifs <;> rfl
  by_cases h49 : r.ctx.nState = 49
  · simp [i2cInvoke, Proce_I2C0_Driver, h49, StepResult.setContext]
  simp [i2cInvoke, Proce_I2C0_Driver, h0, h1, h45, h46, h47, h48, h49, StepResult.setContext]

theorem i2cRun_input (k : SamHeader) (r : StepResult Firmware) (n : Nat) :
    (i2cRun k n r).world.hw.input = r.world.hw.input := by
  induction n with
  | zero => rfl
  | succ m ih =>
    simp only [i2cRun]
    rw [i2cInvoke_input, ih]

theorem i2cView_dispatch (k : SamHeader) (r : StepResult Firmware) (e : Bool) (n : Nat) (c : Int)
    (h : i2cView r = (1, ⟨false, e, false, true⟩, n, c)) :
    i2cView (i2cInvoke k r) = (45, ⟨true, e, false, true⟩, n, c) := by
  simp only [i2cView, Prod.mk.injEq] at h
  obtain ⟨h1, h2, h3, h4⟩ := h
  simp [i2cView, i2cInvoke, Proce_I2C0_Driver, h1, h2, h3, h4, StepResult.setContext,
    OSSetTaskContext]

theorem i2cView_load (k : SamHeader) (r : StepResult Firmware) (s : I2C_STATUS) (n : Nat) (c : Int)
    (h : i2cView r = (45, s, n, c)) :
    i2cView (i2cInvoke k r) = (46, s, n, 0) := by
  simp only [i2cView, Prod.mk.injEq] at h
  obtain ⟨h1, h2, h3, h4⟩ := h
  simp [i2cView, i2cInvoke, Proce_I2C0_Driver, h1, h2, h3, StepResult.setContext,
    OSSetTaskContext, Firmware.store, Firmware.clearBits]

theorem i2cView_register (k : SamHeader) (r : StepResult Firmware) (s : I2C_STATUS) (n : Nat)
    (c : Int) (h : i2cView r = (46, s, n, c)) :
    i2cView (i2cInvoke k r) = (47, s, n, c) := by
  simp only [i2cView, Prod.mk.injEq] at h
  obtain ⟨h1, h2, h3, h4⟩ := h
  simp [i2cView, i2cInvoke, Proce_I2C0_Driver, h1, h2, h3, h4, StepResult.setContext,
    OSSetTaskContext, Firmware.store]

theorem i2cView_byte (k : SamHeader) (r : StepResult Firmware) (s : I2C_STATUS) (n : Nat)
    (c : Int) (h : i2cView r = (47, s, n, c)) (hc : c < (n : Int))
    (hRdy : ∀ i, r.world.hw.input .TWI0_SR i &&& k.TWI_SR_TXRDY ≠ 0) :
    i2cView (i2cInvoke k r) = (47, s, n, c + 1) := by
  simp only [i2cView, Prod.mk.injEq] at h
  obtain ⟨h1, h2, h3, h4⟩ := h
  have hr := hRdy (r.world.hw.reads .TWI0_SR)
  simp [i2cView, i2cInvoke, Proce_I2C0_Driver, h1, h2, h3, h4, StepResult.setContext,
    OSSetTaskContext, Firmware.store, Firmware.poll, Hw.poll, hr, hc]

theorem i2cView_stop (k : SamHeader) (r : StepResult Firmware) (s : I2C_STATUS) (n : Nat)
    (c : Int) (h : i2cView r = (47, s, n, c)) (hc : (n : Int) ≤ c)
    (hRdy : ∀ i, r.world.hw.input .TWI0_SR i &&& k.TWI_SR_TXRDY ≠ 0) :
    i2cView (i2cInvoke k r) = (48, s, n, c) := by
  simp only [i2cView, Prod.mk.injEq] at h
  obtain ⟨h1, h2, h3, h4⟩ := h
  have hr := hRdy (r.world.hw.reads .TWI0_SR)
  have hc2 : ¬ (c < (n : Int)) := by omega
  simp [i2cView, i2cInvoke, Proce_I2C0_Driver, h1, h2, h3, h4, StepResult.setContext,
    OSSetTaskContext, Firmware.store, Firmware.poll, Hw.poll, hr, hc2]

theorem i2cView_complete (k : SamHeader) (r : StepResult Firmware) (s : I2C_STATUS) (n : Nat)
    (c : Int) (h : i2cView r = (48, s, n, c))
    (hCmp : ∀ i, r.world.hw.input .TWI0_SR i &&& k.TWI_SR_TXCOMP ≠ 0) :
    i2cView (i2cInvoke k r) = (49, s, n, c) := by
  simp only [i2cView, Prod.mk.injEq] at h
  obtain ⟨h1, h2, h3, h4⟩ := h
  have hr := hCmp (r.world.hw.reads .TWI0_SR)
  simp [i2cView, i2cInvoke, Proce_I2C0_Driver, h1, h2, h3, h4, StepResult.setContext,
    OSSetTaskContext, Firmware.poll, Hw.poll, hr]

theorem i2cView_tidy (k : SamHeader) (r : StepResult Firmware) (s : I2C_STATUS) (n : Nat)
    (c : Int) (h : i2cView r = (49, s, n, c)) :
    i2cView (i2cInvoke k r) = (1, ⟨false, s.bCommError, s.bRead, false⟩, n, c) := by
  simp only [i2cView, Prod.mk.injEq] at h
  obtain ⟨h1, h2, h3, h4⟩ := h
  simp [i2cView, i2cInvoke, Proce_I2C0_Driver, h1, ← h2, h3, h4, StepResult.setContext,
    OSSetTaskContext]

/-- A send transaction that finds `TXRDY` set at every poll: after the
dispatcher, the address and the register steps, each further invocation
transmits one byte. -/
theorem i2cRun_sending (k : SamHeader) (r : StepResult Firmware) (e : Bool) (n : Nat) (c0 : Int)
    (h : i2cView r = (1, ⟨false, e, false, true⟩, n, c0))
    (hRdy : ∀ i, r.world.hw.input .TWI0_SR i &&& k.TWI_SR_TXRDY ≠ 0) :
    i2cView (i2cRun k 1 r) = (45, ⟨true, e, false, true⟩, n, c0) ∧
    i2cView (i2cRun k 2 r) = (46, ⟨true, e, false, true⟩, n, 0) ∧
    ∀ c : Nat, c ≤ n →
      i2cView (i2cRun k (3 + c) r) = (47, ⟨true, e, false, true⟩, n, (c : Int)) := by
  have s1 : i2cView (i2cRun k 1 r) = (45, ⟨true, e, false, true⟩, n, c0) :=
    i2cView_dispatch k r e n c0 h
  have s2 : i2cView (i2cRun k 2 r) = (46, ⟨true, e, false, true⟩, n, 0) :=
    i2cView_load k _ _ n c0 s1
  refine ⟨s1, s2, ?_⟩
  intro c
  induction c with
  | zero =>
    intro _
    exact i2cView_register k _ _ n 0 s2
  | succ d ih =>
    intro hd
    have hprev := ih (by omega)
    have hstep := i2cView_byte k (i2cRun k (3 + d) r) _ n (d : Int) hprev (by omega)
      (by rw [i2cRun_input]; exact hRdy)
    rw [show 3 + (d + 1) = (3 + d) + 1 from rfl]
    simp only [i2cRun]
    rw [hstep]
    push_cast
    rfl

/-- C21. For an idle I2C descriptor with `bSend = 1` and a byte count `n` (any
`n`, in particular `1 <= n <= 16`), the I2C task in its dispatcher state and
the flags `TXRDY` and `TXCOMP` of `TWI_SR` reading set at every poll:
`bI2CBusy` is 1 after the first invocation and after each of the next `n + 4`,
and the task is not in the dispatcher state after any of them; after `n + 6`
invocations the task is back in the dispatcher state with
`bI2CBusy = 0` and `bSend = 0`; `bCommError` is 0 after every one of these
invocations. -/
theorem C21_send_transaction (k : SamHeader) (r : StepResult Firmware) (n : Nat)
    (hS : r.ctx.nState = 1)
    (hI : r.world.gI2CStat = ⟨false, false, false, true⟩)
    (hN : r.world.gbytI2CByteCount = n)
    (hRdy : ∀ i, r.world.hw.input .TWI0_SR i &&& k.TWI_SR_TXRDY ≠ 0)
    (hCmp : ∀ i, r.world.hw.input .TWI0_SR i &&& k.TWI_SR_TXCOMP ≠ 0) :
    (∀ j : Nat, 1 ≤ j → j ≤ n + 5 →
      (i2cRun k j r).world.gI2CStat.bI2CBusy = true ∧ (i2cRun k j r).ctx.nState ≠ 1) ∧
    (i2cRun k (n + 6) r).ctx.nState = 1 ∧
    (i2cRun k (n + 6) r).world.gI2CStat.bI2CBusy = false ∧
    (i2cRun k (n + 6) r).world.gI2CStat.bSend = false ∧
    (∀ j : Nat, j ≤ n + 6 → (i2cRun k j r).world.gI2CStat.bCommError = false) := by
  have h : i2cView r = (1, ⟨false, false, false, true⟩, n, r.world.i2c_nCount) := by
    simp [i2cView, hS, hI, hN]
  obtain ⟨s1, s2, s3⟩ := i2cRun_sending k r false n _ h hRdy
  have s4 : i2cView (i2cRun k (n + 4) r) = (48, ⟨true, false, false, true⟩, n, (n : Int)) := by
    have hprev := s3 n (le_refl n)
    have hstep := i2cView_stop k (i2cRun k (3 + n) r) _ n (n : Int) hprev (le_refl _)
      (by rw [i2cRun_input]; exact hRdy)
    rw [show n + 4 = (3 + n) + 1 by omega]
    exact hstep
  have s5 : i2cView (i2cRun k (n + 5) r) = (49, ⟨true, false, false, true⟩, n, (n : Int)) :=
    i2cView_complete k (i2cRun k (n + 4) r) _ n (n : Int) s4 (by rw [i2cRun_input]; exact hCmp)
  have s6 : i2cView (i2cRun k (n + 6) r) = (1, ⟨false, false, false, false⟩, n, (n : Int)) :=
    i2cView_tidy k (i2cRun k (n + 5) r) _ n (n : Int) s5
  have stat : ∀ j : Nat, 1 ≤ j → j ≤ n + 5 →
      (i2cRun k j r).world.gI2CStat = ⟨true, false, false, true⟩ ∧
        (i2cRun k j r).ctx.nState ≠ 1 := by
    intro j h1 h2
    have hview : (i2cView (i2cRun k j r)).2.1 = ⟨true, false, false, true⟩ ∧
        (i2cView (i2cRun k j r)).1 ≠ 1 := by
      by_cases e1 : j = 1
      · subst e1; rw [s1]; exact ⟨rfl, show (45 : Int) ≠ 1 by decide⟩
      by_cases e2 : j = 2
      · subst e2; rw [s2]; exact ⟨rfl, show (46 : Int) ≠ 1 by decide⟩
      by_cases e4 : j = n + 4
      · subst e4; rw [s4]; exact ⟨rfl, show (48 : Int) ≠ 1 by decide⟩
      by_cases e5 : j = n + 5
      · subst e5; rw [s5]; exact ⟨rfl, show (49 : Int) ≠ 1 by decide⟩
      have e3 : j = 3 + (j - 3) := by omega
      rw [e3, s3 (j - 3) (by omega)]
      exact ⟨rfl, show (47 : Int) ≠ 1 by decide⟩
    exact hview
  have last : (i2cRun k (n + 6) r).world.gI2CStat = ⟨false, false, false, false⟩ := by
    have hview : (i2cView (i2cRun k (n + 6) r)).2.1 = ⟨false, false, false, false⟩ := by rw [s6]
    exact hview
  refine ⟨?_, ?_, ?_, ?_, ?_⟩
  · intro j h1 h2
    refine ⟨?_, (stat j h1 h2).2⟩
    rw [(stat j h1 h2).1]
  · have hview : (i2cView (i2cRun k (n + 6) r)).1 = 1 := by rw [s6]
    exact hview
  · rw [last]
  · rw [last]
  · intro j hj
    by_cases e0 : j = 0
    · subst e0
      simp [i2cRun, hI]
    by_cases e6 : j = n + 6
    · subst e6; rw [last]
    rw [(stat j (by omega) (by omega)).1]

/-- C21 on a request of one byte with the SAM4S constants and `TWI_SR`
reading `TXRDY | TXCOMP`. -/
theorem C21_witness :
    (sendRequest 1 5).ctx.nState = 1 ∧
    (sendRequest 1 5).world.gI2CStat = ⟨false, false, false, true⟩ ∧
    (sendRequest 1 5).world.gbytI2CByteCount = 1 ∧
    ((∀ j : Nat, 1 ≤ j → j ≤ 1 + 5 →
        (i2cRun sam4s j (sendRequest 1 5)).world.gI2CStat.bI2CBusy = true ∧
          (i2cRun sam4s j (sendRequest 1 5)).ctx.nState ≠ 1) ∧
     (i2cRun sam4s (1 + 6) (sendRequest 1 5)).ctx.nState = 1 ∧
     (i2cRun sam4s (1 + 6) (sendRequest 1 5)).world.gI2CStat.bI2CBusy = false ∧
     (i2cRun sam4s (1 + 6) (sendRequest 1 5)).world.gI2CStat.bSend = false ∧
     (∀ j : Nat, j ≤ 1 + 6 →
        (i2cRun sam4s j (sendRequest 1 5)).world.gI2CStat.bCommError = false)) :=
  ⟨rfl, rfl, rfl,
    C21_send_transaction sam4s (sendRequest 1 5) 1 rfl rfl rfl
      (fun _ => show 5 &&& sam4s.TWI_SR_TXRDY ≠ 0 by decide)
      (fun _ => show 5 &&& sam4s.TWI_SR_TXCOMP ≠ 0 by decide)⟩

/-- C22. With `TWI_SR` reading `NACK | TXRDY | TXCOMP` (0x105) at every poll
during a send request of two bytes, the I2C task runs the transaction as if the
slave had acknowledged: it stores the register address and both data bytes to
`TWI_THR`, is back in the dispatcher state after 8 invocations with `bI2CBusy`
and `bSend` cleared, and `bCommError` is 0 after every invocation.  No step of
the task sets `bCommError`: a step leaves the flag as it was, and state 0
clears it. -/
theorem C22_nack_is_not_detected :
    i2cView (i2cRun sam4s 8 (sendRequest 2 0x105)) = (1, ⟨false, false, false, false⟩, 2, 2) ∧
    thrStores (i2cRun sam4s 8 (sendRequest 2 0x105)).world = [0x1E, 0x68, 0x69] ∧
    (List.range 9).map (fun j => (i2cRun sam4s j (sendRequest 2 0x105)).world.gI2CStat.bCommError)
      = List.replicate 9 false ∧
    (List.range 9).map (fun j => (i2cRun sam4s j (sendRequest 2 0x105)).ctx.nState)
      = [1, 45, 46, 47, 47, 47, 48, 49, 1] ∧
    (∀ (k : SamHeader) (c : TASK_ATTRIBUTE) (w : Firmware),
      (Proce_I2C0_Driver k c w).world.gI2CStat.bCommError =
        if c.nTimer = 0 ∧ c.nState = 0 then false else w.gI2CStat.bCommError) := by
  refine ⟨by decide, by decide, by decide, by decide, ?_⟩
  intro k c w
  by_cases hT : c.nTimer = 0
  swap
  · simp [Proce_I2C0_Driver, hT]
  by_cases h0 : c.nState = 0
  · simp [Proce_I2C0_Driver, hT, h0, StepResult.setContext, i2cInit, Firmware.store,
      Firmware.clearBits, Firmware.orBits]
  have hne : ¬ (c.nTimer = 0 ∧ c.nState = 0) := fun h => h0 h.2
  rw [if_neg hne]
  by_cases h1 : c.nState = 1
  · simp only [Proce_I2C0_Driver, hT, h1, StepResult.setContext]
    norm_num
    split_ifs <;> rfl
  by_cases h45 : c.nState = 45
  · simp [Proce_I2C0_Driver, hT, h45, StepResult.setContext, Firmware.store, Firmware.clearBits]
  by_cases h46 : c.nState = 46
  · simp [Proce_I2C0_Driver, hT, h46, StepResult.setContext, Firmware.store]
  by_cases h47 : c.nState = 47
  · simp only [Proce_I2C0_Driver, hT, h47, StepResult.setContext]
    norm_num
    split_ifs <;> rfl
  by_cases h48 : c.nState = 48
  · simp only [Proce_I2C0_Driver, hT, h48, StepResult.setContext]
    norm_num
    split_ifs <;> rfl
  by_cases h49 : c.nState = 49
  · simp [Proce_I2C0_Driver, hT, h49, StepResult.setContext]
  simp [Proce_I2C0_Driver, hT, h0, h1, h45, h46, h47, h48, h49, StepResult.setContext]

/-- C24. A receive request made as the driver documents it (idle descriptor,
byte count 1, register `0x30`, slave `0x1E`, `bRead = 1`), with every register
reading `0x5A`: the dispatcher sends the task to state 30, which the switch does
not handle, so the task falls to the default case, is initialised again in
state 0 (which stores 0 into `gbytI2CRXbuf[0]` and clears `bRead`) and clears
`bI2CBusy` in state 49.  After these 4 invocations `bRead` and `bI2CBusy` are
cleared, `gbytI2CRXbuf[0]` is 0 and not `0x5A`, and no register has been
read. -/
theorem C24_receive_stores_no_byte :
    (List.range 5).map (fun j => (i2cRun sam4s j receiveRequest).ctx.nState) = [1, 30, 0, 49, 1] ∧
    (i2cRun sam4s 4 receiveRequest).world.gI2CStat = ⟨false, false, false, false⟩ ∧
    (i2cRun sam4s 4 receiveRequest).world.gbytI2CRXbuf 0 = 0 ∧
    receiveRequest.world.hw.input Reg.TWI0_SR 0 = 0x5A ∧
    (i2cRun sam4s 4 receiveRequest).world.hw.reads = receiveRequest.world.hw.reads ∧
    (∀ (k : SamHeader) (id : Int) (w : Firmware),
      Proce_I2C0_Driver k ⟨id, 30, 0⟩ w = ⟨⟨id, 0, 1⟩, w, 1⟩) ∧
    (∀ (k : SamHeader) (id : Int) (w : Firmware),
      (Proce_I2C0_Driver k ⟨id, 0, 0⟩ w).world.gbytI2CRXbuf 0 = 0) := by
  refine ⟨by decide, by decide, by decide, by decide, rfl, ?_, ?_⟩
  · intro k id w
    rfl
  · intro k id w
    rfl

theorem pixelStep_gI2CStat (w : Firmware) (c : Int) (loc : LineLocals) :
    (pixelStep w c loc).1.gI2CStat = w.gI2CStat := rfl

theorem lineLoop_gI2CStat (w : Firmware) (loc : LineLocals) (n : Nat) :
    (lineLoop w loc n).1.gI2CStat = w.gI2CStat := by
  induction n with
  | zero => rfl
  | succ m ih =>
    simp only [lineLoop]
    rw [pixelStep_gI2CStat, ih]

theorem camLineDone_gI2CStat (k : SamHeader) (loc : LineLocals) (w : Firmware) :
    (camLineDone k loc w).gI2CStat = w.gI2CStat := by
  unfold camLineDone
  simp only []
  rw [lineLoop_gI2CStat]
  rfl

/-- No step of the camera task writes `bI2CBusy`, `bCommError` or `bRead`. -/
theorem camera_keeps_busy (k : SamHeader) (loc : LineLocals) (c : TASK_ATTRIBUTE) (w : Firmware) :
    (Proce_TCM8230_Driver k loc c w).world.gI2CStat.bI2CBusy = w.gI2CStat.bI2CBusy := by
  by_cases hT : c.nTimer = 0
  swap
  · simp [Proce_TCM8230_Driver, hT]
  by_cases h0 : c.nState = 0
  · simp [Proce_TCM8230_Driver, hT, h0, StepResult.setContext, camInit, camArmDma,
      Firmware.store, Firmware.clearBits, Firmware.orBits]
  by_cases h1 : c.nState = 1
  · simp [Proce_TCM8230_Driver, hT, h1, StepResult.setContext, camClock, Firmware.store]
  by_cases h2 : c.nState = 2
  · simp [Proce_TCM8230_Driver, hT, h2, StepResult.setContext, Firmware.store, Firmware.orBits]
  by_cases h3 : c.nState = 3
  · simp only [Proce_TCM8230_Driver, hT, h3, StepResult.setContext]
    norm_num
    split_ifs <;> rfl
  by_cases h4 : c.nState = 4
  · simp only [Proce_TCM8230_Driver, hT, h4, StepResult.setContext]
    norm_num
    split_ifs <;> rfl
  by_cases h5 : c.nState = 5
  · simp only [Proce_TCM8230_Driver, hT, h5, StepResult.setContext]
    norm_num
    split_ifs <;> rfl
  by_cases h6 : c.nState = 6
  · simp only [Proce_TCM8230_Driver, hT, h6, StepResult.setContext]
    norm_num
    split_ifs <;> rfl
  by_cases h7 : c.nState = 7
  · simp only [Proce_TCM8230_Driver, hT, h7, StepResult.setContext]
    norm_num
    split_ifs <;> rfl
  by_cases h8 : c.nState = 8
  · simp only [Proce_TCM8230_Driver, hT, h8, StepResult.setContext]
    norm_num
    split_ifs <;> first | rfl | exact congrArg I2C_STATUS.bI2CBusy (camLineDone_gI2CStat k loc _)
  by_cases h9 : c.nState = 9
  · simp [Proce_TCM8230_Driver, hT, h9, StepResult.setContext]
  simp [Proce_TCM8230_Driver, hT, h0, h1, h2, h3, h4, h5, h6, h7, h8, h9, StepResult.setContext]

/-- C23, as stated, fails. The camera task in state 3 on an idle descriptor
issues its request, and when the step returns `bSend` is 1 and `bI2CBusy` is
still 0. -/
theorem C23_counterexample_busy_clear_after_request :
    (Proce_TCM8230_Driver sam4s someLocals ⟨5, 3, 0⟩
      (resetFirmware 160 120 0 (fun _ => 0) (fun _ => 0))).world.gI2CStat =
      ⟨false, false, false, true⟩ ∧
    (Proce_TCM8230_Driver sam4s someLocals ⟨5, 3, 0⟩
      (resetFirmware 160 120 0 (fun _ => 0) (fun _ => 0))).ctx = ⟨5, 4, 30⟩ := by
  decide

/-- C23, amended. A register-programming step of the camera task (state 3, 4
or 5) that finds `bI2CBusy = 0` populates the descriptor (one byte for the
slave `_CAMERA_I2C2_ADD`) and raises `bSend`, and `bI2CBusy` is still 0 when
it returns; the flag is set by the I2C task, in its dispatcher state, when it
finds the request.  No step of the camera task writes `bI2CBusy`, in any state;
state 49 of the I2C task clears it. -/
theorem C23_busy_set_by_driver (k : SamHeader) (loc : LineLocals) (cc ci : TASK_ATTRIBUTE)
    (w : Firmware) (hT : cc.nTimer = 0)
    (hS : cc.nState = 3 ∨ cc.nState = 4 ∨ cc.nState = 5)
    (hB : w.gI2CStat.bI2CBusy = false) (hTi : ci.nTimer = 0) (hSi : ci.nState = 1) :
    (Proce_TCM8230_Driver k loc cc w).world.gI2CStat.bSend = true ∧
    (Proce_TCM8230_Driver k loc cc w).world.gI2CStat.bI2CBusy = false ∧
    (Proce_TCM8230_Driver k loc cc w).world.gbytI2CByteCount = 1 ∧
    (Proce_TCM8230_Driver k loc cc w).world.gbytI2CSlaveAdd = _CAMERA_I2C2_ADD ∧
    (Proce_I2C0_Driver k ci (Proce_TCM8230_Driver k loc cc w).world).world.gI2CStat.bI2CBusy
      = true ∧
    (∀ (loc2 : LineLocals) (c2 : TASK_ATTRIBUTE) (w2 : Firmware),
      (Proce_TCM8230_Driver k loc2 c2 w2).world.gI2CStat.bI2CBusy = w2.gI2CStat.bI2CBusy) ∧
    (∀ (id : Int) (w2 : Firmware),
      (Proce_I2C0_Driver k ⟨id, 49, 0⟩ w2).world.gI2CStat.bI2CBusy = false) := by
  have hreq : (Proce_TCM8230_Driver k loc cc w).world.gI2CStat.bSend = true ∧
      (Proce_TCM8230_Driver k loc cc w).world.gbytI2CByteCount = 1 ∧
      (Proce_TCM8230_Driver k loc cc w).world.gbytI2CSlaveAdd = _CAMERA_I2C2_ADD := by
    rcases hS with h | h | h <;>
      simp [Proce_TCM8230_Driver, hT, h, hB, StepResult.setContext, camRequest]
  have hbusy : (Proce_TCM8230_Driver k loc cc w).world.gI2CStat.bI2CBusy = false := by
    rw [camera_keeps_busy, hB]
  refine ⟨hreq.1, hbusy, hreq.2.1, hreq.2.2, ?_, ?_, ?_⟩
  · simp only [Proce_I2C0_Driver, hTi, hSi, StepResult.setContext]
    norm_num
    split_ifs with a b
    · rfl
    · rfl
    · exact absurd hreq.1 b
  · intro loc2 c2 w2
    exact camera_keeps_busy k loc2 c2 w2
  · intro id w2
    rfl

/-- C23 amended, on the camera task in state 3 and the I2C task in its
dispatcher state, with an idle descriptor. -/
theorem C23_witness :
    (⟨5, 3, 0⟩ : TASK_ATTRIBUTE).nTimer = 0 ∧
    (resetFirmware 160 120 0 (fun _ => 0) (fun _ => 0)).gI2CStat.bI2CBusy = false ∧
    (Proce_TCM8230_Driver sam4s someLocals ⟨5, 3, 0⟩
      (resetFirmware 160 120 0 (fun _ => 0) (fun _ => 0))).world.gI2CStat.bSend = true ∧
    (Proce_TCM8230_Driver sam4s someLocals ⟨5, 3, 0⟩
      (resetFirmware 160 120 0 (fun _ => 0) (fun _ => 0))).world.gI2CStat.bI2CBusy = false ∧
    (Proce_I2C0_Driver sam4s ⟨2, 1, 0⟩ (Proce_TCM8230_Driver sam4s someLocals ⟨5, 3, 0⟩
      (resetFirmware 160 120 0 (fun _ => 0) (fun _ => 0))).world).world.gI2CStat.bI2CBusy
      = true :=
  have h := C23_busy_set_by_driver sam4s someLocals ⟨5, 3, 0⟩ ⟨2, 1, 0⟩
    (resetFirmware 160 120 0 (fun _ => 0) (fun _ => 0)) rfl (Or.inl rfl) rfl rfl rfl
  ⟨rfl, rfl, h.1, h.2.1, h.2.2.2.2.1⟩

/-! ### Luminance, hue and gradient against the references -/

theorem Max_eq_max (a b : Int) : Max a b = max a b := by
  unfold Max
  split_ifs <;> omega

theorem Min_eq_min (a b : Int) : Min a b = min a b := by
  unfold Min
  split_ifs <;> omega

/-- C26. For every pixel (any `nR5`, `nG6`, `nB5`, whatever the local `nHue`
held before), the hue the line-processing step computes equals the reference
`hueReference`: with `R6 = 2*R5`, `B6 = 2*B5`, `D = max - min` over
`(R6, G6, B6)`, it is 400 or 420 when `D < 5` (400 when `max < 13`), and else
`h` or `h + 360` (when `h < 0`) for the sector formula with the truncating
division of C. -/
theorem C26_hue_matches_reference (nR5 nG6 nB5 : Nat) (nHue : Int) :
    hueOf nR5 nG6 nB5 nHue = hueReference nR5 nG6 nB5 := by
  have hR : ((nR5 <<< 1 : Nat) : Int) = 2 * (nR5 : Int) := by
    rw [Nat.shiftLeft_eq]
    push_cast
    ring
  have hB : ((nB5 <<< 1 : Nat) : Int) = 2 * (nB5 : Int) := by
    rw [Nat.shiftLeft_eq]
    push_cast
    ring
  unfold hueOf hueReference
  simp only [hR, hB, Max_eq_max, Min_eq_min, _NO_HUE_DARK, _NO_HUE_BRIGHT]
  generalize 2 * (nR5 : Int) = r
  generalize (nG6 : Int) = g
  generalize 2 * (nB5 : Int) = b
  by_cases hD : max r (max g b) - min r (min g b) < 5
  · simp only [hD, if_true]
  · simp only [hD, if_false]
    by_cases h1 : r = max r (max g b)
    · simp only [← h1, if_true]
      split_ifs <;> omega
    · by_cases h2 : g = max r (max g b)
      · simp only [h1, ← h2, if_true, if_false]
        split_ifs <;> omega
      · have h3 : b = max r (max g b) := by omega
        simp only [h1, h2, ← h3, if_true, if_false]
        split_ifs <;> omega

/-- C25. With `gnLuminanceMode = 3`, a mode other than 0, 1 and 2, the
luminance of the pure blue pixel `(0, 0, 31)` is 0 and that of the pure red
pixel `(31, 0, 0)` is 124: the last branch computes `4*R5`, not the `4*B5` of
the header.  The line-processing step stores luminance 0 for the blue sample
`0x1F00`.  For every mode and pixel the luminance is `4*R5` in mode 1, `2*G6`
in mode 2 and `4*R5` in every mode other than 0, 1 and 2. -/
theorem C25_other_modes_use_red :
    luminanceOf 3 0 0 31 = 0 ∧ luminanceOf 3 31 0 0 = 124 ∧
    decodeSample 0x1F00 = (0, 0, 31) ∧
    (pixelStep { (resetFirmware 160 120 0 (fun _ => 0x1F00) (fun _ => 0)) with
        gnLuminanceMode := 3, nLineCounter := 1 } 0 someLocals).1.gunImgAtt 0 1 &&&
      _LUMINANCE_MASK = 0 ∧
    (∀ (m : Int) (nR5 nG6 nB5 : Nat), luminanceOf m nR5 nG6 nB5 =
      if m = 0 then (4 * nR5 + 5 * nG6 + 2 * nB5) / 4
      else if m = 1 then 4 * nR5 else if m = 2 then 2 * nG6 else 4 * nR5) := by
  refine ⟨by decide, by decide, by decide, by decide, ?_⟩
  intro m r g b
  unfold luminanceOf
  simp only [Nat.shiftLeft_eq, Nat.shiftRight_eq_div_pow]
  split_ifs <;> omega

/-- C27. With `L4 = 10` and the other seven luminances 0, the reference gives
`gx = 20` and `gy = 0`, magnitude 20; the code gives 20 for both terms and the
gradient 40: line 569 builds `nLumGrady` from `nLumGradx`, so for every
neighbourhood the x term is `|gx|` and the y term is `|gx + 2*(L8 - L7)|`,
which depends on `L3` and `L4` and not on the corner sum of line 568. -/
theorem C27_y_gradient_built_from_x :
    gradientTerms 0 0 0 10 0 0 0 0 = (20, 20) ∧
    gradientReference 0 0 0 10 0 0 0 0 = (20, 0) ∧
    (gradientOf edgeImage 2 2 0 someLocals.grad).1 = 40 ∧
    clampGradient |(gradientReference 0 0 0 10 0 0 0 0).1| |(gradientReference 0 0 0 10 0 0 0 0).2|
      = 20 ∧
    (∀ L1 L2 L3 L4 L5 L6 L7 L8 : Int,
      (gradientTerms L1 L2 L3 L4 L5 L6 L7 L8).1 = |(gradientReference L1 L2 L3 L4 L5 L6 L7 L8).1| ∧
      (gradientTerms L1 L2 L3 L4 L5 L6 L7 L8).2 =
        |(gradientReference L1 L2 L3 L4 L5 L6 L7 L8).1 + 2 * (L8 - L7)|) := by
  refine ⟨by decide, by decide, by decide, by decide, ?_⟩
  intro L1 L2 L3 L4 L5 L6 L7 L8
  unfold gradientTerms gradientReference
  simp only []
  constructor
  · split_ifs with h
    · rw [abs_of_neg (by omega)]
      omega
    · rw [abs_of_nonneg (by omega)]
      omega
  · split_ifs with h
    · rw [abs_of_neg (by omega)]
      omega
    · rw [abs_of_nonneg (by omega)]
      omega

/-- C30. For `nR5` in `0 .. 31`, `nG6` in `0 .. 63`, `nB5` in `0 .. 31` and
`gnLuminanceMode = 0`, the luminance
`((R5<<2) + (G6<<2) + (B5<<1) + G6) >> 2` of the code equals the weighted form
`(2*(R5<<1) + 5*G6 + (B5<<1)) >> 2`, that is the quotient of
`2*R6 + 5*G6 + B6` by 4 with `R6 = 2*R5` and `B6 = 2*B5`, and is at most
127. -/
theorem C30_luminance_weighted_form (nR5 nG6 nB5 : Nat) (hR : nR5 ≤ 31) (hG : nG6 ≤ 63)
    (hB : nB5 ≤ 31) :
    luminanceOf 0 nR5 nG6 nB5 = (2 * (nR5 <<< 1) + 5 * nG6 + (nB5 <<< 1)) >>> 2 ∧
    luminanceOf 0 nR5 nG6 nB5 = (2 * (2 * nR5) + 5 * nG6 + 2 * nB5) / 4 ∧
    luminanceOf 0 nR5 nG6 nB5 ≤ 127 := by
  unfold luminanceOf
  simp only [Nat.shiftLeft_eq, Nat.shiftRight_eq_div_pow, if_true]
  refine ⟨?_, ?_, ?_⟩ <;> omega

/-- C30 on the brightest pixel `(31, 63, 31)`. -/
theorem C30_witness :
    31 ≤ 31 ∧ 63 ≤ 63 ∧
    (luminanceOf 0 31 63 31 = (2 * (31 <<< 1) + 5 * 63 + (31 <<< 1)) >>> 2 ∧
     luminanceOf 0 31 63 31 = (2 * (2 * 31) + 5 * 63 + 2 * 31) / 4 ∧
     luminanceOf 0 31 63 31 ≤ 127) :=
  ⟨by decide, by decide,
    C30_luminance_weighted_form 31 63 31 (by decide) (by decide) (by decide)⟩

/-! ### Decoding of a sample -/

theorem and_FF00 (y : Nat) : y &&& 0xFF00 = (y / 256 % 256) * 256 := by
  apply Nat.eq_of_testBit_eq
  intro i
  have hm : (0xFF00 : Nat) = (2 ^ 8 - 1) <<< 8 := by decide
  have e : (y / 256 % 256) * 256 = ((y >>> 8) % 2 ^ 8) <<< 8 := by
    rw [Nat.shiftLeft_eq, Nat.shiftRight_eq_div_pow]
    norm_num
  rw [e, hm]
  simp only [Nat.testBit_and, Nat.testBit_shiftLeft, Nat.testBit_two_pow_sub_one,
    Nat.testBit_mod_two_pow, Nat.testBit_shiftRight]
  by_cases h8 : 8 ≤ i
  · have : 8 + (i - 8) = i := by omega
    simp [h8, this, Bool.and_comm]
  · simp [h8]

theorem and_low (y n : Nat) : y &&& (2 ^ n - 1) = y % 2 ^ n :=
  Nat.and_pow_two_sub_one_eq_mod y n

theorem asr32_low_byte (u : Nat) : asr32 u 8 &&& 0xFF = u / 256 % 256 := by
  have hm : (0xFF : Nat) = 2 ^ 8 - 1 := by decide
  unfold asr32
  split_ifs with h
  · rw [hm, and_low, Nat.shiftRight_eq_div_pow]
    norm_num
  · rw [Nat.and_comm, Nat.and_or_distrib_left]
    have z : 0xFF &&& (2 ^ 32 - 2 ^ (32 - 8)) = 0 := by decide
    rw [z, Nat.or_zero, Nat.and_comm, hm, and_low, Nat.shiftRight_eq_div_pow]
    norm_num

theorem toWord_spec (x : Int) :
    ((toWord x : Nat) : Int) = x % 4294967296 ∧ toWord x < 4294967296 := by
  unfold toWord
  have h1 : 0 ≤ x % 2 ^ 32 := Int.emod_nonneg x (by norm_num)
  have h2 : x % 2 ^ 32 < 2 ^ 32 := Int.emod_lt_of_pos x (by norm_num)
  norm_num at h1 h2 ⊢
  omega

/-- The decoded components are the three fields of the byte-swapped sample. -/
theorem decodeSample_eq (x : Int) :
    decodeSample x = (byteSwap16 x / 2048 % 32, byteSwap16 x / 32 % 64, byteSwap16 x % 32) := by
  obtain ⟨hu, hlt⟩ := toWord_spec x
  have hv : byteSwap16 x = (toWord x % 256) * 256 + toWord x / 256 % 256 := by
    unfold byteSwap16
    simp only []
    omega
  have m1 : (0x1F : Nat) = 2 ^ 5 - 1 := by decide
  have m2 : (0x3F : Nat) = 2 ^ 6 - 1 := by decide
  have m3 : (0x01F : Nat) = 2 ^ 5 - 1 := by decide
  have hs : shl32 (toWord x) 8 &&& 0xFF00 = (toWord x % 256) * 256 := by
    rw [and_FF00]
    unfold shl32
    rw [Nat.shiftLeft_eq]
    omega
  unfold decodeSample
  simp only []
  rw [hs, asr32_low_byte, ← hv, m1, m2, and_low, and_low, and_low, Nat.shiftRight_eq_div_pow,
    Nat.shiftRight_eq_div_pow]
  norm_num

theorem byteSwap16_lt (x : Int) : byteSwap16 x < 65536 := by
  unfold byteSwap16
  simp only []
  have h1 : 0 ≤ x % 65536 := Int.emod_nonneg x (by norm_num)
  have h2 : x % 65536 < 65536 := Int.emod_lt_of_pos x (by norm_num)
  omega

/-- C29. For every raw sample `x` of the line buffer (any `int`, in particular
a sign-extended 16-bit value), the decoded components satisfy `R5 < 32`,
`G6 < 64`, `B5 < 32`, and `(R5 << 11) | (G6 << 5) | B5` is the 16-bit word
obtained by swapping the two bytes of the low 16 bits of `x`; adding a multiple
of `2^16` to `x`, that is changing the bits above bit 15, does not change the
result. -/
theorem C29_decode_is_byte_swap (x : Int) :
    (decodeSample x).1 < 32 ∧ (decodeSample x).2.1 < 64 ∧ (decodeSample x).2.2 < 32 ∧
    ((decodeSample x).1 <<< 11) ||| ((decodeSample x).2.1 <<< 5) ||| (decodeSample x).2.2 =
      byteSwap16 x ∧
    (∀ t : Int, decodeSample (x + 65536 * t) = decodeSample x) := by
  have hlt := byteSwap16_lt x
  rw [decodeSample_eq]
  simp only []
  refine ⟨by omega, by omega, by omega, ?_, ?_⟩
  · have o1 : 2 ^ 5 * (byteSwap16 x / 32 % 64) + byteSwap16 x % 32 =
        2 ^ 5 * (byteSwap16 x / 32 % 64) ||| byteSwap16 x % 32 :=
      Nat.mul_add_lt_is_or (by omega) _
    have o2 : 2 ^ 11 * (byteSwap16 x / 2048 % 32) +
          (2 ^ 5 * (byteSwap16 x / 32 % 64) + byteSwap16 x % 32) =
        2 ^ 11 * (byteSwap16 x / 2048 % 32) |||
          (2 ^ 5 * (byteSwap16 x / 32 % 64) + byteSwap16 x % 32) :=
      Nat.mul_add_lt_is_or (by omega) _
    rw [Nat.shiftLeft_eq, Nat.shiftLeft_eq, Nat.or_assoc, Nat.mul_comm _ (2 ^ 11),
      Nat.mul_comm _ (2 ^ 5), ← o1, ← o2]
    omega
  · intro t
    have hb : byteSwap16 (x + 65536 * t) = byteSwap16 x := by
      unfold byteSwap16
      rw [Int.add_mul_emod_self_left]
    rw [decodeSample_eq, hb]

/-! ### The delayed write-back of the gradient -/

/-- A field selected by a mask of `b` ones shifted by `a` is the quotient by
`2 ^ a` reduced modulo `2 ^ b`. -/
theorem unpackField_eq (w a b : Nat) :
    unpackField ((2 ^ b - 1) <<< a) a w = w / 2 ^ a % 2 ^ b := by
  unfold unpackField
  rw [← Nat.shiftRight_eq_div_pow]
  apply Nat.eq_of_testBit_eq
  intro i
  simp only [Nat.testBit_shiftRight, Nat.testBit_and, Nat.testBit_shiftLeft,
    Nat.testBit_two_pow_sub_one, Nat.testBit_mod_two_pow]
  have h1 : a + i ≥ a := by omega
  have h2 : a + i - a = i := by omega
  simp [h1, h2, Bool.and_comm]

/-- The word a pixel step stores for its own pixel has no bit at or above
bit 23. -/
theorem pixelWord_lt (mode sample nHue : Int) :
    pixelWord
      (luminanceOf mode (decodeSample sample).1 (decodeSample sample).2.1 (decodeSample sample).2.2)
      (saturationOf (decodeSample sample).1 (decodeSample sample).2.1 (decodeSample sample).2.2)
      (hueOf (decodeSample sample).1 (decodeSample sample).2.1 (decodeSample sample).2.2 nHue)
      < 2 ^ 23 := by
  obtain ⟨hr, hg, hb⟩ := decodeSample_range sample
  generalize (decodeSample sample).1 = r at *
  generalize (decodeSample sample).2.1 = g at *
  generalize (decodeSample sample).2.2 = b at *
  have hlum := luminanceOf_le mode r g b hr hg hb
  have hsat := saturationOf_range r g b hr hg hb
  have hhue : 0 ≤ hueOf r g b nHue ∧ hueOf r g b nHue ≤ 420 := by
    rcases hueOf_range r g b nHue with h | h | h
    · omega
    · rw [h]; decide
    · rw [h]; decide
  generalize luminanceOf mode r g b = lum at *
  obtain ⟨hN, hNe⟩ := Int.eq_ofNat_of_zero_le hhue.1
  obtain ⟨sN, sNe⟩ := Int.eq_ofNat_of_zero_le hsat.1
  have hv := packed_value lum hN sN 0 (by omega) (by omega) (by omega) (by omega)
  rw [Nat.cast_zero, writeBackGradient_zero] at hv
  rw [hNe, sNe, hv]
  omega

/-- The write-back of a gradient into a word without bits at or above bit 23
adds the gradient at bit 23. -/
theorem writeBackGradient_add (old : Nat) (g : Int) (h0 : 0 ≤ g) (h1 : g ≤ 127)
    (hold : old < 2 ^ 23) :
    writeBackGradient old g = old + 2 ^ 23 * g.toNat := by
  obtain ⟨gN, gNe⟩ := Int.eq_ofNat_of_zero_le h0
  subst gNe
  have e3 : shl32 (toWord (gN : Int)) _GRAD_SHIFT = 2 ^ 23 * gN := by
    rw [toWord_ofNat gN (by omega)]
    unfold shl32 _GRAD_SHIFT
    rw [Nat.shiftLeft_eq, Nat.mod_eq_of_lt (by omega)]
    ring
  unfold writeBackGradient
  rw [e3, Int.toNat_ofNat, Nat.or_comm, ← Nat.mul_add_lt_is_or hold gN]
  omega

theorem lineLoop_nLineCounter (w : Firmware) (loc : LineLocals) (n : Nat) :
    (lineLoop w loc n).1.nLineCounter = w.nLineCounter := by
  induction n with
  | zero => rfl
  | succ m ih =>
    simp only [lineLoop]
    exact ih

/-- A pixel step changes two cells of the frame buffer at most. -/
theorem pixelStep_cell_other (w : Firmware) (c : Int) (loc : LineLocals) (x y : Int)
    (h1 : ¬ (x = c ∧ y = w.nLineCounter)) (h2 : ¬ (x = c - 1 ∧ y = w.nLineCounter - 1)) :
    (pixelStep w c loc).1.gunImgAtt x y = w.gunImgAtt x y := by
  simp only [pixelStep, setAt2]
  rw [if_neg h2, if_neg h1]

theorem pixelStep_cell_self (w : Firmware) (c : Int) (loc : LineLocals) :
    (pixelStep w c loc).1.gunImgAtt c w.nLineCounter < 2 ^ 23 := by
  have h : ¬ (c = c - 1 ∧ w.nLineCounter = w.nLineCounter - 1) := by omega
  simp only [pixelStep, setAt2]
  rw [if_neg h]
  simp only [and_self, if_true]
  exact pixelWord_lt _ _ _

theorem pixelStep_cell_behind (w : Firmware) (c : Int) (loc : LineLocals) :
    (pixelStep w c loc).1.gunImgAtt (c - 1) (w.nLineCounter - 1) =
      writeBackGradient (w.gunImgAtt (c - 1) (w.nLineCounter - 1)) (pixelGradient w c loc) := by
  have h : ¬ (c - 1 = c ∧ w.nLineCounter - 1 = w.nLineCounter) := by omega
  simp only [pixelStep, setAt2, pixelGradient]
  simp only [and_self, if_true, if_neg h]

/-- The columns `m .. n - 1` of a line pass change only the cells `m .. n - 1`
of the row of the line and the cells `m - 1 .. n - 2` of the row before. -/
theorem lineLoop_cells_between (w : Firmware) (loc : LineLocals) (m n : Nat) (hmn : m ≤ n)
    (x y : Int)
    (h1 : ¬ (y = w.nLineCounter ∧ (m : Int) ≤ x ∧ x < (n : Int)))
    (h2 : ¬ (y = w.nLineCounter - 1 ∧ (m : Int) - 1 ≤ x ∧ x < (n : Int) - 1)) :
    (lineLoop w loc n).1.gunImgAtt x y = (lineLoop w loc m).1.gunImgAtt x y := by
  induction n, hmn using Nat.le_induction with
  | base => rfl
  | succ j hj ih =>
    simp only [lineLoop]
    rw [pixelStep_cell_other]
    · apply ih
      · push_cast at h1
        omega
      · push_cast at h2
        omega
    · rw [lineLoop_nLineCounter]
      push_cast at h1
      omega
    · rw [lineLoop_nLineCounter]
      push_cast at h2
      omega

/-- After the columns `0 .. n - 1` of a line pass the cells of these columns in
the row of the line hold words without bits at or above bit 23. -/
theorem lineLoop_written_lt (w : Firmware) (loc : LineLocals) (n : Nat) (x : Int)
    (h0 : 0 ≤ x) (h1 : x < (n : Int)) :
    (lineLoop w loc n).1.gunImgAtt x w.nLineCounter < 2 ^ 23 := by
  induction n with
  | zero => simp at h1; omega
  | succ j ih =>
    simp only [lineLoop]
    by_cases hx : x = (j : Int)
    · subst hx
      have h := pixelStep_cell_self (lineLoop w loc j).1 (j : Int) (lineLoop w loc j).2
      rw [lineLoop_nLineCounter] at h
      exact h
    · rw [pixelStep_cell_other]
      · apply ih
        push_cast at h1
        omega
      · rw [lineLoop_nLineCounter]
        omega
      · rw [lineLoop_nLineCounter]
        omega

theorem lineLoop_gnImageWidth (w : Firmware) (loc : LineLocals) (n : Nat) :
    (lineLoop w loc n).1.gnImageWidth = w.gnImageWidth := by
  induction n with
  | zero => rfl
  | succ m ih =>
    simp only [lineLoop]
    exact ih

/-- C28. In a frame, when the line pass that follows a completed line pass
(line counter `L = nLineCounter + 2` of the state `w0` before the two passes,
so `L >= 2` from the frame-sync transition on) decodes the pixel at a column
`c >= 1` of the image, it ORs the gradient it computed, shifted to bit 23, into
`gunImgAtt[c-1][L-1]`; that word was stored by the previous pass and has no
bit at or above bit 23, so the gradient field of the word then equals the
computed gradient, the luminance, hue and saturation fields and all the bits
22 to 0 are unchanged, and the rest of the pass leaves the word as it is. -/
theorem C28_gradient_written_one_behind (k : SamHeader) (loc0 loc : LineLocals) (w0 : Firmware)
    (line : Int → Int) (c : Nat) (hc1 : 1 ≤ c) (hcw : (c : Int) < w0.gnImageWidth) :
    (nextLineBefore k loc0 loc w0 line c).1.nLineCounter = w0.nLineCounter + 2 ∧
    (pixelStep (nextLineBefore k loc0 loc w0 line c).1 c
        (nextLineBefore k loc0 loc w0 line c).2).1.gunImgAtt ((c : Int) - 1)
        (w0.nLineCounter + 1) =
      writeBackGradient
        ((nextLineBefore k loc0 loc w0 line c).1.gunImgAtt ((c : Int) - 1) (w0.nLineCounter + 1))
        (pixelGradient (nextLineBefore k loc0 loc w0 line c).1 c
          (nextLineBefore k loc0 loc w0 line c).2) ∧
    ((unpackField _GRAD_MASK _GRAD_SHIFT
        ((pixelStep (nextLineBefore k loc0 loc w0 line c).1 c
          (nextLineBefore k loc0 loc w0 line c).2).1.gunImgAtt ((c : Int) - 1)
          (w0.nLineCounter + 1)) : Nat) : Int) =
      pixelGradient (nextLineBefore k loc0 loc w0 line c).1 c
        (nextLineBefore k loc0 loc w0 line c).2 ∧
    unpackField _LUMINANCE_MASK _LUMINANCE_SHIFT
        ((pixelStep (nextLineBefore k loc0 loc w0 line c).1 c
          (nextLineBefore k loc0 loc w0 line c).2).1.gunImgAtt ((c : Int) - 1)
          (w0.nLineCounter + 1)) =
      unpackField _LUMINANCE_MASK _LUMINANCE_SHIFT
        ((nextLineBefore k loc0 loc w0 line c).1.gunImgAtt ((c : Int) - 1)
          (w0.nLineCounter + 1)) ∧
    unpackField _HUE_MASK _HUE_SHIFT
        ((pixelStep (nextLineBefore k loc0 loc w0 line c).1 c
          (nextLineBefore k loc0 loc w0 line c).2).1.gunImgAtt ((c : Int) - 1)
          (w0.nLineCounter + 1)) =
      unpackField _HUE_MASK _HUE_SHIFT
        ((nextLineBefore k loc0 loc w0 line c).1.gunImgAtt ((c : Int) - 1)
          (w0.nLineCounter + 1)) ∧
    unpackField _SAT_MASK _SAT_SHIFT
        ((pixelStep (nextLineBefore k loc0 loc w0 line c).1 c
          (nextLineBefore k loc0 loc w0 line c).2).1.gunImgAtt ((c : Int) - 1)
          (w0.nLineCounter + 1)) =
      unpackField _SAT_MASK _SAT_SHIFT
        ((nextLineBefore k loc0 loc w0 line c).1.gunImgAtt ((c : Int) - 1)
          (w0.nLineCounter + 1)) ∧
    (pixelStep (nextLineBefore k loc0 loc w0 line c).1 c
        (nextLineBefore k loc0 loc w0 line c).2).1.gunImgAtt ((c : Int) - 1)
        (w0.nLineCounter + 1) % 2 ^ 23 =
      (nextLineBefore k loc0 loc w0 line c).1.gunImgAtt ((c : Int) - 1) (w0.nLineCounter + 1) ∧
    (camLineDone k loc { camLineDone k loc0 w0 with gn16Pixel := line }).gunImgAtt
        ((c : Int) - 1) (w0.nLineCounter + 1) =
      (pixelStep (nextLineBefore k loc0 loc w0 line c).1 c
        (nextLineBefore k loc0 loc w0 line c).2).1.gunImgAtt ((c : Int) - 1)
        (w0.nLineCounter + 1) := by
  -- the state between the two passes
  have hw1L : (camLineDone k loc0 w0).nLineCounter = w0.nLineCounter + 1 := by
    unfold camLineDone
    simp only []
    rw [lineLoop_nLineCounter]
    rfl
  have hw1W : (camLineDone k loc0 w0).gnImageWidth = w0.gnImageWidth := by
    unfold camLineDone
    simp only []
    rw [lineLoop_gnImageWidth]
    rfl
  have hw1cell : (camLineDone k loc0 w0).gunImgAtt ((c : Int) - 1) (w0.nLineCounter + 1)
      < 2 ^ 23 := by
    have h := lineLoop_written_lt (camLineStart k w0) loc0 w0.gnImageWidth.toNat ((c : Int) - 1)
      (by omega) (by omega)
    exact h
  have entryL : (camLineStart k { camLineDone k loc0 w0 with gn16Pixel := line }).nLineCounter
      = w0.nLineCounter + 2 := by
    show (camLineDone k loc0 w0).nLineCounter + 1 = w0.nLineCounter + 2
    rw [hw1L]
    omega
  have sL : (nextLineBefore k loc0 loc w0 line c).1.nLineCounter = w0.nLineCounter + 2 := by
    unfold nextLineBefore
    rw [lineLoop_nLineCounter, entryL]
  have scell : (nextLineBefore k loc0 loc w0 line c).1.gunImgAtt ((c : Int) - 1)
      (w0.nLineCounter + 1) =
      (camLineDone k loc0 w0).gunImgAtt ((c : Int) - 1) (w0.nLineCounter + 1) := by
    unfold nextLineBefore
    rw [lineLoop_cells_between _ loc 0 c (Nat.zero_le c)]
    · rfl
    · rw [entryL]
      omega
    · rw [entryL]
      omega
  have hbehind := pixelStep_cell_behind (nextLineBefore k loc0 loc w0 line c).1 (c : Int)
    (nextLineBefore k loc0 loc w0 line c).2
  rw [sL, show w0.nLineCounter + 2 - 1 = w0.nLineCounter + 1 by omega] at hbehind
  have hg : 0 ≤ pixelGradient (nextLineBefore k loc0 loc w0 line c).1 c
        (nextLineBefore k loc0 loc w0 line c).2 ∧
      pixelGradient (nextLineBefore k loc0 loc w0 line c).1 c
        (nextLineBefore k loc0 loc w0 line c).2 ≤ 127 := by
    unfold pixelGradient
    exact gradientOf_range _ _ _ _ _
  have hold : (nextLineBefore k loc0 loc w0 line c).1.gunImgAtt ((c : Int) - 1)
      (w0.nLineCounter + 1) < 2 ^ 23 := by
    rw [scell]
    exact hw1cell
  have hadd := writeBackGradient_add _ _ hg.1 hg.2 hold
  have mG : _GRAD_MASK = (2 ^ 8 - 1) <<< _GRAD_SHIFT := by decide
  have mL : _LUMINANCE_MASK = (2 ^ 7 - 1) <<< _LUMINANCE_SHIFT := by decide
  have mH : _HUE_MASK = (2 ^ 9 - 1) <<< _HUE_SHIFT := by decide
  have mS : _SAT_MASK = (2 ^ 5 - 1) <<< _SAT_SHIFT := by decide
  have hfinal : (camLineDone k loc { camLineDone k loc0 w0 with gn16Pixel := line }).gunImgAtt
        ((c : Int) - 1) (w0.nLineCounter + 1) =
      (pixelStep (nextLineBefore k loc0 loc w0 line c).1 c
        (nextLineBefore k loc0 loc w0 line c).2).1.gunImgAtt ((c : Int) - 1)
        (w0.nLineCounter + 1) := by
    have hle : c + 1 ≤ w0.gnImageWidth.toNat := by omega
    have h := lineLoop_cells_between
      (camLineStart k { camLineDone k loc0 w0 with gn16Pixel := line }) loc (c + 1)
      w0.gnImageWidth.toNat hle ((c : Int) - 1) (w0.nLineCounter + 1)
      (by rw [entryL]; omega) (by rw [entryL]; push_cast; omega)
    have hdone : camLineDone k loc { camLineDone k loc0 w0 with gn16Pixel := line } =
        (lineLoop (camLineStart k { camLineDone k loc0 w0 with gn16Pixel := line }) loc
          w0.gnImageWidth.toNat).1 := by
      rw [← hw1W]
      rfl
    rw [hdone, h]
    rfl
  generalize hgv : pixelGradient (nextLineBefore k loc0 loc w0 line c).1 c
    (nextLineBefore k loc0 loc w0 line c).2 = g at *
  generalize hov : (nextLineBefore k loc0 loc w0 line c).1.gunImgAtt ((c : Int) - 1)
    (w0.nLineCounter + 1) = old at *
  refine ⟨sL, hbehind, ?_, ?_, ?_, ?_, ?_, hfinal⟩
  · rw [hbehind, hadd, mG, unpackField_eq]
    simp only [_GRAD_SHIFT]
    omega
  · rw [hbehind, hadd, mL, unpackField_eq, unpackField_eq]
    simp only [_LUMINANCE_SHIFT]
    omega
  · rw [hbehind, hadd, mH, unpackField_eq, unpackField_eq]
    simp only [_HUE_SHIFT]
    omega
  · rw [hbehind, hadd, mS, unpackField_eq, unpackField_eq]
    simp only [_SAT_SHIFT]
    omega
  · rw [hbehind, hadd]
    omega

/-- C28 on an image of 3 by 3 pixels, at column 2 of the second line, where
the computed gradient is 78. -/
theorem C28_witness :
    1 ≤ 2 ∧ ((2 : Nat) : Int) < smallFrame.gnImageWidth ∧
    ((unpackField _GRAD_MASK _GRAD_SHIFT
        ((pixelStep (nextLineBefore sam4s someLocals someLocals smallFrame
            (fun c => 0x1234 + 0x0800 * c) 2).1 ((2 : Nat) : Int)
          (nextLineBefore sam4s someLocals someLocals smallFrame
            (fun c => 0x1234 + 0x0800 * c) 2).2).1.gunImgAtt (((2 : Nat) : Int) - 1)
          (smallFrame.nLineCounter + 1)) : Nat) : Int) =
      pixelGradient (nextLineBefore sam4s someLocals someLocals smallFrame
          (fun c => 0x1234 + 0x0800 * c) 2).1 ((2 : Nat) : Int)
        (nextLineBefore sam4s someLocals someLocals smallFrame
          (fun c => 0x1234 + 0x0800 * c) 2).2 ∧
    pixelGradient (nextLineBefore sam4s someLocals someLocals smallFrame
          (fun c => 0x1234 + 0x0800 * c) 2).1 ((2 : Nat) : Int)
        (nextLineBefore sam4s someLocals someLocals smallFrame
          (fun c => 0x1234 + 0x0800 * c) 2).2 = 78 :=
  ⟨by decide, by decide,
    (C28_gradient_written_one_behind sam4s someLocals someLocals smallFrame
      (fun c => 0x1234 + 0x0800 * c) 2 (by decide) (by decide)).2.2.1, by decide⟩

/-! ### The timer routine and the run flag -/

theorem updateLoop_apply (ctx : Int → TASK_ATTRIBUTE) (n : Nat) (j : Int) :
    updateLoop ctx n j =
      if 0 ≤ j ∧ j < n then { ctx j with nTimer := (ctx j).nTimer - 1 } else ctx j := by
  induction n with
  | zero =>
    have h : ¬ (0 ≤ j ∧ j < ((0 : Nat) : Int)) := by
      push_cast
      omega
    rw [if_neg h]
    rfl
  | succ k ih =>
    simp only [updateLoop, setAt]
    by_cases hj : j = (k : Int)
    · subst hj
      have hp : 0 ≤ (k : Int) ∧ (k : Int) < ((k + 1 : Nat) : Int) := by
        push_cast
        omega
      have hn : ¬ (0 ≤ (k : Int) ∧ (k : Int) < (k : Int)) := by omega
      rw [if_pos rfl, if_pos hp, ih, if_neg hn]
    · rw [if_neg hj, ih]
      have : (0 ≤ j ∧ j < ((k + 1 : Nat) : Int)) ↔ (0 ≤ j ∧ j < (k : Int)) := by
        push_cast
        omega
      simp only [this]

/-- C38. For every task table in which the timer of every registered task
(cells `0 .. gnTaskCount - 1`) is greater than 0, `OSUpdateTaskTimer()` leaves
the same task contexts as the timer loop of the tick handler of `main`: each
registered timer is one less; both leave `nState`, `nID` and `gnTaskCount` as
they were. -/
theorem C38_update_matches_tick_loop {W : Type} (m : Kernel W)
    (h : ∀ i : Int, 0 ≤ i → i < m.gnTaskCount → (m.gstrcTaskContext i).nTimer > 0) :
    (OSUpdateTaskTimer m).gstrcTaskContext = (tickTimers m).gstrcTaskContext ∧
    (OSUpdateTaskTimer m).gnTaskCount = m.gnTaskCount ∧
    (tickTimers m).gnTaskCount = m.gnTaskCount ∧
    (∀ i : Int, ((OSUpdateTaskTimer m).gstrcTaskContext i).nState = (m.gstrcTaskContext i).nState ∧
      ((OSUpdateTaskTimer m).gstrcTaskContext i).nID = (m.gstrcTaskContext i).nID ∧
      ((tickTimers m).gstrcTaskContext i).nState = (m.gstrcTaskContext i).nState ∧
      ((tickTimers m).gstrcTaskContext i).nID = (m.gstrcTaskContext i).nID) ∧
    (∀ i : Int, 0 ≤ i → i < m.gnTaskCount →
      ((OSUpdateTaskTimer m).gstrcTaskContext i).nTimer = (m.gstrcTaskContext i).nTimer - 1) := by
  have hu : ∀ i : Int, (OSUpdateTaskTimer m).gstrcTaskContext i =
      if 0 ≤ i ∧ i < m.gnTaskCount then
        { m.gstrcTaskContext i with nTimer := (m.gstrcTaskContext i).nTimer - 1 }
      else m.gstrcTaskContext i := by
    intro i
    simp only [OSUpdateTaskTimer, updateLoop_apply]
    have : (0 ≤ i ∧ i < ((m.gnTaskCount.toNat : Nat) : Int)) ↔ (0 ≤ i ∧ i < m.gnTaskCount) := by
      omega
    simp only [this]
  have ht : ∀ i : Int, (tickTimers m).gstrcTaskContext i =
      if 0 ≤ i ∧ i < m.gnTaskCount then
        { m.gstrcTaskContext i with nTimer := (m.gstrcTaskContext i).nTimer - 1 }
      else m.gstrcTaskContext i := by
    intro i
    simp only [tickTimers, timerLoop_apply]
    by_cases hi : 0 ≤ i ∧ i < m.gnTaskCount
    · have hp := h i hi.1 hi.2
      have : 0 ≤ i ∧ i < ((m.gnTaskCount.toNat : Nat) : Int) ∧ (m.gstrcTaskContext i).nTimer > 0 :=
        ⟨hi.1, by omega, hp⟩
      rw [if_pos this, if_pos hi]
    · have : ¬ (0 ≤ i ∧ i < ((m.gnTaskCount.toNat : Nat) : Int) ∧
          (m.gstrcTaskContext i).nTimer > 0) := by
        intro hc
        exact hi ⟨hc.1, by omega⟩
      rw [if_neg this, if_neg hi]
  refine ⟨?_, rfl, rfl, ?_, ?_⟩
  · funext i
    rw [hu, ht]
  · intro i
    rw [hu, ht]
    split_ifs <;> exact ⟨rfl, rfl, rfl, rfl⟩
  · intro i h0 h1
    rw [hu, if_pos ⟨h0, h1⟩]

/-- C38 on a table of three tasks with the timers 1, 2 and 3. -/
theorem C38_witness :
    (∀ i : Int, 0 ≤ i → i < (busyKernel 3).gnTaskCount →
      ((busyKernel 3).gstrcTaskContext i).nTimer > 0) ∧
    (OSUpdateTaskTimer (busyKernel 3)).gstrcTaskContext =
      (tickTimers (busyKernel 3)).gstrcTaskContext :=
  have hyp : ∀ i : Int, 0 ≤ i → i < (busyKernel 3).gnTaskCount →
      ((busyKernel 3).gstrcTaskContext i).nTimer > 0 := by
    intro i h0 _
    show i + 1 > 0
    omega
  ⟨hyp, (C38_update_matches_tick_loop (busyKernel 3) hyp).1⟩

/-- C34. In every run of the main loop that starts outside the trap with
`gnRunTask = 0`, whatever the tick flag reads at each pass and whatever the step
functions do to their contexts and to the drivers (they cannot write
`gnRunTask`), `gnRunTask` is 0 and control is outside the trap after every
number of passes, that is at the start of every pass: the branch of the
overflow trap is never taken. -/
theorem C34_run_flag_clear_at_every_pass {W : Type} (code : TaskCode W) (b : Board W)
    (flags : List Bool) (m : Kernel W) (hT : m.inTrap = false) (hR : m.gnRunTask = 0) :
    (runPasses code b flags m).1.gnRunTask = 0 ∧ (runPasses code b flags m).1.inTrap = false := by
  induction flags generalizing m with
  | nil => exact ⟨hR, hT⟩
  | cons t ts ih =>
    simp only [runPasses]
    cases t with
    | false =>
      rw [mainLoopPass_idle code b m hT hR]
      exact ih _ hT hR
    | true =>
      have hne : m.gnRunTask ≠ 1 := by rw [hR]; decide
      obtain ⟨g1, g2, -, -⟩ := mainLoopPass_tick_globals code b m hT hne
      exact ih _ g1 g2

/-- C34 on three tasks and four passes, three of them with a tick. -/
theorem C34_witness :
    (sampleKernel 3 0).inTrap = false ∧ (sampleKernel 3 0).gnRunTask = 0 ∧
    (runPasses stepCode plainBoard [true, false, true, true] (sampleKernel 3 0)).1.gnRunTask = 0 ∧
    (runPasses stepCode plainBoard [true, false, true, true] (sampleKernel 3 0)).1.inTrap
      = false :=
  ⟨rfl, rfl,
    C34_run_flag_clear_at_every_pass stepCode plainBoard [true, false, true, true]
      (sampleKernel 3 0) rfl rfl⟩

/-! ### Register programming and end of frame -/

/-- C31. In each of the states 3, 4 and 5 of the camera task: with
`bI2CBusy = 0` the step sets `gbytI2CByteCount = 1`, `gbytI2CSlaveAdd = 60`,
`bSend = 1` and the register address and data byte `(0x1E, 0x68)`,
`(0x02, 0x00)`, `(0x03, 0x0E)`, changes nothing else, and yields to the state
4, 5, 6 with timer `5*__NUM_SYSTEMTICK_MSEC = 30`; with `bI2CBusy = 1` it
leaves the descriptor, the status record and everything else as they were and
yields to the same state with timer 1. -/
theorem C31_register_programming_steps (k : SamHeader) (loc : LineLocals) (id : Int)
    (w : Firmware) :
    (w.gI2CStat.bI2CBusy = false →
      (Proce_TCM8230_Driver k loc ⟨id, 3, 0⟩ w).ctx = ⟨id, 4, 30⟩ ∧
      (Proce_TCM8230_Driver k loc ⟨id, 3, 0⟩ w).world =
        { w with gbytI2CByteCount := 1, gbytI2CRegAdd := 0x1E,
                 gbytI2CTXbuf := setAt w.gbytI2CTXbuf 0 0x68, gbytI2CSlaveAdd := 60,
                 gI2CStat := { w.gI2CStat with bSend := true } } ∧
      (Proce_TCM8230_Driver k loc ⟨id, 4, 0⟩ w).ctx = ⟨id, 5, 30⟩ ∧
      (Proce_TCM8230_Driver k loc ⟨id, 4, 0⟩ w).world =
        { w with gbytI2CByteCount := 1, gbytI2CRegAdd := 0x02,
                 gbytI2CTXbuf := setAt w.gbytI2CTXbuf 0 0x00, gbytI2CSlaveAdd := 60,
                 gI2CStat := { w.gI2CStat with bSend := true } } ∧
      (Proce_TCM8230_Driver k loc ⟨id, 5, 0⟩ w).ctx = ⟨id, 6, 30⟩ ∧
      (Proce_TCM8230_Driver k loc ⟨id, 5, 0⟩ w).world =
        { w with gbytI2CByteCount := 1, gbytI2CRegAdd := 0x03,
                 gbytI2CTXbuf := setAt w.gbytI2CTXbuf 0 0x0E, gbytI2CSlaveAdd := 60,
                 gI2CStat := { w.gI2CStat with bSend := true } }) ∧
    (w.gI2CStat.bI2CBusy = true →
      Proce_TCM8230_Driver k loc ⟨id, 3, 0⟩ w = ⟨⟨id, 3, 1⟩, w, 1⟩ ∧
      Proce_TCM8230_Driver k loc ⟨id, 4, 0⟩ w = ⟨⟨id, 4, 1⟩, w, 1⟩ ∧
      Proce_TCM8230_Driver k loc ⟨id, 5, 0⟩ w = ⟨⟨id, 5, 1⟩, w, 1⟩) ∧
    5 * __NUM_SYSTEMTICK_MSEC = 30 ∧ _CAMERA_I2C2_ADD = 60 := by
  refine ⟨?_, ?_, by decide, by decide⟩
  · intro hB
    refine ⟨?_, ?_, ?_, ?_, ?_, ?_⟩ <;>
      simp [Proce_TCM8230_Driver, hB, StepResult.setContext, OSSetTaskContext, camRequest,
        __NUM_SYSTEMTICK_MSEC, _CAMERA_I2C2_ADD]
  · intro hB
    refine ⟨?_, ?_, ?_⟩ <;>
      simp [Proce_TCM8230_Driver, hB, StepResult.setContext, OSSetTaskContext]

/-- C33, as stated, fails. The end-of-frame step yields to state 6, not to
state 7.  State 6, called with the sync input reading low, stays in state 6 and
leaves the line counter (120) and the histogram (7 in bucket 5) as they are; it
is state 7 that, on the sync input reading low, sets the line counter to 0,
zeroes the bucket and goes to the capture state.  With the frame counter at
`INT_MAX` = 2147483647 the end-of-frame step leaves it at -2147483648, not at
2147483648. -/
theorem C33_counterexample_end_of_frame_goes_to_state_6 :
    (Proce_TCM8230_Driver sam4s someLocals ⟨5, 9, 0⟩ (frameEndFirmware 57600)).ctx = ⟨5, 6, 1⟩ ∧
    (Proce_TCM8230_Driver sam4s someLocals ⟨5, 6, 0⟩
      { frameEndFirmware 57600 with nLineCounter := 120 }).ctx = ⟨5, 6, 1⟩ ∧
    (Proce_TCM8230_Driver sam4s someLocals ⟨5, 6, 0⟩
      { frameEndFirmware 57600 with nLineCounter := 120 }).world.nLineCounter = 120 ∧
    (Proce_TCM8230_Driver sam4s someLocals ⟨5, 6, 0⟩
      { frameEndFirmware 57600 with nLineCounter := 120 }).world.gunIHisto 5 = 7 ∧
    (Proce_TCM8230_Driver sam4s someLocals ⟨5, 7, 0⟩
      { frameEndFirmware 57600 with nLineCounter := 120 }).ctx = ⟨5, 8, 1⟩ ∧
    (Proce_TCM8230_Driver sam4s someLocals ⟨5, 7, 0⟩
      { frameEndFirmware 57600 with nLineCounter := 120 }).world.nLineCounter = 0 ∧
    (Proce_TCM8230_Driver sam4s someLocals ⟨5, 7, 0⟩
      { frameEndFirmware 57600 with nLineCounter := 120 }).world.gunIHisto 5 = 0 ∧
    (Proce_TCM8230_Driver sam4s someLocals ⟨5, 9, 0⟩
      { frameEndFirmware 57600 with gnFrameCounter := 2147483647 }).world.gnFrameCounter =
      -2147483648 := by
  decide

/-- C33, amended. A call of the camera task in state 9 performs
`gnFrameCounter++` on the `int` counter: below `INT_MAX` = 2147483647 the
counter rises by exactly 1, at `INT_MAX` it wraps to -2147483648, and a counter
in the range of `int` stays in that range.  The call yields, with timer 1, to
state 6.  State 6 waits for the idle condition (pin 15 of `PIO_PDSR` high and
pin 16 low) and then yields to state 7, leaving the line counter and the
histogram alone; state 7 polls pin 15 for low and on that transition sets the
line counter to 0, zeroes the buckets `0 .. 127` of the histogram and yields to
state 8. -/
theorem C33_end_of_frame_step (k : SamHeader) (loc : LineLocals) (id : Int) (w : Firmware) :
    (Proce_TCM8230_Driver k loc ⟨id, 9, 0⟩ w).world.gnFrameCounter = incr32 w.gnFrameCounter ∧
    (w.gnFrameCounter < 2147483647 →
      (Proce_TCM8230_Driver k loc ⟨id, 9, 0⟩ w).world.gnFrameCounter = w.gnFrameCounter + 1) ∧
    (w.gnFrameCounter = 2147483647 →
      (Proce_TCM8230_Driver k loc ⟨id, 9, 0⟩ w).world.gnFrameCounter = -2147483648) ∧
    (-2147483648 ≤ w.gnFrameCounter → w.gnFrameCounter ≤ 2147483647 →
      -2147483648 ≤ (Proce_TCM8230_Driver k loc ⟨id, 9, 0⟩ w).world.gnFrameCounter ∧
      (Proce_TCM8230_Driver k loc ⟨id, 9, 0⟩ w).world.gnFrameCounter ≤ 2147483647) ∧
    (Proce_TCM8230_Driver k loc ⟨id, 9, 0⟩ w).ctx = ⟨id, 6, 1⟩ ∧
    (Proce_TCM8230_Driver k loc ⟨id, 6, 0⟩ w).ctx =
      (if w.hw.input .PIOA_PDSR (w.hw.reads .PIOA_PDSR) &&& k.PIO_PDSR_P15 > 0 ∧
          w.hw.input .PIOA_PDSR (w.hw.reads .PIOA_PDSR + 1) &&& k.PIO_PDSR_P16 = 0
        then ⟨id, 7, 1⟩ else ⟨id, 6, 1⟩) ∧
    (Proce_TCM8230_Driver k loc ⟨id, 6, 0⟩ w).world.nLineCounter = w.nLineCounter ∧
    (Proce_TCM8230_Driver k loc ⟨id, 6, 0⟩ w).world.gunIHisto = w.gunIHisto ∧
    (Proce_TCM8230_Driver k loc ⟨id, 7, 0⟩ w).ctx =
      (if w.hw.input .PIOA_PDSR (w.hw.reads .PIOA_PDSR) &&& k.PIO_PDSR_P15 = 0
        then ⟨id, 8, 1⟩ else ⟨id, 7, 1⟩) ∧
    (w.hw.input .PIOA_PDSR (w.hw.reads .PIOA_PDSR) &&& k.PIO_PDSR_P15 = 0 →
      (Proce_TCM8230_Driver k loc ⟨id, 7, 0⟩ w).world.nLineCounter = 0 ∧
      ∀ j : Int, 0 ≤ j → j < 128 →
        (Proce_TCM8230_Driver k loc ⟨id, 7, 0⟩ w).world.gunIHisto j = 0) := by
  have e9 : (Proce_TCM8230_Driver k loc ⟨id, 9, 0⟩ w).world.gnFrameCounter =
      incr32 w.gnFrameCounter := by
    simp [Proce_TCM8230_Driver, StepResult.setContext]
  refine ⟨e9, ?_, ?_, ?_, ?_, ?_, ?_, ?_, ?_, ?_⟩
  · intro h
    rw [e9]
    unfold incr32
    split_ifs <;> omega
  · intro h
    rw [e9]
    unfold incr32
    split_ifs <;> omega
  · intro h1 h2
    rw [e9]
    unfold incr32
    split_ifs <;> omega
  · simp [Proce_TCM8230_Driver, StepResult.setContext, OSSetTaskContext]
  · simp only [Proce_TCM8230_Driver, StepResult.setContext, OSSetTaskContext, Firmware.poll,
      Hw.poll]
    norm_num
    split_ifs <;> simp_all
  · simp only [Proce_TCM8230_Driver, StepResult.setContext, Firmware.poll, Hw.poll]
    norm_num
    split_ifs <;> rfl
  · simp only [Proce_TCM8230_Driver, StepResult.setContext, Firmware.poll, Hw.poll]
    norm_num
    split_ifs <;> rfl
  · simp only [Proce_TCM8230_Driver, StepResult.setContext, OSSetTaskContext, Firmware.poll,
      Hw.poll]
    norm_num
    split_ifs <;> rfl
  · intro h
    have e : (Proce_TCM8230_Driver k loc ⟨id, 7, 0⟩ w).world =
        camFrameSync k (w.poll .PIOA_PDSR).2 := by
      simp only [Proce_TCM8230_Driver, StepResult.setContext, Firmware.poll, Hw.poll]
      norm_num
      rw [if_pos h]
    rw [e]
    refine ⟨rfl, ?_⟩
    intro j h0 h1
    have hp : 0 ≤ j ∧ j < ((128 : Nat) : Int) := ⟨h0, by simpa using h1⟩
    simp only [camFrameSync, clearHisto_apply, hp, and_self, if_true]

/-- C33, at frame counters 41 and `INT_MAX`: the end-of-frame step leaves 42 and
-2147483648 in the counter and yields to state 6 with timer 1. -/
theorem C33_witness :
    (Proce_TCM8230_Driver sam4s someLocals ⟨5, 9, 0⟩
      { frameEndFirmware 57600 with gnFrameCounter := 41 }).world.gnFrameCounter = 41 + 1 ∧
    (Proce_TCM8230_Driver sam4s someLocals ⟨5, 9, 0⟩
      { frameEndFirmware 57600 with gnFrameCounter := 2147483647 }).world.gnFrameCounter =
      -2147483648 ∧
    (Proce_TCM8230_Driver sam4s someLocals ⟨5, 9, 0⟩
      { frameEndFirmware 57600 with gnFrameCounter := 41 }).ctx = ⟨5, 6, 1⟩ :=
  ⟨(C33_end_of_frame_step sam4s someLocals 5
      { frameEndFirmware 57600 with gnFrameCounter := 41 }).2.1 (by decide),
    (C33_end_of_frame_step sam4s someLocals 5
      { frameEndFirmware 57600 with gnFrameCounter := 2147483647 }).2.2.1 rfl,
    (C33_end_of_frame_step sam4s someLocals 5
      { frameEndFirmware 57600 with gnFrameCounter := 41 }).2.2.2.2.1⟩

/-! ### Bounds of the tables and buffers -/

/-- C35. In the pass of the last line of a frame of 160 by 120 pixels the
line counter is 120; at column 0 the body of the column loop writes
`gunImgAtt[0][120]` and reads and writes `gunImgAtt[-1][119]`, all outside the
declared bounds, and the cell `[0][120]` then holds the word of the new pixel.
At column 159 of that line the write of line 610 goes to `[159][120]`, and at
column 0 of the first line (line counter 1) line 611 uses `[-1][0]`.  For every
column `c` and line counter `L`, the accesses of the body are all inside the
bounds exactly when `1 <= c <= 159` and `1 <= L <= 119`. -/
theorem C35_accesses_outside_the_frame_buffer :
    lastLineCamera.world.nLineCounter + 1 = lastLineCamera.world.gnImageHeight ∧
    (camLineStart sam4s lastLineCamera.world).nLineCounter = 120 ∧
    pixelAccesses 0 120 = [(0, 120), (-1, 119), (-1, 119)] ∧
    (pixelAccesses 0 120).map inFrameBuffer = [false, false, false] ∧
    (pixelAccesses 159 120).map inFrameBuffer =
      [true, true, true, false, true, true] ∧
    (pixelAccesses 0 1).map inFrameBuffer = [true, false, false] ∧
    lastLineCamera.world.gunImgAtt 0 120 = 0xABCD ∧
    (lineLoop (camLineStart sam4s lastLineCamera.world) someLocals 1).1.gunImgAtt 0 120 =
      pixelWord (luminanceOf 0 6 32 18) (saturationOf 6 32 18) (hueOf 6 32 18 (-1)) ∧
    decodeSample 0x1234 = (6, 32, 18) ∧
    (∀ c L : Int, (pixelAccesses c L).all inFrameBuffer =
      decide (1 ≤ c ∧ c ≤ 159 ∧ 1 ≤ L ∧ L ≤ 119)) := by
  refine ⟨by decide, by decide, by decide, by decide, by decide, by decide, by decide,
    by decide, by decide, ?_⟩
  intro c L
  unfold pixelAccesses inFrameBuffer _IMAGE_HRESOLUTION _IMAGE_VRESOLUTION
  rw [Bool.eq_iff_iff]
  split_ifs <;> simp <;> omega

/-- C36. With `gnTaskCount = 11`, `OSCreateTask` returns 0 and writes
`gfptrTask[11]` and `gstrcTaskContext[11]`, while the declared length of both
tables is `__MAXTASK - 1 = 11`, so 11 is not a valid index.  For every state
the routine succeeds exactly when `gnTaskCount <= __MAXTASK` and then writes
`gfptrTask[gnTaskCount]`. -/
theorem C36_create_writes_past_the_tables :
    (OSCreateTask (sampleKernel 11 0) 11 99).1 = 0 ∧
    (sampleKernel 11 0).gfptrTask 11 = 21 ∧
    (OSCreateTask (sampleKernel 11 0) 11 99).2.gfptrTask 11 = 99 ∧
    (OSCreateTask (sampleKernel 11 0) 11 99).2.gstrcTaskContext 11 = ⟨12, 0, 1⟩ ∧
    (OSCreateTask (sampleKernel 11 0) 11 99).2.gnTaskCount = 12 ∧
    taskArrayLen = 11 ∧
    ¬ ((sampleKernel 11 0).gnTaskCount < taskArrayLen) ∧
    (∀ (m : Kernel Unit) (p : Int) (f : TASK_POINTER),
      (OSCreateTask m p f).1 = (if m.gnTaskCount > __MAXTASK then 1 else 0) ∧
      (OSCreateTask m p f).2.gfptrTask =
        (if m.gnTaskCount > __MAXTASK then m.gfptrTask
          else setAt m.gfptrTask m.gnTaskCount f)) := by
  refine ⟨by decide, by decide, by decide, by decide, by decide, by decide, by decide, ?_⟩
  intro m p f
  unfold OSCreateTask
  split_ifs <;> exact ⟨rfl, rfl⟩

/-- C39. From the receive pointer 0, with eight bytes waiting, one call of
the UART driver stores the eighth byte (`0xA7`) at index 7 of `gbytRXbuffer`,
whose declared length is `__SCI_RXBUF_LENGTH - 1 = 7`, and leaves the pointer
at 8 without setting the overflow flag; the USART driver does the same with
`gbytRXbuffer2`. -/
theorem C39_eighth_byte_stored_past_the_buffer :
    gbytRXbufferLen = 7 ∧ gbytRXbuffer2Len = 7 ∧
    (uartRxWorld 8).gbytRXbufptr = 0 ∧
    (Proce_UART_Driver sam4sUart 20 ⟨3, 1, 0⟩ (uartRxWorld 8)).map
        (fun r => (r.world.gbytRXbufptr, r.world.gbytRXbuffer 7, r.world.gbytRXbuffer 6,
          r.world.gSCIstatus.bRXOVF)) = some (8, 0xA7, 0xA6, false) ∧
    (uartRxWorld 8).gbytRXbuffer 7 = 0 ∧
    (usartRxFirmware 8).gbytRXbufptr2 = 0 ∧
    (Proce_USART_Driver sam4s 20 ⟨4, 1, 0⟩ (usartRxFirmware 8)).map
        (fun r => (r.world.gbytRXbufptr2, r.world.gbytRXbuffer2 7, r.world.gbytRXbuffer2 6,
          r.world.gSCIstatus2.bRXOVF)) = some (8, 0xA7, 0xA6, false) ∧
    (usartRxFirmware 8).gbytRXbuffer2 7 = 0 := by
  decide

/-! ### The capture state -/

theorem lineLoop_hw (w : Firmware) (loc : LineLocals) (n : Nat) :
    (lineLoop w loc n).1.hw = w.hw ∧
    (lineLoop w loc n).1.gnImageHeight = w.gnImageHeight := by
  induction n with
  | zero => exact ⟨rfl, rfl⟩
  | succ m ih =>
    simp only [lineLoop]
    exact ih

theorem camLineDone_counters (k : SamHeader) (loc : LineLocals) (w : Firmware) :
    (camLineDone k loc w).nLineCounter = w.nLineCounter + 1 ∧
    (camLineDone k loc w).gnImageHeight = w.gnImageHeight ∧
    (camLineDone k loc w).hw.input = w.hw.input ∧
    (camLineDone k loc w).hw.reads = w.hw.reads := by
  have e : camLineDone k loc w = (lineLoop (camLineStart k w) loc w.gnImageWidth.toNat).1 := rfl
  obtain ⟨h1, h2⟩ := lineLoop_hw (camLineStart k w) loc w.gnImageWidth.toNat
  rw [e, lineLoop_nLineCounter, h1, h2]
  exact ⟨rfl, rfl, rfl, rfl⟩

/-- One invocation of the capture state. -/
theorem capture_step (k : SamHeader) (loc : LineLocals) (r : StepResult Firmware)
    (hS : r.ctx.nState = 8) :
    (camInvoke k loc r).world.hw.input = r.world.hw.input ∧
    (camInvoke k loc r).world.hw.reads .PIOA_PCISR = r.world.hw.reads .PIOA_PCISR + 1 ∧
    (camInvoke k loc r).world.gnImageHeight = r.world.gnImageHeight ∧
    (camInvoke k loc r).world.nLineCounter =
      r.world.nLineCounter +
        (if r.world.hw.input .PIOA_PCISR (r.world.hw.reads .PIOA_PCISR) &&& k.PIO_PCISR_ENDRX > 0
          then 1 else 0) ∧
    (camInvoke k loc r).ctx =
      ⟨r.ctx.nID,
        if (camInvoke k loc r).world.nLineCounter = r.world.gnImageHeight then 9 else 8, 1⟩ := by
  by_cases hf : r.world.hw.input .PIOA_PCISR (r.world.hw.reads .PIOA_PCISR) &&&
      k.PIO_PCISR_ENDRX > 0
  · obtain ⟨c1, c2, c3, c4⟩ := camLineDone_counters k loc (r.world.poll .PIOA_PCISR).2
    have e : (camInvoke k loc r).world = camLineDone k loc (r.world.poll .PIOA_PCISR).2 := by
      simp only [camInvoke, Proce_TCM8230_Driver, hS, StepResult.setContext, Firmware.poll,
        Hw.poll]
      norm_num
      rw [if_pos hf]
      split_ifs <;> rfl
    have ec : (camInvoke k loc r).ctx =
        ⟨r.ctx.nID, if (camLineDone k loc (r.world.poll .PIOA_PCISR).2).nLineCounter =
          (camLineDone k loc (r.world.poll .PIOA_PCISR).2).gnImageHeight then 9 else 8, 1⟩ := by
      simp only [camInvoke, Proce_TCM8230_Driver, hS, StepResult.setContext, OSSetTaskContext,
        Firmware.poll, Hw.poll]
      norm_num
      rw [if_pos hf]
      split_ifs <;> rfl
    rw [ec, e, c1, c2, c3, c4, if_pos hf]
    refine ⟨rfl, ?_, rfl, rfl, rfl⟩
    simp [Firmware.poll, Hw.poll]
  · have e : (camInvoke k loc r).world = (r.world.poll .PIOA_PCISR).2 := by
      simp only [camInvoke, Proce_TCM8230_Driver, hS, StepResult.setContext, Firmware.poll,
        Hw.poll]
      norm_num
      rw [if_neg hf]
      split_ifs <;> rfl
    have ec : (camInvoke k loc r).ctx =
        ⟨r.ctx.nID, if r.world.nLineCounter = r.world.gnImageHeight then 9 else 8, 1⟩ := by
      simp only [camInvoke, Proce_TCM8230_Driver, hS, StepResult.setContext, OSSetTaskContext,
        Firmware.poll, Hw.poll]
      norm_num
      rw [if_neg hf]
      split_ifs <;> rfl
    rw [ec, e, if_neg hf]
    refine ⟨rfl, ?_, rfl, ?_, ?_⟩
    · simp [Firmware.poll, Hw.poll]
    · simp [Firmware.poll]
    · simp [Firmware.poll]

theorem linesDone_succ (k : SamHeader) (w : Firmware) (n : Nat) :
    linesDone k w (n + 1) =
      linesDone k w n +
        (if w.hw.input .PIOA_PCISR (w.hw.reads .PIOA_PCISR + n) &&& k.PIO_PCISR_ENDRX > 0
          then 1 else 0) := rfl

theorem linesDone_mono (k : SamHeader) (w : Firmware) (m n : Nat) (h : m ≤ n) :
    linesDone k w m ≤ linesDone k w n := by
  induction n, h using Nat.le_induction with
  | base => exact le_refl _
  | succ j _ ih =>
    rw [linesDone_succ]
    omega

/-- The invocation that follows `n` invocations of the capture state after
which the line counter equals the number of lines done. -/
theorem captureRun_next (k : SamHeader) (locs : Nat → LineLocals) (lines : Nat → Int → Int)
    (r : StepResult Firmware) (n : Nat)
    (hS : (captureRun k locs lines n r).ctx.nState = 8)
    (hI : (captureRun k locs lines n r).world.hw.input = r.world.hw.input)
    (hR : (captureRun k locs lines n r).world.hw.reads .PIOA_PCISR =
      r.world.hw.reads .PIOA_PCISR + n)
    (hL : (captureRun k locs lines n r).world.nLineCounter = (linesDone k r.world n : Int)) :
    (captureRun k locs lines (n + 1) r).world.hw.input = r.world.hw.input ∧
    (captureRun k locs lines (n + 1) r).world.hw.reads .PIOA_PCISR =
      r.world.hw.reads .PIOA_PCISR + (n + 1) ∧
    (captureRun k locs lines (n + 1) r).world.gnImageHeight =
      (captureRun k locs lines n r).world.gnImageHeight ∧
    (captureRun k locs lines (n + 1) r).world.nLineCounter =
      (linesDone k r.world (n + 1) : Int) ∧
    (captureRun k locs lines (n + 1) r).ctx =
      ⟨(captureRun k locs lines n r).ctx.nID,
        if (linesDone k r.world (n + 1) : Int) =
          (captureRun k locs lines n r).world.gnImageHeight then 9 else 8, 1⟩ := by
  obtain ⟨s1, s2, s3, s4, s5⟩ := capture_step k (locs n)
    { captureRun k locs lines n r with
      world := { (captureRun k locs lines n r).world with gn16Pixel := lines n } } hS
  have e : captureRun k locs lines (n + 1) r = camInvoke k (locs n)
    { captureRun k locs lines n r with
      world := { (captureRun k locs lines n r).world with gn16Pixel := lines n } } := rfl
  rw [← e] at s1 s2 s3 s4 s5
  simp only [] at s1 s2 s3 s4 s5
  have hcount : (captureRun k locs lines (n + 1) r).world.nLineCounter =
      (linesDone k r.world (n + 1) : Int) := by
    rw [s4, hL, hI, hR, linesDone_succ]
    push_cast
    split_ifs <;> rfl
  refine ⟨?_, ?_, s3, hcount, ?_⟩
  · rw [s1, hI]
  · rw [s2, hR]
    omega
  · rw [s5, hcount]

/-- While fewer lines are done than the frame has, the task stays in the
capture state and the line counter is the number of lines done. -/
theorem captureRun_inv (k : SamHeader) (locs : Nat → LineLocals) (lines : Nat → Int → Int)
    (r : StepResult Firmware) (hS : r.ctx.nState = 8) (hL : r.world.nLineCounter = 0) (n : Nat)
    (hn : (linesDone k r.world n : Int) < r.world.gnImageHeight) :
    (captureRun k locs lines n r).ctx.nState = 8 ∧
    (captureRun k locs lines n r).ctx.nID = r.ctx.nID ∧
    (n ≥ 1 → (captureRun k locs lines n r).ctx.nTimer = 1) ∧
    (captureRun k locs lines n r).world.hw.input = r.world.hw.input ∧
    (captureRun k locs lines n r).world.hw.reads .PIOA_PCISR = r.world.hw.reads .PIOA_PCISR + n ∧
    (captureRun k locs lines n r).world.gnImageHeight = r.world.gnImageHeight ∧
    (captureRun k locs lines n r).world.nLineCounter = (linesDone k r.world n : Int) := by
  induction n with
  | zero =>
    refine ⟨hS, rfl, ?_, rfl, rfl, rfl, ?_⟩
    · intro h
      omega
    · rw [show captureRun k locs lines 0 r = r from rfl, hL]
      rfl
  | succ j ih =>
    have hmono := linesDone_mono k r.world j (j + 1) (Nat.le_succ j)
    obtain ⟨i1, i2, -, i4, i5, i6, i7⟩ := ih (by omega)
    obtain ⟨n1, n2, n3, n4, n5⟩ := captureRun_next k locs lines r j i1 i4 i5 i7
    have hne : ¬ ((linesDone k r.world (j + 1) : Int) =
        (captureRun k locs lines j r).world.gnImageHeight) := by
      rw [i6]
      omega
    rw [if_neg hne] at n5
    refine ⟨?_, ?_, ?_, n1, n2, ?_, n4⟩
    · rw [n5]
    · rw [n5]
      exact i2
    · intro _
      rw [n5]
    · rw [n3, i6]

/-- C32. From the frame-sync transition (task in state 8, `nLineCounter = 0`),
for any contents of the line buffer and any readings of the line-complete flag:
as long as fewer than `gnImageHeight` lines are done after `n` invocations (so
`gnImageHeight >= 1`), every one of the invocations `1 .. n`, whether or not
it completed a line, has yielded to state 8 with timer 1, and the line counter
is the number of lines done, below `gnImageHeight`; the invocation `n + 1`
raises the line counter by 1 if a line completed and by 0 if not, never above
`gnImageHeight`, and yields with timer 1 to state 9 if it completed the
`gnImageHeight`-th line and to state 8 otherwise. -/
theorem C32_capture_until_last_line (k : SamHeader) (locs : Nat → LineLocals)
    (lines : Nat → Int → Int) (r : StepResult Firmware) (n : Nat)
    (hS : r.ctx.nState = 8) (hL : r.world.nLineCounter = 0)
    (hn : (linesDone k r.world n : Int) < r.world.gnImageHeight) :
    (∀ m : Nat, m ≤ n →
      (captureRun k locs lines m r).ctx.nState = 8 ∧
      (m ≥ 1 → (captureRun k locs lines m r).ctx.nTimer = 1) ∧
      (captureRun k locs lines m r).world.nLineCounter = (linesDone k r.world m : Int) ∧
      (captureRun k locs lines m r).world.nLineCounter < r.world.gnImageHeight) ∧
    (captureRun k locs lines (n + 1) r).world.nLineCounter =
      (linesDone k r.world (n + 1) : Int) ∧
    (captureRun k locs lines (n + 1) r).world.nLineCounter ≤ r.world.gnImageHeight ∧
    linesDone k r.world (n + 1) ≤ linesDone k r.world n + 1 ∧
    (captureRun k locs lines (n + 1) r).ctx =
      ⟨r.ctx.nID, if (linesDone k r.world (n + 1) : Int) = r.world.gnImageHeight then 9 else 8,
        1⟩ := by
  obtain ⟨i1, i2, -, i4, i5, i6, i7⟩ := captureRun_inv k locs lines r hS hL n hn
  obtain ⟨-, -, -, n4, n5⟩ := captureRun_next k locs lines r n i1 i4 i5 i7
  have hstep : linesDone k r.world (n + 1) ≤ linesDone k r.world n + 1 := by
    rw [linesDone_succ]
    split_ifs <;> omega
  refine ⟨?_, n4, ?_, hstep, ?_⟩
  · intro m hm
    have hmono := linesDone_mono k r.world m n hm
    obtain ⟨j1, -, j3, -, -, -, j7⟩ := captureRun_inv k locs lines r hS hL m (by omega)
    refine ⟨j1, j3, j7, ?_⟩
    rw [j7]
    omega
  · rw [n4]
    omega
  · rw [n5, i2, i6]

/-- C32 on an image of 2 by 2 pixels whose line-complete flag reads set at
every poll: the second invocation of the capture state yields to state 9. -/
theorem C32_witness :
    (camInvoke sam4s someLocals tinyCamera).ctx.nState = 8 ∧
    (camInvoke sam4s someLocals tinyCamera).world.nLineCounter = 0 ∧
    ((linesDone sam4s (camInvoke sam4s someLocals tinyCamera).world 1 : Nat) : Int) <
      (camInvoke sam4s someLocals tinyCamera).world.gnImageHeight ∧
    (captureRun sam4s (fun _ => someLocals) (fun _ c => 0x1234 + c) (1 + 1)
      (camInvoke sam4s someLocals tinyCamera)).ctx =
      ⟨(camInvoke sam4s someLocals tinyCamera).ctx.nID,
        if ((linesDone sam4s (camInvoke sam4s someLocals tinyCamera).world (1 + 1) : Nat) : Int) =
          (camInvoke sam4s someLocals tinyCamera).world.gnImageHeight then 9 else 8, 1⟩ ∧
    linesDone sam4s (camInvoke sam4s someLocals tinyCamera).world 2 = 2 :=
  ⟨by decide, by decide, by decide,
    (C32_capture_until_last_line sam4s (fun _ => someLocals) (fun _ c => 0x1234 + c)
      (camInvoke sam4s someLocals tinyCamera) 1 (by decide) (by decide) (by decide)).2.2.2.2,
    by decide⟩

/-! ### The sliding window of the gradient -/

/-- The luminance field of the word a pixel step stores is the luminance. -/
theorem pixelWord_luminance (mode sample nHue : Int) :
    pixelWord
      (luminanceOf mode (decodeSample sample).1 (decodeSample sample).2.1 (decodeSample sample).2.2)
      (saturationOf (decodeSample sample).1 (decodeSample sample).2.1 (decodeSample sample).2.2)
      (hueOf (decodeSample sample).1 (decodeSample sample).2.1 (decodeSample sample).2.2 nHue)
      &&& _LUMINANCE_MASK =
    luminanceOf mode (decodeSample sample).1 (decodeSample sample).2.1
      (decodeSample sample).2.2 := by
  obtain ⟨hr, hg, hb⟩ := decodeSample_range sample
  generalize (decodeSample sample).1 = r at *
  generalize (decodeSample sample).2.1 = g at *
  generalize (decodeSample sample).2.2 = b at *
  have hlum := luminanceOf_le mode r g b hr hg hb
  have hsat := saturationOf_range r g b hr hg hb
  have hhue : 0 ≤ hueOf r g b nHue ∧ hueOf r g b nHue ≤ 420 := by
    rcases hueOf_range r g b nHue with h | h | h
    · omega
    · rw [h]; decide
    · rw [h]; decide
  generalize luminanceOf mode r g b = lum at *
  obtain ⟨hN, hNe⟩ := Int.eq_ofNat_of_zero_le hhue.1
  obtain ⟨sN, sNe⟩ := Int.eq_ofNat_of_zero_le hsat.1
  have hv := packed_value lum hN sN 0 (by omega) (by omega) (by omega) (by omega)
  rw [Nat.cast_zero, writeBackGradient_zero] at hv
  have hm : _LUMINANCE_MASK = 2 ^ 7 - 1 := by decide
  rw [hNe, sNe, hv, hm, and_low]
  omega

theorem pixelStep_cell_self_eq (w : Firmware) (c : Int) (loc : LineLocals) :
    (pixelStep w c loc).1.gunImgAtt c w.nLineCounter &&& _LUMINANCE_MASK =
      pixelLuminance w c := by
  have h : ¬ (c = c - 1 ∧ w.nLineCounter = w.nLineCounter - 1) := by omega
  simp only [pixelStep, setAt2, pixelLuminance]
  rw [if_neg h]
  simp only [and_self, if_true]
  exact pixelWord_luminance _ _ _

theorem pixelStep_locals (w : Firmware) (c : Int) (loc : LineLocals) (hc : 2 ≤ c)
    (hL : 2 ≤ w.nLineCounter)
    (h : c = 2 ∨ loc.grad = freshLocals w.gunImgAtt c w.nLineCounter) :
    (pixelStep w c loc).2.grad =
      freshLocals (pixelStep w c loc).1.gunImgAtt (c + 1) w.nLineCounter := by
  have hcond : c > 1 ∧ w.nLineCounter > 1 := by omega
  have e1 : (pixelStep w c loc).1.gunImgAtt (c + 1 - 2) (w.nLineCounter - 2) =
      w.gunImgAtt (c - 1) (w.nLineCounter - 2) := by
    rw [pixelStep_cell_other w c loc _ _ (by omega) (by omega)]
    congr 1
    omega
  have e5 : (pixelStep w c loc).1.gunImgAtt (c + 1 - 2) w.nLineCounter =
      w.gunImgAtt (c - 1) w.nLineCounter := by
    rw [pixelStep_cell_other w c loc _ _ (by omega) (by omega)]
    congr 1
    omega
  have e7 : (pixelStep w c loc).1.gunImgAtt (c + 1 - 1) (w.nLineCounter - 2) =
      w.gunImgAtt c (w.nLineCounter - 2) := by
    rw [pixelStep_cell_other w c loc _ _ (by omega) (by omega)]
    congr 1
    omega
  have e8 : (pixelStep w c loc).1.gunImgAtt (c + 1 - 1) w.nLineCounter &&& _LUMINANCE_MASK =
      pixelLuminance w c := by
    rw [show c + 1 - 1 = c by omega]
    exact pixelStep_cell_self_eq w c loc
  have hgrad : (pixelStep w c loc).2.grad =
      { nLuminance1 := (freshLocals w.gunImgAtt c w.nLineCounter).nLuminance7,
        nLuminance5 := (freshLocals w.gunImgAtt c w.nLineCounter).nLuminance8,
        nLuminance7 := ((w.gunImgAtt c (w.nLineCounter - 2) &&& _LUMINANCE_MASK : Nat) : Int),
        nLuminance8 := ((pixelLuminance w c : Nat) : Int) } := by
    simp only [pixelStep, gradientOf, pixelLuminance, freshLocals]
    rw [if_pos hcond]
    simp only []
    rcases h with h | h
    · subst h
      simp
    · by_cases h2 : c = 2
      · subst h2
        simp
      · rw [if_neg h2, h]
        simp [freshLocals]
  rw [hgrad]
  unfold freshLocals
  simp only []
  rw [e1, e5, e7, e8]

/-- From column 3 on, the carried neighbour luminances are the luminance fields
of the cells they stand for. -/
theorem lineLoop_locals (w : Firmware) (loc : LineLocals) (hL : 2 ≤ w.nLineCounter) (c : Nat)
    (hc : 3 ≤ c) :
    (lineLoop w loc c).2.grad = freshLocals (lineLoop w loc c).1.gunImgAtt c w.nLineCounter := by
  induction c, hc using Nat.le_induction with
  | base =>
    have h := pixelStep_locals (lineLoop w loc 2).1 ((2 : Nat) : Int) (lineLoop w loc 2).2
      (by norm_num) (by rw [lineLoop_nLineCounter]; exact hL) (Or.inl (by norm_num))
    rw [lineLoop_nLineCounter] at h
    exact h
  | succ j hj ih =>
    have h := pixelStep_locals (lineLoop w loc j).1 (j : Int) (lineLoop w loc j).2
      (by omega) (by rw [lineLoop_nLineCounter]; exact hL)
      (Or.inr (by rw [lineLoop_nLineCounter]; exact ih))
    rw [lineLoop_nLineCounter] at h
    simp only [lineLoop]
    rw [h]
    push_cast
    rfl

/-- C40. Within the pass of a line with line counter `L >= 2`, before the
column `c >= 2` is processed: from column 3 on the neighbour luminances `L1`,
`L5`, `L7`, `L8` carried in the locals are the luminance fields of
`gunImgAtt[c-2][L-2]`, `gunImgAtt[c-2][L]`, `gunImgAtt[c-1][L-2]` and
`gunImgAtt[c-1][L]` (at column 2 the code reads the four afresh), and for every
such column the gradient the code computes equals the gradient obtained by
reading all the neighbours from the frame buffer. -/
theorem C40_sliding_window_matches_reread (w : Firmware) (loc : LineLocals) (c : Nat)
    (hL : 2 ≤ w.nLineCounter) (hc : 2 ≤ c) :
    (3 ≤ c →
      (lineLoop w loc c).2.grad =
        freshLocals (lineLoop w loc c).1.gunImgAtt c w.nLineCounter) ∧
    pixelGradient (lineLoop w loc c).1 c (lineLoop w loc c).2 =
      gradientReread (lineLoop w loc c).1.gunImgAtt c w.nLineCounter
        (pixelLuminance (lineLoop w loc c).1 c) := by
  have hcond : (c : Int) > 1 ∧ w.nLineCounter > 1 := by omega
  have key : (if (c : Int) = 2 then freshLocals (lineLoop w loc c).1.gunImgAtt c w.nLineCounter
      else (lineLoop w loc c).2.grad) =
      freshLocals (lineLoop w loc c).1.gunImgAtt c w.nLineCounter := by
    by_cases h2 : (c : Int) = 2
    · rw [if_pos h2]
    · rw [if_neg h2]
      exact lineLoop_locals w loc hL c (by omega)
  have hreread : pixelGradient (lineLoop w loc c).1 c (lineLoop w loc c).2 =
      gradientReread (lineLoop w loc c).1.gunImgAtt c w.nLineCounter
        (pixelLuminance (lineLoop w loc c).1 c) := by
    unfold pixelGradient gradientReread gradientOf pixelLuminance
    simp only []
    rw [lineLoop_nLineCounter, if_pos hcond, if_pos hcond]
    simp only []
    have key2 := key
    unfold freshLocals at key2
    rw [key2]
  exact ⟨fun h3 => lineLoop_locals w loc hL c h3, hreread⟩

/-- C40 on an image of 5 by 3 pixels, before column 4 of the line with line
counter 3, where the gradient is 28. -/
theorem C40_witness :
    2 ≤ windowFrame.nLineCounter ∧ 2 ≤ 4 ∧
    (lineLoop windowFrame someLocals 4).2.grad =
      freshLocals (lineLoop windowFrame someLocals 4).1.gunImgAtt ((4 : Nat) : Int)
        windowFrame.nLineCounter ∧
    pixelGradient (lineLoop windowFrame someLocals 4).1 ((4 : Nat) : Int)
        (lineLoop windowFrame someLocals 4).2 =
      gradientReread (lineLoop windowFrame someLocals 4).1.gunImgAtt ((4 : Nat) : Int)
        windowFrame.nLineCounter
        (pixelLuminance (lineLoop windowFrame someLocals 4).1 ((4 : Nat) : Int)) ∧
    pixelGradient (lineLoop windowFrame someLocals 4).1 ((4 : Nat) : Int)
        (lineLoop windowFrame someLocals 4).2 = 28 :=
  ⟨by decide, by decide,
    (C40_sliding_window_matches_reread windowFrame someLocals 4 (by decide) (by decide)).1
      (by decide),
    (C40_sliding_window_matches_reread windowFrame someLocals 4 (by decide) (by decide)).2,
    by decide⟩

/-! ### The luminance histogram -/

theorem histoSum_setAt (h : Int → Int) (l : Nat) (hl : l < 128) (v : Int) :
    histoSum (setAt h (l : Int) v) = histoSum h + (v - h (l : Int)) ∧
    histoWeighted (setAt h (l : Int) v) = histoWeighted h + (l : Int) * (v - h (l : Int)) := by
  unfold histoSum histoWeighted setAt
  have hmem : l ∈ Finset.range 128 := Finset.mem_range.mpr hl
  have e1 : ∀ i : Nat, (if (i : Int) = (l : Int) then v else h (i : Int)) =
      h (i : Int) + (if l = i then v - h (l : Int) else 0) := by
    intro i
    by_cases hi : l = i
    · subst hi
      simp
    · have : ¬ ((i : Int) = (l : Int)) := by
        intro hc
        exact hi (by exact_mod_cast hc.symm)
      simp [hi, this]
  have e2 : ∀ i : Nat, (i : Int) * (if (i : Int) = (l : Int) then v else h (i : Int)) =
      (i : Int) * h (i : Int) + (if l = i then (l : Int) * (v - h (l : Int)) else 0) := by
    intro i
    by_cases hi : l = i
    · subst hi
      simp
      ring
    · have : ¬ ((i : Int) = (l : Int)) := by
        intro hc
        exact hi (by exact_mod_cast hc.symm)
      simp [hi, this]
  constructor
  · simp only [e1, Finset.sum_add_distrib, Finset.sum_ite_eq, hmem, if_true]
  · simp only [e2, Finset.sum_add_distrib, Finset.sum_ite_eq, hmem, if_true]

theorem histo_bucket_le (h : Int → Int) (h0 : ∀ i : Nat, i < 128 → 0 ≤ h (i : Int)) (l : Nat)
    (hl : l < 128) :
    h (l : Int) ≤ histoSum h ∧ histoWeighted h ≤ 127 * histoSum h ∧ 0 ≤ histoWeighted h := by
  unfold histoSum histoWeighted
  refine ⟨?_, ?_, ?_⟩
  · exact Finset.single_le_sum (f := fun i : Nat => h (i : Int))
      (fun i hi => h0 i (Finset.mem_range.mp hi)) (Finset.mem_range.mpr hl)
  · rw [Finset.mul_sum]
    apply Finset.sum_le_sum
    intro i hi
    have hi2 := Finset.mem_range.mp hi
    have hn := h0 i hi2
    have : (i : Int) ≤ 127 := by omega
    exact mul_le_mul_of_nonneg_right this hn
  · apply Finset.sum_nonneg
    intro i hi
    have hn := h0 i (Finset.mem_range.mp hi)
    have : (0 : Int) ≤ (i : Int) := by omega
    exact mul_nonneg this hn

theorem pixelLuminance_lt (w : Firmware) (c : Int) : pixelLuminance w c < 128 := by
  unfold pixelLuminance
  obtain ⟨hr, hg, hb⟩ := decodeSample_range (w.gn16Pixel c)
  have := luminanceOf_le w.gnLuminanceMode _ _ _ hr hg hb
  simp only []
  omega

/-- One column step on a histogram whose buckets `0 .. 127` are counts that sum
to `n`, with the cumulative luminance their weighted sum. -/
theorem pixelStep_histo (w : Firmware) (c : Int) (loc : LineLocals) (n : Int)
    (h0 : ∀ i : Nat, i < 128 → 0 ≤ w.gunIHisto (i : Int))
    (hs : histoSum w.gunIHisto = n)
    (hw : (w.unLumCumulative : Int) = histoWeighted w.gunIHisto)
    (hn : n < 32767) :
    (∀ i : Nat, i < 128 → 0 ≤ (pixelStep w c loc).1.gunIHisto (i : Int)) ∧
    histoSum (pixelStep w c loc).1.gunIHisto = n + 1 ∧
    ((pixelStep w c loc).1.unLumCumulative : Int) =
      histoWeighted (pixelStep w c loc).1.gunIHisto ∧
    (∀ j : Int, (j < 0 ∨ 128 ≤ j) → (pixelStep w c loc).1.gunIHisto j = w.gunIHisto j) := by
  have hl := pixelLuminance_lt w c
  obtain ⟨b1, b2, b3⟩ := histo_bucket_le w.gunIHisto h0 (pixelLuminance w c) hl
  have hb0 := h0 (pixelLuminance w c) hl
  have hH : (pixelStep w c loc).1.gunIHisto =
      setAt w.gunIHisto (pixelLuminance w c : Int)
        (incr16 (w.gunIHisto (pixelLuminance w c : Int))) := rfl
  have hC : (pixelStep w c loc).1.unLumCumulative =
      (w.unLumCumulative + pixelLuminance w c) % 2 ^ 32 := rfl
  have hinc : incr16 (w.gunIHisto (pixelLuminance w c : Int)) =
      w.gunIHisto (pixelLuminance w c : Int) + 1 := by
    unfold incr16
    rw [if_neg (by omega)]
  obtain ⟨q1, q2⟩ := histoSum_setAt w.gunIHisto (pixelLuminance w c) hl
    (w.gunIHisto (pixelLuminance w c : Int) + 1)
  rw [hH, hC, hinc, q1, q2]
  refine ⟨?_, by omega, ?_, ?_⟩
  · intro i hi
    have := h0 i hi
    unfold setAt
    split_ifs <;> omega
  · have hlt : w.unLumCumulative + pixelLuminance w c < 2 ^ 32 := by
      have : (w.unLumCumulative : Int) + (pixelLuminance w c : Int) < 2 ^ 32 := by
        rw [hw]
        norm_num
        omega
      exact_mod_cast this
    rw [Nat.mod_eq_of_lt hlt]
    push_cast
    rw [hw]
    ring
  · intro j hj
    unfold setAt
    have : ¬ (j = (pixelLuminance w c : Int)) := by omega
    rw [if_neg this]

theorem lineLoop_histo (w : Firmware) (loc : LineLocals) (n : Int) (m : Nat)
    (h0 : ∀ i : Nat, i < 128 → 0 ≤ w.gunIHisto (i : Int))
    (hs : histoSum w.gunIHisto = n)
    (hw : (w.unLumCumulative : Int) = histoWeighted w.gunIHisto)
    (hn : n + (m : Int) ≤ 32767) :
    (∀ i : Nat, i < 128 → 0 ≤ (lineLoop w loc m).1.gunIHisto (i : Int)) ∧
    histoSum (lineLoop w loc m).1.gunIHisto = n + (m : Int) ∧
    ((lineLoop w loc m).1.unLumCumulative : Int) =
      histoWeighted (lineLoop w loc m).1.gunIHisto ∧
    (∀ j : Int, (j < 0 ∨ 128 ≤ j) → (lineLoop w loc m).1.gunIHisto j = w.gunIHisto j) := by
  induction m with
  | zero =>
    refine ⟨h0, ?_, hw, fun _ _ => rfl⟩
    show histoSum w.gunIHisto = n + ((0 : Nat) : Int)
    rw [hs]
    simp
  | succ j ih =>
    obtain ⟨i1, i2, i3, i4⟩ := ih (by push_cast at hn; omega)
    obtain ⟨p1, p2, p3, p4⟩ := pixelStep_histo (lineLoop w loc j).1 (j : Int) (lineLoop w loc j).2
      (n + (j : Int)) i1 i2 i3 (by push_cast at hn; omega)
    simp only [lineLoop]
    refine ⟨p1, ?_, p3, ?_⟩
    · rw [p2]
      push_cast
      ring
    · intro x hx
      rw [p4 x hx, i4 x hx]

theorem camLineDone_histo (k : SamHeader) (loc : LineLocals) (w : Firmware) (n : Int)
    (h0 : ∀ i : Nat, i < 128 → 0 ≤ w.gunIHisto (i : Int))
    (hs : histoSum w.gunIHisto = n)
    (hw : (w.unLumCumulative : Int) = histoWeighted w.gunIHisto)
    (hn : n + (w.gnImageWidth.toNat : Int) ≤ 32767) :
    (∀ i : Nat, i < 128 → 0 ≤ (camLineDone k loc w).gunIHisto (i : Int)) ∧
    histoSum (camLineDone k loc w).gunIHisto = n + (w.gnImageWidth.toNat : Int) ∧
    ((camLineDone k loc w).unLumCumulative : Int) =
      histoWeighted (camLineDone k loc w).gunIHisto ∧
    (∀ j : Int, (j < 0 ∨ 128 ≤ j) → (camLineDone k loc w).gunIHisto j = w.gunIHisto j) ∧
    (camLineDone k loc w).gnImageWidth = w.gnImageWidth := by
  have e : camLineDone k loc w = (lineLoop (camLineStart k w) loc w.gnImageWidth.toNat).1 := rfl
  obtain ⟨l1, l2, l3, l4⟩ := lineLoop_histo (camLineStart k w) loc n w.gnImageWidth.toNat
    h0 hs hw hn
  rw [e]
  refine ⟨l1, l2, l3, l4, ?_⟩
  rw [lineLoop_gnImageWidth]
  rfl

theorem captureLines_histo (k : SamHeader) (loc : LineLocals) (lines : List (Int → Int)) :
    ∀ (w : Firmware) (n : Int),
      (∀ i : Nat, i < 128 → 0 ≤ w.gunIHisto (i : Int)) →
      histoSum w.gunIHisto = n →
      (w.unLumCumulative : Int) = histoWeighted w.gunIHisto →
      n + (lines.length : Int) * (w.gnImageWidth.toNat : Int) ≤ 32767 →
      (∀ i : Nat, i < 128 → 0 ≤ (captureLines k loc lines w).gunIHisto (i : Int)) ∧
      histoSum (captureLines k loc lines w).gunIHisto =
        n + (lines.length : Int) * (w.gnImageWidth.toNat : Int) ∧
      ((captureLines k loc lines w).unLumCumulative : Int) =
        histoWeighted (captureLines k loc lines w).gunIHisto ∧
      (∀ j : Int, (j < 0 ∨ 128 ≤ j) →
        (captureLines k loc lines w).gunIHisto j = w.gunIHisto j) := by
  induction lines with
  | nil =>
    intro w n h0 hs hw _
    refine ⟨h0, ?_, hw, fun _ _ => rfl⟩
    show histoSum w.gunIHisto = n + ((([] : List (Int → Int)).length : Nat) : Int) * _
    rw [hs]
    simp
  | cons line rest ih =>
    intro w n h0 hs hw hn
    have hlen : (((line :: rest).length : Nat) : Int) = (rest.length : Int) + 1 := by
      simp
    rw [hlen] at hn ⊢
    have hnn : (0 : Int) ≤ (rest.length : Int) * (w.gnImageWidth.toNat : Int) :=
      mul_nonneg (by omega) (by omega)
    obtain ⟨d1, d2, d3, d4, d5⟩ := camLineDone_histo k loc { w with gn16Pixel := line } n
      h0 hs hw (by
        show n + (w.gnImageWidth.toNat : Int) ≤ 32767
        nlinarith)
    have dW : (camLineDone k loc { w with gn16Pixel := line }).gnImageWidth = w.gnImageWidth :=
      d5
    obtain ⟨r1, r2, r3, r4⟩ := ih (camLineDone k loc { w with gn16Pixel := line })
      (n + (w.gnImageWidth.toNat : Int)) d1 d2 d3 (by
        rw [dW]
        nlinarith)
    simp only [captureLines]
    rw [dW] at r2
    refine ⟨r1, ?_, r3, ?_⟩
    · rw [r2]
      ring
    · intro j hj
      rw [r4 j hj, d4 j hj]

/-- C37. From the frame-sync transition with `unLumCumulative = 0`, after the
passes of `k` lines of `gnImageWidth` pixels, with `k * gnImageWidth` at most
32767 (19200 for a whole frame of 160 by 120): the buckets `0 .. 127` of the
histogram sum to `k * gnImageWidth`, `unLumCumulative` is the sum over `i` of
`i * gunIHisto[i]`, every bucket is a count between 0 and `k * gnImageWidth`,
so no `int16_t` bucket has wrapped, every luminance used as an index is below
128, and the buckets outside `0 .. 127` are as before the frame. -/
theorem C37_histogram_counts_pixels (k : SamHeader) (loc : LineLocals)
    (lines : List (Int → Int)) (w : Firmware) (hC : w.unLumCumulative = 0)
    (hB : lines.length * w.gnImageWidth.toNat ≤ 32767) :
    histoSum (captureLines k loc lines (camFrameSync k w)).gunIHisto =
      ((lines.length * w.gnImageWidth.toNat : Nat) : Int) ∧
    ((captureLines k loc lines (camFrameSync k w)).unLumCumulative : Int) =
      histoWeighted (captureLines k loc lines (camFrameSync k w)).gunIHisto ∧
    (∀ i : Nat, i < 128 →
      0 ≤ (captureLines k loc lines (camFrameSync k w)).gunIHisto (i : Int) ∧
      (captureLines k loc lines (camFrameSync k w)).gunIHisto (i : Int) ≤
        ((lines.length * w.gnImageWidth.toNat : Nat) : Int) ∧
      (captureLines k loc lines (camFrameSync k w)).gunIHisto (i : Int) ≤ 32767) ∧
    (∀ j : Int, (j < 0 ∨ 128 ≤ j) →
      (captureLines k loc lines (camFrameSync k w)).gunIHisto j = w.gunIHisto j) ∧
    (∀ (v : Firmware) (c : Int), pixelLuminance v c < 128) ∧
    160 * 120 ≤ 32767 := by
  have z : ∀ i : Nat, i < 128 → (camFrameSync k w).gunIHisto (i : Int) = 0 := by
    intro i hi
    have hp : 0 ≤ (i : Int) ∧ (i : Int) < ((128 : Nat) : Int) := ⟨by omega, by exact_mod_cast hi⟩
    simp only [camFrameSync, clearHisto_apply, hp, and_self, if_true]
  have zout : ∀ j : Int, (j < 0 ∨ 128 ≤ j) → (camFrameSync k w).gunIHisto j = w.gunIHisto j := by
    intro j hj
    have hp : ¬ (0 ≤ j ∧ j < ((128 : Nat) : Int)) := by
      push_cast
      omega
    simp only [camFrameSync, clearHisto_apply, hp, if_false]
    rfl
  have h0 : ∀ i : Nat, i < 128 → 0 ≤ (camFrameSync k w).gunIHisto (i : Int) := by
    intro i hi
    rw [z i hi]
  have hs : histoSum (camFrameSync k w).gunIHisto = 0 := by
    unfold histoSum
    apply Finset.sum_eq_zero
    intro i hi
    exact z i (Finset.mem_range.mp hi)
  have hwt : histoWeighted (camFrameSync k w).gunIHisto = 0 := by
    unfold histoWeighted
    apply Finset.sum_eq_zero
    intro i hi
    rw [z i (Finset.mem_range.mp hi)]
    ring
  have hcum : ((camFrameSync k w).unLumCumulative : Int) =
      histoWeighted (camFrameSync k w).gunIHisto := by
    rw [hwt]
    show ((w.unLumCumulative : Nat) : Int) = 0
    rw [hC]
    rfl
  have hW : (camFrameSync k w).gnImageWidth = w.gnImageWidth := rfl
  obtain ⟨c1, c2, c3, c4⟩ := captureLines_histo k loc lines (camFrameSync k w) 0 h0 hs hcum (by
    rw [hW]
    have : ((lines.length * w.gnImageWidth.toNat : Nat) : Int) ≤ 32767 := by exact_mod_cast hB
    push_cast at this
    omega)
  rw [hW] at c2
  have hsum : histoSum (captureLines k loc lines (camFrameSync k w)).gunIHisto =
      ((lines.length * w.gnImageWidth.toNat : Nat) : Int) := by
    rw [c2]
    push_cast
    ring
  refine ⟨hsum, c3, ?_, ?_, pixelLuminance_lt, by decide⟩
  · intro i hi
    obtain ⟨b1, -, -⟩ := histo_bucket_le _ c1 i hi
    rw [hsum] at b1
    have : ((lines.length * w.gnImageWidth.toNat : Nat) : Int) ≤ 32767 := by exact_mod_cast hB
    exact ⟨c1 i hi, b1, by omega⟩
  · intro j hj
    rw [c4 j hj, zout j hj]

/-- C37 on an image of 2 by 2 pixels after the two lines of a frame. -/
theorem C37_witness :
    tinyCamera.world.unLumCumulative = 0 ∧
    [fun c => 0x1234 + c, fun c => 0x4321 + c].length * tinyCamera.world.gnImageWidth.toNat
      ≤ 32767 ∧
    histoSum (captureLines sam4s someLocals [fun c => 0x1234 + c, fun c => 0x4321 + c]
      (camFrameSync sam4s tinyCamera.world)).gunIHisto =
      (([fun c => 0x1234 + c, fun c => 0x4321 + c].length *
        tinyCamera.world.gnImageWidth.toNat : Nat) : Int) ∧
    ((captureLines sam4s someLocals [fun c => 0x1234 + c, fun c => 0x4321 + c]
      (camFrameSync sam4s tinyCamera.world)).unLumCumulative : Int) =
      histoWeighted (captureLines sam4s someLocals [fun c => 0x1234 + c, fun c => 0x4321 + c]
        (camFrameSync sam4s tinyCamera.world)).gunIHisto :=
  have h := C37_histogram_counts_pixels sam4s someLocals
    [fun c => 0x1234 + c, fun c => 0x4321 + c] tinyCamera.world rfl (by decide)
  ⟨rfl, by decide, h.1, h.2.1⟩

end SAM4S
